import Mathlib

/-!
# Patchable Devices: per-sample processing logic

A shallow embedding of the `process` functions of the Voltage Sequencer, the
Window Generators, the Comparing Counter, the Dual Integrator, the Digital
Chaotic System and the Nonlinear Integrator modules, with the properties of
their state machines.

Conventions of the embedding:
* a voltage (`float`) is an exact rational number, so every comparison and
  every sum is exact;
* `unsigned char` is a natural number, `signed char` an integer; conversions
  that can wrap are written with an explicit residue;
* a module is a structure holding its member variables together with its
  output and light slots; `process` maps the state before a sample and the
  sample's ports to the state after it;
* `inputs[i]`, `params[i]`, `outputs[i]`, `lights[i]` are functions of the
  slot index.
-/

namespace PatchableDevices

/-! ## voltage_helpers.cpp -/

/-- Level `triggerThresholdLevel = 1.8f`. -/
def triggerThresholdLevel : ℚ := 9 / 5

/-- Level `gateOn = 5.f`. -/
def gateOn : ℚ := 5

/-- Level `gateOff = 0.f`. -/
def gateOff : ℚ := 0

/-- Brightness `ledOn = 1.f`. -/
def ledOn : ℚ := 1

/-- Brightness `ledOff = 0.f`. -/
def ledOff : ℚ := 0

/-! ## Host types used by the modules -/

/-- Four lanes processed in lock-step (`simd::float_4` when the lanes are
voltages, a lane mask when they are booleans). -/
structure Lanes (α : Type) where
  l0 : α
  l1 : α
  l2 : α
  l3 : α

/-- The 4-wide voltage vector. -/
abbrev float_4 : Type := Lanes ℚ

/-- Lane access `v[i]`. -/
def Lanes.get {α : Type} (v : Lanes α) : Nat → α
  | 0 => v.l0
  | 1 => v.l1
  | 2 => v.l2
  | _ => v.l3

/-- Lane-wise combination of two vectors. -/
def Lanes.zip {α β γ : Type} (f : α → β → γ) (v : Lanes α) (w : Lanes β) : Lanes γ :=
  ⟨f v.l0 w.l0, f v.l1 w.l1, f v.l2 w.l2, f v.l3 w.l3⟩

/-- Lane-wise image of a vector. -/
def Lanes.map {α β : Type} (f : α → β) (v : Lanes α) : Lanes β :=
  ⟨f v.l0, f v.l1, f v.l2, f v.l3⟩

/-- The vector `float_4::zero()`. -/
def float_4.zero : float_4 := ⟨0, 0, 0, 0⟩

/-- The 0/1 value of a boolean used in arithmetic. -/
def b2n (b : Bool) : Nat := if b then 1 else 0

/-- The bit mask `movemask(v)` of a lane mask: bit `i` is lane `i`. -/
def movemask (v : Lanes Bool) : Nat :=
  b2n v.l0 + 2 * b2n v.l1 + 4 * b2n v.l2 + 8 * b2n v.l3

/-- Modelled from the spec: the host library function `clamp` is not part of
the repository; `clamp x a b` limits `x` to the range from `a` to `b`. -/
def clamp (x a b : ℚ) : ℚ := max a (min x b)

/-- What the host hands to `process` on one sample: the input voltages, the
parameter values and `args.sampleTime`. -/
structure Ports where
  inputs : Nat → ℚ
  params : Nat → ℚ
  sampleTime : ℚ

/-- Modelled from the spec: the host library type `TSchmittTrigger` is not part
of the repository. One channel of it keeps one latched bit; a call turns the
bit `HIGH` when the input is at or above the high threshold, `LOW` when the
input is at or below the low threshold, keeps it otherwise, and reports a
trigger exactly when the bit was not high before and the input is at or above
the high threshold. The pair returned is (triggered, new latched bit). Where
both threshold tests hold the bit is high, as in the repository's own
`BitMaskSchmittTrigger`, which is written after this type. -/
def schmittLane (state : Bool) (x low high : ℚ) : Bool × Bool :=
  let isOn := decide (high ≤ x)
  let isOff := decide (x ≤ low)
  (!state && isOn, isOn || (state && !isOff))

/-- Modelled from the spec: the 4-channel `TSchmittTrigger<float_4>::process`,
four independent channels of `schmittLane`. The pair returned is
(trigger mask, new latched state). -/
def schmitt4 (state : Lanes Bool) (x : float_4) (low high : ℚ) : Lanes Bool × Lanes Bool :=
  (⟨(schmittLane state.l0 x.l0 low high).1, (schmittLane state.l1 x.l1 low high).1,
    (schmittLane state.l2 x.l2 low high).1, (schmittLane state.l3 x.l3 low high).1⟩,
   ⟨(schmittLane state.l0 x.l0 low high).2, (schmittLane state.l1 x.l1 low high).2,
    (schmittLane state.l2 x.l2 low high).2, (schmittLane state.l3 x.l3 low high).2⟩)

/-- The state of a freshly constructed 4-channel trigger: every channel high. -/
def schmitt4Init : Lanes Bool := ⟨true, true, true, true⟩

/-- Conversion of an `int` to `signed char` (two's complement, 8 bits). -/
def toSignedChar (x : Int) : Int := (x + 128) % 256 - 128

/-! ## VoltageSequencer.cpp -/

/-- The member variables of `struct VoltageSequencer` with its output and light
slots. `sigTriggers`, `presetTrig` and `clock` hold the latched bits of the
three trigger detectors. -/
structure VoltageSequencer where
  signals : Lanes Bool
  sigTriggers : Lanes Bool
  direction : Nat
  vStage : Nat
  changeInfo : Nat
  presetTrig : Bool
  clock : Bool
  stage : Int
  newStage : Int
  preset : Nat
  outputs : Nat → ℚ
  lights : Nat → ℚ

namespace VoltageSequencer

/-- Parameter slot of the clock enable switch. -/
def CLOCK_EN_PARAM : Nat := 24
/-- Parameter slot of the vertical clock enable switch. -/
def VCLOCK_EN_PARAM : Nat := 25
/-- Input slot of the reset trigger. -/
def RESET_INPUT : Nat := 8
/-- Input slot of the preset trigger. -/
def PRESET_INPUT : Nat := 9
/-- Input slot of the hold gate. -/
def HOLD_INPUT : Nat := 10
/-- Input slot of the direction trigger. -/
def DIRECTION_INPUT : Nat := 11
/-- Input slot of the clock. -/
def CLOCK_IN_INPUT : Nat := 12
/-- Input slot of the vertical clock. -/
def VCLOCK_IN_INPUT : Nat := 13
/-- Output slot of the all-gates pulse. -/
def ALLGATES_OUTPUT : Nat := 8
/-- Output slot of row A. -/
def A_OUT_OUTPUT : Nat := 9
/-- Output slot of row B. -/
def B_OUT_OUTPUT : Nat := 10
/-- Output slot of A-B. -/
def A_B_OUTPUT : Nat := 11
/-- Output slot of min(A,B). -/
def MIN_OUTPUT : Nat := 12
/-- Output slot of max(A,B). -/
def MAX_OUTPUT : Nat := 13
/-- Output slot of the stage voltage. -/
def STAGE_OUTPUT : Nat := 14
/-- Output slot of the row selected by the vertical stage. -/
def AB_OUTPUT : Nat := 15

/-- Whole tone step `stageVoltageFactor = 1.f / 6.f`. -/
def stageVoltageFactor : ℚ := 1 / 6

/-- The method `changeState(newStage)`: the light and the gate of the current
stage are turned off, the stage becomes `newStage & 0x07` (the residue of the
two's complement value modulo 8) and its light is turned on. -/
def changeState (m : VoltageSequencer) (newStage : Int) : VoltageSequencer :=
  let m1 := { m with lights := Function.update m.lights m.stage.toNat ledOff }
  let m2 := { m1 with outputs := Function.update m1.outputs m1.stage.toNat gateOff }
  let m3 := { m2 with stage := newStage % 8 }
  { m3 with lights := Function.update m3.lights m3.stage.toNat ledOn }

/-- The method `changeVState()`. -/
def changeVState (m : VoltageSequencer) : VoltageSequencer :=
  let m1 := { m with lights := Function.update m.lights (m.vStage + 8) ledOff }
  let m2 := { m1 with vStage := (m1.vStage + 1) &&& 1 }
  { m2 with lights := Function.update m2.lights (m2.vStage + 8) ledOn }

/-- The member initialisers of the structure, before the constructor body:
every output and light at 0, `vStage = 1`, every trigger detector in its
initial (high) state. -/
def fields : VoltageSequencer where
  signals := ⟨false, false, false, false⟩
  sigTriggers := schmitt4Init
  direction := 0
  vStage := 1
  changeInfo := 0
  presetTrig := true
  clock := true
  stage := 0
  newStage := 0
  preset := 0
  outputs := fun _ => 0
  lights := fun _ => 0

/-- The constructed module: `changeState(0); changeVState();` on the member
initialisers. -/
def init : VoltageSequencer := changeVState (changeState fields 0)

/-- The voltages handed to `sigTriggers.process`: direction, enabled vertical
clock, reset, and a lane that is always 0. -/
def priorityInputs (p : Ports) : float_4 :=
  ⟨p.inputs DIRECTION_INPUT, p.params VCLOCK_EN_PARAM * p.inputs VCLOCK_IN_INPUT,
   p.inputs RESET_INPUT, 0⟩

/-- First part of `process`: the priority triggers are processed, then the
direction change and the vertical stage change are applied. -/
def processPriority (m : VoltageSequencer) (p : Ports) : VoltageSequencer :=
  let r := schmitt4 m.sigTriggers (priorityInputs p) triggerThresholdLevel triggerThresholdLevel
  let m1 := { m with signals := r.1, sigTriggers := r.2 }
  let m2 := if m1.signals.l0 then { m1 with direction := (m1.direction + 1) &&& 1 } else m1
  if m2.signals.l1 then changeVState m2 else m2

/-- The select level of step `i`: `inputs[i] + 10 * params[i + 16]`. -/
def selectLevel (p : Ports) (i : Nat) : ℚ := p.inputs i + 10 * p.params (i + 16)

/-- The loop over the select inputs, from index `i` with `k` iterations left:
an index whose level is below the threshold is skipped; the first other index
is stored in `preset`, bit 0 of `changeInfo` is set and the loop is left. -/
def selectLoop (p : Ports) (m : VoltageSequencer) : Nat → Nat → VoltageSequencer
  | 0, _ => m
  | k + 1, i =>
    if selectLevel p i < triggerThresholdLevel then selectLoop p m k (i + 1)
    else { m with preset := i, changeInfo := m.changeInfo ||| 1 }

/-- Second part of `process`: `newStage` and `changeInfo` are computed from the
reset signal, the select inputs, the preset trigger, the hold gate and the
clock, with the short-circuit evaluation of the source. -/
def decideChange (m : VoltageSequencer) (p : Ports) : VoltageSequencer :=
  let m1 := { m with newStage := 0 }
  let m2 := { m1 with changeInfo := b2n m1.signals.l2 <<< 3 }
  if m2.changeInfo = 0 then
    let m3 := selectLoop p m2 8 0
    if m3.changeInfo ≠ 0 then
      { m3 with newStage := toSignedChar m3.preset, changeInfo := m3.changeInfo ||| 4 }
    else
      let r := schmittLane m3.presetTrig (p.inputs PRESET_INPUT)
        triggerThresholdLevel triggerThresholdLevel
      let m4 := { m3 with presetTrig := r.2 }
      if r.1 then
        { m4 with newStage := toSignedChar m4.preset, changeInfo := m4.changeInfo ||| 4 }
      else if p.inputs HOLD_INPUT < triggerThresholdLevel then
        let c := schmittLane m4.clock (p.params CLOCK_EN_PARAM * p.inputs CLOCK_IN_INPUT)
          triggerThresholdLevel triggerThresholdLevel
        let m5 := { m4 with clock := c.2 }
        if c.1 then
          { m5 with
            newStage := toSignedChar (m5.stage + (if m5.direction ≠ 0 then -1 else 1)),
            changeInfo := m5.changeInfo ||| 2 }
        else m5
      else m4
  else m2

/-- Third part of `process`: the state change is applied if one was requested
and the outputs are written. -/
def writeOutputs (m : VoltageSequencer) (p : Ports) : VoltageSequencer :=
  let m1 := if m.changeInfo ≠ 0 then changeState m m.newStage else m
  let o1 := Function.update m1.outputs m1.stage.toNat gateOn
  let o2 := Function.update o1 ALLGATES_OUTPUT (gateOn * ((m1.changeInfo &&& 1 : Nat) : ℚ))
  let a := p.params m1.stage.toNat
  let b := p.params (m1.stage.toNat + 8)
  let o3 := Function.update o2 A_OUT_OUTPUT a
  let o4 := Function.update o3 B_OUT_OUTPUT b
  let o5 := Function.update o4 A_B_OUTPUT (a - b)
  let o6 := Function.update o5 MIN_OUTPUT (min a b)
  let o7 := Function.update o6 MAX_OUTPUT (max a b)
  let o8 := Function.update o7 STAGE_OUTPUT ((m1.stage : ℚ) * stageVoltageFactor)
  let o9 := Function.update o8 AB_OUTPUT (if m1.vStage ≠ 0 then b else a)
  { m1 with outputs := o9 }

/-- The method `process(args)`. -/
def process (m : VoltageSequencer) (p : Ports) : VoltageSequencer :=
  writeOutputs (decideChange (processPriority m p) p) p

/-- A run of `process` calls, one per sample. -/
def run (m : VoltageSequencer) (ps : List Ports) : VoltageSequencer :=
  ps.foldl process m

/-- The trigger mask `signals` computed on this sample. -/
def signalsOf (m : VoltageSequencer) (p : Ports) : Lanes Bool :=
  (schmitt4 m.sigTriggers (priorityInputs p) triggerThresholdLevel triggerThresholdLevel).1

/-- The Direction trigger fires on this sample (`signals[0]`). -/
def directionFires (m : VoltageSequencer) (p : Ports) : Bool := (signalsOf m p).l0

/-- The enabled Vertical-clock trigger fires on this sample (`signals[1]`). -/
def vclockFires (m : VoltageSequencer) (p : Ports) : Bool := (signalsOf m p).l1

/-- The Reset trigger fires on this sample (`signals[2]`). -/
def resetFires (m : VoltageSequencer) (p : Ports) : Bool := (signalsOf m p).l2

/-- The Preset trigger detector reports a trigger for this sample's input. -/
def presetFires (m : VoltageSequencer) (p : Ports) : Bool :=
  (schmittLane m.presetTrig (p.inputs PRESET_INPUT)
    triggerThresholdLevel triggerThresholdLevel).1

/-- The clock detector reports a rising edge of the enabled clock for this
sample's input. -/
def clockEdge (m : VoltageSequencer) (p : Ports) : Bool :=
  (schmittLane m.clock (p.params CLOCK_EN_PARAM * p.inputs CLOCK_IN_INPUT)
    triggerThresholdLevel triggerThresholdLevel).1

/-- No select level reaches the threshold on this sample. -/
def noSelect (p : Ports) : Prop := ∀ i, i < 8 → selectLevel p i < triggerThresholdLevel

/-- Step `i` is the lowest index whose select level reaches the threshold. -/
def lowestSelect (p : Ports) (i : Nat) : Prop :=
  i < 8 ∧ triggerThresholdLevel ≤ selectLevel p i ∧
    ∀ j, j < i → selectLevel p j < triggerThresholdLevel

/-- The current step is one of the eight steps 0..7. -/
def StageInRange (m : VoltageSequencer) : Prop := 0 ≤ m.stage ∧ m.stage < 8

/-- A sample on which Reset, Direction and Preset do not fire, no select level
reaches the threshold, Hold is below the threshold and the clock is enabled. -/
def ClockOnly (m : VoltageSequencer) (p : Ports) : Prop :=
  resetFires m p = false ∧ directionFires m p = false ∧ presetFires m p = false ∧
    noSelect p ∧ p.inputs HOLD_INPUT < triggerThresholdLevel ∧ p.params CLOCK_EN_PARAM = 1

/-- Every sample of the run is a `ClockOnly` sample for the state it meets. -/
def ClockOnlyRun : VoltageSequencer → List Ports → Prop
  | _, [] => True
  | m, p :: ps => ClockOnly m p ∧ ClockOnlyRun (process m p) ps

/-- The number of clock rising edges detected along the run. -/
def clockEdges : VoltageSequencer → List Ports → Nat
  | _, [] => 0
  | m, p :: ps => b2n (clockEdge m p) + clockEdges (process m p) ps

/-- The signed step of a direction: +1 forward (0), -1 backward. -/
def stepOf (direction : Nat) : Int := if direction ≠ 0 then -1 else 1

/-- Every step gate other than the one of the current step is at `gateOff`. -/
def GatesOffElsewhere (m : VoltageSequencer) : Prop :=
  ∀ j, j < 8 → j ≠ m.stage.toNat → m.outputs j = gateOff

/-- A state at step `k` whose trigger detectors are all low (armed). -/
def armedAt (k : Int) : VoltageSequencer :=
  { init with
    sigTriggers := ⟨false, false, false, false⟩, presetTrig := false, clock := false,
    stage := k }

/-- A sample with every input at 0 V and only the clock enable switch on. -/
def clockLow : Ports :=
  ⟨fun _ => 0, fun i => if i = CLOCK_EN_PARAM then 1 else 0, 1 / 48000⟩

/-- A sample with the clock input at 5 V, every other input at 0 V and the
clock enable switch on. -/
def clockHigh : Ports :=
  ⟨fun i => if i = CLOCK_IN_INPUT then 5 else 0,
   fun i => if i = CLOCK_EN_PARAM then 1 else 0, 1 / 48000⟩

/-- Eight clock pulses: the clock input alternates low, high sixteen times. -/
def eightPulses : List Ports :=
  [clockLow, clockHigh, clockLow, clockHigh, clockLow, clockHigh, clockLow, clockHigh,
   clockLow, clockHigh, clockLow, clockHigh, clockLow, clockHigh, clockLow, clockHigh]

/-- A sample with the reset input at 5 V and select input 3 at 5 V. -/
def resetHigh : Ports :=
  ⟨fun i => if i = RESET_INPUT then 5 else if i = 3 then 5 else 0, fun _ => 0, 1 / 48000⟩

/-- A sample with select inputs 5 and 6 at 5 V and the clock at 5 V. -/
def selectFive : Ports :=
  ⟨fun i => if i = 5 then 5 else if i = 6 then 5 else if i = CLOCK_IN_INPUT then 5 else 0,
   fun i => if i = CLOCK_EN_PARAM then 1 else 0, 1 / 48000⟩

end VoltageSequencer

/-! ## WindowGenerators.cpp -/

/-- Modelled from the spec: the host library type `TSlewLimiter` is not part of
the repository. One channel of `process(sampleTime, target)`: if the target is
above the current output the output moves up by
`min(target - current, riseRate * sampleTime)`, if it is below the output moves
down by `min(current - target, fallRate * sampleTime)`, if equal it stays. -/
def slewLane (out rise fall sampleTime target : ℚ) : ℚ :=
  if out < target then out + min (target - out) (rise * sampleTime)
  else if target < out then out - min (out - target) (fall * sampleTime)
  else out

/-- Modelled from the spec: the members of the 4-channel `TSlewLimiter`: the
current output and the rise and fall rates, all 0 after construction. -/
structure TSlewLimiter where
  out : float_4
  rise : float_4
  fall : float_4

/-- Modelled from the spec: `TSlewLimiter::process` on four channels. -/
def TSlewLimiter.process (s : TSlewLimiter) (sampleTime : ℚ) (target : float_4) : TSlewLimiter :=
  { s with out :=
      ⟨slewLane s.out.l0 s.rise.l0 s.fall.l0 sampleTime target.l0,
       slewLane s.out.l1 s.rise.l1 s.fall.l1 sampleTime target.l1,
       slewLane s.out.l2 s.rise.l2 s.fall.l2 sampleTime target.l2,
       slewLane s.out.l3 s.rise.l3 s.fall.l3 sampleTime target.l3⟩ }

/-- The member variables of `struct WindowGenerators` with its output slots.
`tg` holds the latched bits of the trigger/gate detector. -/
structure WindowGenerators where
  triggerGate : Lanes Bool
  tg : Lanes Bool
  times : float_4
  cvs : float_4
  stage : Nat
  envTargets : float_4
  rises : float_4
  falls : float_4
  envs : TSlewLimiter
  envOuts : float_4
  outputs : Nat → ℚ

namespace WindowGenerators

/-- Maximum envelope voltage `envMax = 10.f`. -/
def envMax : ℚ := 10

/-- Parameter slot of the shape knob. -/
def SHAPE_PARAM : Nat := 10
/-- Parameter slot of the manual gate button. -/
def BUT_PARAM : Nat := 11
/-- Input slot of the gate. -/
def GATE_INPUT : Nat := 5
/-- Input slot of the trigger. -/
def TRIG_INPUT : Nat := 6
/-- Input slot of the CV for all times. -/
def VALL_INPUT : Nat := 7
/-- Output slot of the ADASR envelope. -/
def ADASR_OUTPUT : Nat := 8
/-- Output slot of the END gate. -/
def G0_OUTPUT : Nat := 9

/-- The constructed module: stage 5 (END), envelope outputs 0, detector in its
initial (high) state, every output at 0; the members the source leaves without
an initialiser are set to 0. -/
def init : WindowGenerators where
  triggerGate := ⟨false, false, false, false⟩
  tg := schmitt4Init
  times := float_4.zero
  cvs := float_4.zero
  stage := 5
  envTargets := float_4.zero
  rises := float_4.zero
  falls := float_4.zero
  envs := ⟨float_4.zero, float_4.zero, float_4.zero⟩
  envOuts := float_4.zero
  outputs := fun _ => 0

/-- The method `updateStage()`; the result is converted to `unsigned char`. -/
def updateStage (m : WindowGenerators) : Nat :=
  if movemask m.triggerGate ≠ 0 ∧ m.stage > 2 then 0
  else if m.stage = 3 then 3 + b2n (!m.tg.l1)
  else if m.stage = 5 then 5
  else (m.stage + b2n (decide (m.envOuts.l3 = m.envTargets.l3))) % 256

/-- The method `updateTargets()`. -/
def updateTargets (m : WindowGenerators) : float_4 :=
  if m.stage < 2 then
    let isDelayed : Bool := decide (m.stage ≠ 0)
    let delayed : ℚ := envMax * (b2n isDelayed : ℚ)
    ⟨delayed, envMax, delayed, envMax * (b2n (!isDelayed) : ℚ)⟩
  else if m.stage < 4 then
    let sus := m.cvs.l0
    ⟨sus, sus, if m.stage - 2 ≠ 0 then 0 else envMax, sus⟩
  else float_4.zero

/-- The method `voltageToTime(values)`; `pow2 x` stands for the library call
`pow(2.f, x)`, which is a parameter of the embedding. -/
def voltageToTime (pow2 : ℚ → ℚ) (m : WindowGenerators) (values : float_4) : float_4 :=
  Lanes.zip (fun v e => 2 * envMax * pow2 (clamp (v + m.cvs.l1 + m.cvs.l2 * e) (-6) 8))
    values m.envOuts

/-- The voltages handed to `tg.process`: trigger, gate plus manual button, and
two lanes that are always 0. -/
def tgInputs (p : Ports) : float_4 :=
  ⟨p.inputs TRIG_INPUT, p.inputs GATE_INPUT + gateOn * p.params BUT_PARAM, 0, 0⟩

/-- One pass of the output loop, for index `i`. -/
def writeStep (m : WindowGenerators) (o : Nat → ℚ) (i : Nat) : Nat → ℚ :=
  let o1 := Function.update o i (gateOn * (b2n (decide (i = m.stage)) : ℚ))
  if i < 4 then Function.update o1 (i + 5) (m.envOuts.get i) else o1

/-- First part of `process`: the trigger and gate inputs are processed and the
time and level controls are read (`times`, `cvs`, with the sustain level
limited to 0..`envMax`). -/
def readControls (m : WindowGenerators) (p : Ports) : WindowGenerators :=
  let r := schmitt4 m.tg (tgInputs p) triggerThresholdLevel triggerThresholdLevel
  let times : float_4 :=
    ⟨p.inputs 0 * p.params 5 + p.params 0, p.inputs 1 * p.params 6 + p.params 1,
     p.inputs 2 * p.params 7 + p.params 2, p.inputs 4 * p.params 9 + p.params 4⟩
  let cvs : float_4 :=
    ⟨clamp (p.inputs 3 * p.params 8 + p.params 3) 0 envMax, 0 * 0 + p.inputs VALL_INPUT,
     0 * 0 + p.params SHAPE_PARAM, 0 * 0 + 0⟩
  { m with triggerGate := r.1, tg := r.2, times := times, cvs := cvs }

/-- Second part of `process`: `stage = updateStage();`. -/
def advanceStage (m : WindowGenerators) : WindowGenerators :=
  { m with stage := updateStage m }

/-- Third part of `process`: `envTargets = updateTargets();`. -/
def setTargets (m : WindowGenerators) : WindowGenerators :=
  { m with envTargets := updateTargets m }

/-- Fourth part of `process`: the rise and fall rates are computed from the
times selected by the stage and handed to the slew limiters. -/
def setRates (pow2 : ℚ → ℚ) (m : WindowGenerators) : WindowGenerators :=
  let rises := voltageToTime pow2 m
    ⟨m.times.get 1, m.times.get 0, m.times.get 1, m.times.get (2 * b2n (decide (m.stage > 1)))⟩
  let inSustain : Bool := decide (m.stage > 2)
  let threeOrFour := m.times.get (2 + b2n inSustain)
  let falls := voltageToTime pow2 m
    ⟨threeOrFour, threeOrFour, m.times.get 3, m.times.get (1 + 2 * b2n inSustain)⟩
  { m with rises := rises, falls := falls, envs := { m.envs with rise := rises, fall := falls } }

/-- Fifth part of `process`: the slew step, limited to 0..`envMax`. -/
def slew (m : WindowGenerators) (p : Ports) : WindowGenerators :=
  let e := m.envs.process p.sampleTime m.envTargets
  { m with envs := e, envOuts := Lanes.map (fun x => clamp x 0 envMax) e.out }

/-- Last part of `process`: the stage gates, the envelopes and the END gate are
written. -/
def writeOutputs (m : WindowGenerators) : WindowGenerators :=
  let o := (List.range 5).foldl (writeStep m) m.outputs
  { m with outputs := Function.update o G0_OUTPUT (gateOn * (b2n (decide (5 = m.stage)) : ℚ)) }

/-- The method `process(args)`. -/
def process (pow2 : ℚ → ℚ) (m : WindowGenerators) (p : Ports) : WindowGenerators :=
  writeOutputs (slew (setRates pow2 (setTargets (advanceStage (readControls m p)))) p)

/-- A run of `process` calls, one per sample. -/
def run (pow2 : ℚ → ℚ) (m : WindowGenerators) (ps : List Ports) : WindowGenerators :=
  ps.foldl (process pow2) m

/-- A rising edge is detected on the trigger input on this sample. -/
def trigEdge (m : WindowGenerators) (p : Ports) : Bool :=
  (schmitt4 m.tg (tgInputs p) triggerThresholdLevel triggerThresholdLevel).1.l0

/-- A rising edge is detected on the gate (gate input plus manual button) on
this sample. -/
def gateEdge (m : WindowGenerators) (p : Ports) : Bool :=
  (schmitt4 m.tg (tgInputs p) triggerThresholdLevel triggerThresholdLevel).1.l1

/-- The gate level of the sample: gate input + 5 V x manual button. -/
def gateLevel (p : Ports) : ℚ := p.inputs GATE_INPUT + gateOn * p.params BUT_PARAM

/-- Every sample of the run has no rising edge on trigger or gate, for the
state it meets, and a gate level at or above the threshold (gate held high). -/
def GateHeld (pow2 : ℚ → ℚ) : WindowGenerators → List Ports → Prop
  | _, [] => True
  | m, p :: ps =>
    (trigEdge m p = false ∧ gateEdge m p = false ∧ triggerThresholdLevel ≤ gateLevel p) ∧
      GateHeld pow2 (process pow2 m p) ps

/-- A state in stage `k` whose detector channels are all high. -/
def inStage (k : Nat) : WindowGenerators := { init with stage := k }

/-- A state in stage `k` whose detector channels are all low. -/
def armedInStage (k : Nat) : WindowGenerators :=
  { init with stage := k, tg := ⟨false, false, false, false⟩ }

/-- A sample with the gate input at 5 V and everything else at 0. -/
def gateHigh : Ports := ⟨fun i => if i = GATE_INPUT then 5 else 0, fun _ => 0, 1 / 48000⟩

/-- A sample with every input and parameter at 0. -/
def allLow : Ports := ⟨fun _ => 0, fun _ => 0, 1 / 48000⟩

/-- A stand-in for `pow(2.f, x)` on which the concrete samples are evaluated. -/
def unitRate : ℚ → ℚ := fun _ => 1

end WindowGenerators

/-! ## ComparingCounter.cpp -/

/-- The member variables of `struct ComparingCounter` with its output slots.
`trigger` holds the latched bit of the trigger detector. -/
structure ComparingCounter where
  cmp : ℚ
  counter : ℚ
  input : float_4
  trigger : Bool
  outputs : Nat → ℚ

namespace ComparingCounter

/-- Parameter slot of the threshold. -/
def REFERENCE_PARAM : Nat := 0
/-- Parameter slot of the counter maximum. -/
def COUNTER_LIMIT_PARAM : Nat := 1
/-- Parameter slot of the attenuator of signal A. -/
def A_POT_PARAM : Nat := 2
/-- Parameter slot of the attenuverter of the counter maximum CV. -/
def COUNT_CV_ATTV_PARAM : Nat := 3
/-- Input slot of signal A. -/
def A_INPUT : Nat := 0
/-- Input slot of the counter maximum CV. -/
def COUNT_CV_INPUT : Nat := 1
/-- Input slot of signal B. -/
def B_INPUT : Nat := 2
/-- Output slot of the compare gate. -/
def COMPARE_OUTPUT : Nat := 0
/-- Output slot of the END gate. -/
def END_OUTPUT : Nat := 1
/-- Output slot of the counter value. -/
def COUNTER_OUTPUT : Nat := 2

/-- Whole tone voltage step `increment = 1.f / 6.f`. -/
def increment : ℚ := 1 / 6

/-- Maximum counter value `topMax = increment * 31.f`. -/
def topMax : ℚ := increment * 31

/-- The vector `input` of the sample: `y = (x * a) + b` on each lane. -/
def inputOf (p : Ports) : float_4 :=
  ⟨p.inputs A_INPUT * p.params A_POT_PARAM + 0,
   p.inputs B_INPUT * 1 + p.params REFERENCE_PARAM,
   p.inputs COUNT_CV_INPUT * p.params COUNT_CV_ATTV_PARAM + p.params COUNTER_LIMIT_PARAM,
   0 * 0 + 0⟩

/-- The method `process(args)`. -/
def process (m : ComparingCounter) (p : Ports) : ComparingCounter :=
  let m1 := { m with input := inputOf p }
  let m2 := { m1 with cmp := gateOn * (b2n (decide (m1.input.l1 < m1.input.l0)) : ℚ) }
  let t := schmittLane m2.trigger m2.cmp triggerThresholdLevel triggerThresholdLevel
  let m3 := { m2 with trigger := t.2, counter := m2.counter + increment * (b2n t.1 : ℚ) }
  let m4 := if clamp m3.input.l2 0 topMax ≤ m3.counter then { m3 with counter := 0 } else m3
  let o1 := Function.update m4.outputs COMPARE_OUTPUT m4.cmp
  let o2 := Function.update o1 COUNTER_OUTPUT m4.counter
  let o3 := Function.update o2 END_OUTPUT
    (gateOn * (b2n (m4.trigger && decide (m4.counter = 0)) : ℚ))
  { m4 with outputs := o3 }

/-- A run of `process` calls, one per sample. -/
def run (m : ComparingCounter) (ps : List Ports) : ComparingCounter :=
  ps.foldl process m

/-- The clamped ceiling of the sample: `clamp(input[2], 0.f, topMax)`. -/
def ceilingOf (p : Ports) : ℚ := clamp (inputOf p).l2 0 topMax

/-- The compare value `cmp` of the sample. -/
def cmpOf (p : Ports) : ℚ := gateOn * (b2n (decide ((inputOf p).l1 < (inputOf p).l0)) : ℚ)

/-- A comparator rising edge is detected on this sample. -/
def cmpEdge (m : ComparingCounter) (p : Ports) : Bool :=
  (schmittLane m.trigger (cmpOf p) triggerThresholdLevel triggerThresholdLevel).1

/-- The number of comparator rising edges detected along the run. -/
def cmpEdges : ComparingCounter → List Ports → Nat
  | _, [] => 0
  | m, p :: ps => b2n (cmpEdge m p) + cmpEdges (process m p) ps

/-- A counter at 0 V whose detector is low, every output at 0. -/
def armed : ComparingCounter := ⟨0, 0, float_4.zero, false, fun _ => 0⟩

/-- A sample with A at 5 V (attenuator fully open), B at 0 V, threshold 0 and
the counter maximum knob at 1/2 V. -/
def aHigh : Ports :=
  ⟨fun i => if i = A_INPUT then 5 else 0,
   fun i => if i = A_POT_PARAM then 1 else if i = COUNTER_LIMIT_PARAM then 1 / 2 else 0,
   1 / 48000⟩

/-- The same sample with A at 0 V. -/
def aLow : Ports :=
  ⟨fun _ => 0,
   fun i => if i = A_POT_PARAM then 1 else if i = COUNTER_LIMIT_PARAM then 1 / 2 else 0,
   1 / 48000⟩

end ComparingCounter

/-! ## More of voltage_helpers.cpp -/

/-- Bound `vMin = -12.f`. -/
def vMin : ℚ := -12

/-- Bound `vMax = 12.f`. -/
def vMax : ℚ := 12

/-! ## DualIntegrator.cpp -/

/-- The low 8 bits of the complement `~x` of a non-negative `int` value `x`; the
sites that use `~` keep at most these bits. -/
def complement8 (x : Nat) : Nat := (x ^^^ 255) % 256

/-- The member `state` of `struct BitMaskSchmittTrigger` (an `unsigned char`);
`_mask` is the constant 0x03. -/
structure BitMaskSchmittTrigger where
  state : Nat

namespace BitMaskSchmittTrigger

/-- The member `_mask = 0x03`. -/
def mask : Nat := 3

/-- The method `reset()`: `state = 0xff`. -/
def reset : BitMaskSchmittTrigger := ⟨255⟩

/-- The method `isHigh()`. -/
def isHigh (t : BitMaskSchmittTrigger) : Nat := t.state

/-- The bit mask `on` of a call: bit `c` is set when input `c` is at or above
`highThreshold`. -/
def onMask (in1 in2 highThreshold : ℚ) : Nat :=
  b2n (decide (highThreshold ≤ in1)) ||| (b2n (decide (highThreshold ≤ in2)) <<< 1)

/-- The bit mask `off` of a call: as written in the source, bit `c` is set when
input `c` is at or below `highThreshold`. -/
def offMask (in1 in2 highThreshold : ℚ) : Nat :=
  b2n (decide (in1 ≤ highThreshold)) ||| (b2n (decide (in2 ≤ highThreshold)) <<< 1)

/-- The method `process(in1, in2, lowThreshold, highThreshold)`; the pair
returned is (`triggered`, trigger after the call). The source does not read
`lowThreshold`. -/
def process (t : BitMaskSchmittTrigger) (in1 in2 _lowThreshold highThreshold : ℚ) :
    Nat × BitMaskSchmittTrigger :=
  let isOn := onMask in1 in2 highThreshold
  let isOff := offMask in1 in2 highThreshold
  let triggered := (complement8 t.state &&& isOn) &&& mask
  (triggered, ⟨(isOn ||| (t.state &&& complement8 isOff)) &&& mask⟩)

end BitMaskSchmittTrigger

/-- The member variables of `struct DualIntegrator` with its output and light
slots. `endTrig` holds the latched bits of the member `end`. -/
structure DualIntegrator where
  gates : float_4
  input : float_4
  cv : float_4
  output : float_4
  shToggle : Nat
  shTrigger : Nat
  infSlew : Nat
  sh : BitMaskSchmittTrigger
  slew : TSlewLimiter
  endTrig : Lanes Bool
  outputs : Nat → ℚ
  lights : Nat → ℚ

namespace DualIntegrator

/-- Output slot of the first slewed output. -/
def SLEW_OUTPUT : Nat := 0
/-- Output slot of the first END gate. -/
def END_OUTPUT : Nat := 2
/-- Output slot of the comparator. -/
def CMP_OUTPUT : Nat := 4
/-- Light slot of the first output light. -/
def OUT_LED_LIGHT : Nat := 0
/-- Light slot of the first mode light. -/
def SH_LED_LIGHT : Nat := 4

/-- Threshold `endLow = -5.f`. -/
def endLow : ℚ := -5
/-- Threshold `endHigh = 5.f`. -/
def endHigh : ℚ := 5

/-- The constructed module: trigger detectors in their initial state, slew
limiter at 0, every output and light at 0; the members the source leaves
without an initialiser are set to 0. -/
def init : DualIntegrator where
  gates := float_4.zero
  input := float_4.zero
  cv := float_4.zero
  output := float_4.zero
  shToggle := 0
  shTrigger := 0
  infSlew := 0
  sh := BitMaskSchmittTrigger.reset
  slew := ⟨float_4.zero, float_4.zero, float_4.zero⟩
  endTrig := schmitt4Init
  outputs := fun _ => 0
  lights := fun _ => 0

/-- First part of `process`: the mode toggles are read and the hold inputs are
processed by the bit mask trigger. -/
def gatherHold (m : DualIntegrator) (p : Ports) : DualIntegrator :=
  let r := m.sh.process (p.inputs 4) (p.inputs 5) triggerThresholdLevel triggerThresholdLevel
  { m with
    shToggle := b2n (decide (p.params 0 ≠ 0)) ||| (b2n (decide (p.params 1 ≠ 0)) <<< 1),
    shTrigger := r.1, sh := r.2 }

/-- The combined control voltage of each channel: `y = (x * A) + B + C`. -/
def cvOf (p : Ports) : float_4 :=
  ⟨p.inputs 6 * p.params 2 + p.inputs 8 + p.params 4,
   p.inputs 7 * p.params 3 + p.inputs 9 + p.params 5, 0 * 0 + 0 + 0, 0 * 0 + 0 + 0⟩

/-- The factors the rates are multiplied with: 20 times bit 0 and bit 1 of
`infSlew`. -/
def holdFactor (infSlew : Nat) : float_4 :=
  ⟨20 * ((infSlew &&& 1 : Nat) : ℚ), 20 * (((infSlew >>> 1) &&& 1 : Nat) : ℚ), 0, 0⟩

/-- Second part of `process`: the rates; `pow2 x` stands for the library call
`pow(2.f, x)`. -/
def setRates (pow2 : ℚ → ℚ) (m : DualIntegrator) (p : Ports) : DualIntegrator :=
  let infSlew := ((m.shToggle &&& m.shTrigger) ||| complement8 (m.shToggle ||| m.sh.isHigh)) % 256
  { m with
    infSlew := infSlew,
    cv := Lanes.zip (fun a b => a * b) (Lanes.map pow2 (cvOf p)) (holdFactor infSlew) }

/-- Third part of `process`: the gated and limited input of each channel. -/
def gateInput (m : DualIntegrator) (p : Ports) : DualIntegrator :=
  let gates : float_4 := ⟨p.inputs 2, p.inputs 3, 0, 0⟩
  let live : float_4 := ⟨clamp (p.inputs 0) vMin vMax, clamp (p.inputs 1) vMin vMax,
    clamp 0 vMin vMax, clamp 0 vMin vMax⟩
  { m with
    gates := gates,
    input := Lanes.zip (fun g x => if g < triggerThresholdLevel then x else 0) gates live }

/-- Fourth part of `process`: the slew step and the END trigger. -/
def slewStep (m : DualIntegrator) (p : Ports) : DualIntegrator :=
  let s := ({ m.slew with rise := m.cv, fall := m.cv } : TSlewLimiter).process p.sampleTime m.input
  { m with slew := s, output := s.out, endTrig := (schmitt4 m.endTrig s.out endLow endHigh).2 }

/-- One pass of the output loop, for channel `i`. -/
def writeChannel (m : DualIntegrator) (ol : (Nat → ℚ) × (Nat → ℚ)) (i : Nat) :
    (Nat → ℚ) × (Nat → ℚ) :=
  let twoI := (i <<< 1) % 256
  let o1 := Function.update ol.1 (SLEW_OUTPUT + i) (m.output.get i)
  let o2 := Function.update o1 (END_OUTPUT + i) (if m.endTrig.get i then -gateOn else gateOn)
  let l1 := Function.update ol.2 (OUT_LED_LIGHT + twoI) (max 0 ((1 / 5) * m.output.get i))
  let l2 := Function.update l1 (OUT_LED_LIGHT + 1 + twoI) (max 0 (-(1 / 5) * m.output.get i))
  let l3 := Function.update l2 (SH_LED_LIGHT + i)
    ((((m.shToggle ^^^ m.sh.isHigh) >>> i) &&& 1 : Nat) : ℚ)
  (o2, l3)

/-- Last part of `process`: the comparator, the slewed outputs, the END gates
and the lights are written. -/
def writeOutputs (m : DualIntegrator) : DualIntegrator :=
  let o0 := Function.update m.outputs CMP_OUTPUT
    (if m.output.l1 < m.output.l0 then gateOn else -gateOn)
  let r := (List.range 2).foldl (writeChannel m) (o0, m.lights)
  { m with outputs := r.1, lights := r.2 }

/-- The method `process(args)`. -/
def process (pow2 : ℚ → ℚ) (m : DualIntegrator) (p : Ports) : DualIntegrator :=
  writeOutputs (slewStep (gateInput (setRates pow2 (gatherHold m p) p) p) p)

/-- The mode toggle of channel `c` selects Sample & Hold (switch value 1; 0 is
Track & Hold). -/
def sampleMode (p : Ports) (c : Nat) : Bool := decide (p.params c ≠ 0)

/-- The hold input of channel `c` fires a fresh trigger on this sample. -/
def freshTrigger (m : DualIntegrator) (p : Ports) (c : Nat) : Bool :=
  (m.sh.process (p.inputs 4) (p.inputs 5) triggerThresholdLevel triggerThresholdLevel).1.testBit c

/-- The hold input of channel `c` is latched high after this sample's call of
the bit mask trigger. -/
def holdHigh (m : DualIntegrator) (p : Ports) (c : Nat) : Bool :=
  (m.sh.process (p.inputs 4) (p.inputs 5) triggerThresholdLevel
    triggerThresholdLevel).2.isHigh.testBit c

/-- A module whose hold detector is low on both channels. -/
def armed : DualIntegrator := { init with sh := ⟨0⟩ }

/-- A sample with channel 0 in Sample & Hold mode and its hold input at 5 V;
signal 0 at 3 V, rate and CV at 0. -/
def sampleFire : Ports :=
  ⟨fun i => if i = 4 then 5 else if i = 0 then 3 else 0, fun i => if i = 0 then 1 else 0,
   1 / 48000⟩

/-- A sample with channel 0 in Sample & Hold mode and its hold input at 0 V;
signal 0 at 3 V. -/
def sampleIdle : Ports :=
  ⟨fun i => if i = 0 then 3 else 0, fun i => if i = 0 then 1 else 0, 1 / 48000⟩

end DualIntegrator

/-! ## DigitalChaoticSystem.cpp -/

/-- Lane access `v[i]` for an index that may lie outside 0..3: such an index has
no lane, and reads as 0 here. -/
def Lanes.getD0 (v : float_4) : Nat → ℚ
  | 0 => v.l0
  | 1 => v.l1
  | 2 => v.l2
  | 3 => v.l3
  | _ => 0

/-- Modelled from the spec: the host library type `TRCFilter` is not part of
the repository; it is a one-pole low-pass filter. Its state is kept as the last
input and the last low-pass value, and its update is a parameter of the
embedding. -/
structure TRCFilter where
  xstate : ℚ
  ystate : ℚ

/-- The member variables of `struct DigitalChaoticSystem` with its output
slots. `clock` holds the latched bit of the clock trigger detector. -/
structure DigitalChaoticSystem where
  cvs : float_4
  pitches : float_4
  phases : float_4
  output : float_4
  clockInput : ℚ
  clock : Bool
  dataInput : Bool
  xored : Bool
  shiftRegister : Nat
  stepped : ℚ
  smooth : TRCFilter
  outputs : Nat → ℚ

namespace DigitalChaoticSystem

/-- Input slot of the V/Oct input of the clock oscillator. -/
def VOCT1_INPUT : Nat := 4
/-- Input slot of the data gate. -/
def DATA_INPUT : Nat := 5
/-- Input slot of the clock trigger. -/
def CLOCK_INPUT : Nat := 6
/-- Input slot of the V/Oct input of the data oscillator. -/
def VOCT2_INPUT : Nat := 7
/-- Output slot of the stepped function. -/
def STEPPED_OUTPUT : Nat := 4
/-- Output slot of the pulsed function. -/
def PULSED_OUTPUT : Nat := 5
/-- Output slot of the smoothed function. -/
def SMOOTHED_OUTPUT : Nat := 6
/-- Number of output slots. -/
def OUTPUTS_LEN : Nat := 7

/-- What the host hands to `process` on one sample: the ports and, for each
input, whether a cable is connected. -/
structure Sample extends Ports where
  connected : Nat → Bool

/-- The library functions `process` calls: `pow2 x` stands for `pow(2, x)` and
`rcStep s r x` for `setCutoffFreq(r)` followed by `process(x)` on the filter
state `s`. -/
structure Host where
  pow2 : ℚ → ℚ
  rcStep : TRCFilter → ℚ → ℚ → TRCFilter

/-- The constructed module: phases at 0; the members the source leaves without
an initialiser (among them the shift register) are set to 0, the trigger
detector is in its initial (high) state. -/
def init : DigitalChaoticSystem where
  cvs := float_4.zero
  pitches := float_4.zero
  phases := float_4.zero
  output := float_4.zero
  clockInput := 0
  clock := true
  dataInput := false
  xored := false
  shiftRegister := 0
  stepped := 0
  smooth := ⟨0, 0⟩
  outputs := fun _ => 0

/-- The pitch voltages of the two oscillators; lanes 2 and 3 of `pitches` keep
the value of the previous sample. -/
def pitchesOf (m : DigitalChaoticSystem) (p : Sample) : float_4 :=
  ⟨p.params 0 + p.inputs 0 * p.params 2 + p.inputs 2 * p.params 4 + p.inputs VOCT1_INPUT,
   p.params 1 + p.inputs 1 * p.params 3 + p.inputs 3 * p.params 5 + p.inputs VOCT2_INPUT,
   m.pitches.l2, m.pitches.l3⟩

/-- The frequencies in Hertz: `pow(2, clamp(pitches, -5.f, 15.f))`. -/
def frequenciesOf (h : Host) (m : DigitalChaoticSystem) (p : Sample) : float_4 :=
  Lanes.map (fun x => h.pow2 (clamp x (-5) 15)) (pitchesOf m p)

/-- One lane of the phase update: the phase is advanced by
`frequency * sampleTime`, then 1 is subtracted if it is at or above 0.5. -/
def phaseStep (phase frequency sampleTime : ℚ) : ℚ :=
  let a := phase + frequency * sampleTime
  a + (if 1 / 2 ≤ a then -1 else 0)

/-- First part of `process`: control voltages, pitches, phases and the four
waveforms. -/
def oscillate (h : Host) (m : DigitalChaoticSystem) (p : Sample) : DigitalChaoticSystem :=
  let fr := frequenciesOf h m p
  let ph := Lanes.zip (fun a f => phaseStep a f p.sampleTime) m.phases fr
  let w : float_4 := ⟨|ph.l0| - 1 / 4, ph.l0 - 0, |ph.l1| - 1 / 4, ph.l1 - 0⟩
  { m with
    cvs := ⟨p.inputs 0 * p.params 2, p.inputs 1 * p.params 3, p.inputs 2 * p.params 4,
      p.inputs 3 * p.params 5⟩,
    pitches := fr, phases := ph,
    output := ⟨clamp (w.l0 * 20) (-gateOn) gateOn, clamp (w.l1 * 100000) (-gateOn) gateOn,
      clamp (w.l2 * 20) (-gateOn) gateOn, clamp (w.l3 * 100000) (-gateOn) gateOn⟩ }

/-- The bit `dataInput` of the sample. -/
def dataOf (m : DigitalChaoticSystem) (p : Sample) : Bool :=
  decide (triggerThresholdLevel <
    (if p.connected DATA_INPUT then p.inputs DATA_INPUT else m.output.l3))

/-- The voltage `clockInput` of the sample. -/
def clockOf (m : DigitalChaoticSystem) (p : Sample) : ℚ :=
  if p.connected CLOCK_INPUT then p.inputs CLOCK_INPUT else m.output.l1

/-- The register after a clock edge that injects the bit `x`:
`shiftRegister >>= 1; shiftRegister |= (xored << 7);` on an `unsigned char`. -/
def shiftIn (r : Nat) (x : Bool) : Nat :=
  (((r >>> 1) % 256) ||| (b2n x <<< 7)) % 256

/-- Second part of `process`: data and clock are read, the XOR is formed, the
shift register is updated on a clock rising edge and the stepped function is
computed. -/
def shiftStep (m : DigitalChaoticSystem) (p : Sample) : DigitalChaoticSystem :=
  let d := dataOf m p
  let c := clockOf m p
  let x := xor d (decide (m.shiftRegister &&& 1 ≠ 0))
  let t := schmittLane m.clock c triggerThresholdLevel triggerThresholdLevel
  let r := if t.1 then shiftIn m.shiftRegister x else m.shiftRegister
  { m with
    dataInput := d, clockInput := c, xored := x, clock := t.2, shiftRegister := r,
    stepped := (1 / 8) * gateOn * ((r &&& 7 : Nat) : ℚ) }

/-- Third part of `process`: the smoothing filter. -/
def smoothStep (h : Host) (m : DigitalChaoticSystem) (p : Sample) : DigitalChaoticSystem :=
  { m with smooth := h.rcStep m.smooth (20 * p.sampleTime) m.stepped }

/-- One pass of the oscillator output loop, for index `i`. -/
def writeVco (m : DigitalChaoticSystem) (o : Nat → ℚ) (i : Nat) : Nat → ℚ :=
  let twoI := (i <<< 1) % 256
  let o1 := Function.update o twoI (m.output.getD0 twoI)
  Function.update o1 (twoI + 1) (m.output.getD0 (twoI + 1))

/-- Last part of `process`: the outputs are written. -/
def writeOutputs (m : DigitalChaoticSystem) : DigitalChaoticSystem :=
  let o := (List.range 4).foldl (writeVco m) m.outputs
  let o1 := Function.update o PULSED_OUTPUT (gateOn * (b2n m.xored : ℚ))
  let o2 := Function.update o1 STEPPED_OUTPUT m.stepped
  { m with outputs := Function.update o2 SMOOTHED_OUTPUT m.smooth.ystate }

/-- The method `process(args)`. -/
def process (h : Host) (m : DigitalChaoticSystem) (p : Sample) : DigitalChaoticSystem :=
  writeOutputs (smoothStep h (shiftStep (oscillate h m p) p) p)

/-- A run of `process` calls, one per sample. -/
def run (h : Host) (m : DigitalChaoticSystem) (ps : List Sample) : DigitalChaoticSystem :=
  ps.foldl (process h) m

/-- A clock rising edge is detected on this sample. -/
def clockFires (h : Host) (m : DigitalChaoticSystem) (p : Sample) : Bool :=
  (schmittLane m.clock (clockOf (oscillate h m p) p)
    triggerThresholdLevel triggerThresholdLevel).1

/-- The XOR bit of this sample: data XOR the lowest register bit. -/
def xorOf (h : Host) (m : DigitalChaoticSystem) (p : Sample) : Bool :=
  xor (dataOf (oscillate h m p) p) (decide (m.shiftRegister &&& 1 ≠ 0))

/-- The XOR bits injected at the clock edges of a run, oldest first. -/
def injected (h : Host) : DigitalChaoticSystem → List Sample → List Bool
  | _, [] => []
  | m, p :: ps =>
    (if clockFires h m p then [xorOf h m p] else []) ++ injected h (process h m p) ps

/-- The per-sample phase increments of the two oscillators are between 0 and 1
on every sample of the run. -/
def SlowRun (h : Host) : DigitalChaoticSystem → List Sample → Prop
  | _, [] => True
  | m, p :: ps =>
    (0 ≤ (frequenciesOf h m p).l0 * p.sampleTime ∧ (frequenciesOf h m p).l0 * p.sampleTime ≤ 1 ∧
      0 ≤ (frequenciesOf h m p).l1 * p.sampleTime ∧ (frequenciesOf h m p).l1 * p.sampleTime ≤ 1) ∧
      SlowRun h (process h m p) ps

/-- A stand-in for `pow(2, x)` that is exact at every integer `x`. -/
def pow2Floor (x : ℚ) : ℚ := (2 : ℚ) ^ ⌊x⌋

/-- A host whose `pow2` is exact at the integers and whose filter keeps the
last input. -/
def plainHost : Host := ⟨pow2Floor, fun _ _ x => ⟨x, x⟩⟩

/-- A sample at 22050 Hz with both frequency knobs at 15 (2^15 Hz), no cable
connected and every input at 0. -/
def fastSample : Sample :=
  { inputs := fun _ => 0, params := fun i => if i < 2 then 15 else 0,
    sampleTime := 1 / 22050, connected := fun _ => false }

/-- A sample at 48000 Hz with both frequency knobs at 5 (32 Hz), an external
clock at `clk` volts and external data at `dat` volts. -/
def patched (clk dat : ℚ) : Sample :=
  { inputs := fun i => if i = CLOCK_INPUT then clk else if i = DATA_INPUT then dat else 0,
    params := fun i => if i < 2 then 5 else 0,
    sampleTime := 1 / 48000, connected := fun _ => true }

/-- The stepped value and its output slot agree with the register. -/
def Settled (m : DigitalChaoticSystem) : Prop :=
  m.stepped = (1 / 8) * gateOn * ((m.shiftRegister &&& 7 : Nat) : ℚ) ∧
    m.outputs STEPPED_OUTPUT = m.stepped

/-- A module with register 0 whose clock detector is low. -/
def armed : DigitalChaoticSystem := { init with clock := false }

/-- A run of `n` clock pulses with the data input held at 5 V: the clock input
is 5 V on one sample and 0 V on the next. -/
def pulses : Nat → List Sample
  | 0 => []
  | n + 1 => patched 5 5 :: patched 0 0 :: pulses n

/-- The XOR bits of `n` clock edges with the data input high, from register
value `r`. -/
def bitsFrom : Nat → Nat → List Bool
  | _, 0 => []
  | r, n + 1 =>
    xor true (decide (r &&& 1 ≠ 0)) ::
      bitsFrom (shiftIn r (xor true (decide (r &&& 1 ≠ 0)))) n

end DigitalChaoticSystem

/-! ## NonlinearIntegrator.cpp -/

/-- Modelled from the spec: the host library type `PulseGenerator` is not part
of the repository; it is a one-shot pulse generator with a fixed duration. Its
state is the time the pulse still lasts. -/
structure PulseGenerator where
  remaining : ℚ

/-- Modelled from the spec: `PulseGenerator::trigger()`, which starts a pulse of
the fixed duration. -/
def PulseGenerator.trigger (g : PulseGenerator) (duration : ℚ) : PulseGenerator :=
  if g.remaining < duration then ⟨duration⟩ else g

/-- Modelled from the spec: `PulseGenerator::process(deltaTime)`; the pair
returned is (pulse is on, generator after the call). -/
def PulseGenerator.process (g : PulseGenerator) (deltaTime : ℚ) : Bool × PulseGenerator :=
  if 0 < g.remaining then (true, ⟨g.remaining - deltaTime⟩) else (false, g)

/-- The member variables of `struct NonlinearIntegrator` with its output slots.
`st` holds the latched bit of the ping trigger detector. -/
structure NonlinearIntegrator where
  st : Bool
  pg : PulseGenerator
  inputSignals : float_4
  f : ℚ
  q : ℚ
  states : float_4
  outputs : Nat → ℚ

namespace NonlinearIntegrator

/-- Parameter slot of the signal attenuator. -/
def INPOT_PARAM : Nat := 0
/-- Parameter slot of the frequency. -/
def F_PARAM : Nat := 1
/-- Parameter slot of the resonance. -/
def Q_PARAM : Nat := 2
/-- Parameter slot of the frequency CV attenuverter. -/
def FATTV_PARAM : Nat := 3
/-- Parameter slot of the resonance CV attenuverter. -/
def QATTV_PARAM : Nat := 4
/-- Input slot of the ping trigger. -/
def TRIG_INPUT : Nat := 0
/-- Input slot of the V/Oct input. -/
def VOCT_INPUT : Nat := 1
/-- Input slot of the frequency CV. -/
def FCV_INPUT : Nat := 2
/-- Input slot of the resonance CV. -/
def QCV_INPUT : Nat := 3
/-- Input slot of the signal. -/
def IN_INPUT : Nat := 4

/-- Lower limits `clampMin` of `inputSignals`. -/
def clampMin : float_4 := ⟨-12, -4, 0, 0⟩
/-- Upper limits `clampMax` of `inputSignals`. -/
def clampMax : float_4 := ⟨12, 13, 12, 0⟩
/-- Factor `qMultiplier = -.05f * 108900.f / 15330.f`. -/
def qMultiplier : ℚ := -(1 / 20) * 108900 / 15330
/-- The constant `M_PI`. -/
def M_PI : ℚ := 314159265358979323846 / 100000000000000000000

/-- The library functions and values `process` uses: `sin`, `pow` and the
duration of the ping pulse. -/
structure Host where
  sin : ℚ → ℚ
  pow : ℚ → ℚ → ℚ
  pulseDuration : ℚ

/-- The constructed module: filter states at 0, detector in its initial (high)
state, no pulse running, every output at 0. -/
def init : NonlinearIntegrator where
  st := true
  pg := ⟨0⟩
  inputSignals := float_4.zero
  f := 0
  q := 0
  states := float_4.zero
  outputs := fun _ => 0

/-- First part of `process`: the ping trigger, the inputs `y = (x * a) + b`
with the random perturbation `uniform`, the injected ping and the limits. -/
def readInputs (h : Host) (m : NonlinearIntegrator) (p : Ports) (uniform : ℚ) :
    NonlinearIntegrator :=
  let t := schmittLane m.st (p.inputs TRIG_INPUT) triggerThresholdLevel triggerThresholdLevel
  let g := if t.1 then m.pg.trigger h.pulseDuration else m.pg
  let r := g.process p.sampleTime
  let x : float_4 :=
    ⟨p.inputs IN_INPUT * p.params INPOT_PARAM + (1 / 1000000) * (2 * uniform - 1),
     p.inputs FCV_INPUT * p.params FATTV_PARAM + (p.params F_PARAM + p.inputs VOCT_INPUT),
     p.inputs QCV_INPUT * p.params QATTV_PARAM + p.params Q_PARAM, 0 * 0 + 0⟩
  let y : float_4 := { x with l0 := x.l0 + 6 * (b2n r.1 : ℚ) }
  { m with
    st := t.2, pg := r.2,
    inputSignals := Lanes.zip (fun v lim => clamp v lim.1 lim.2) y
      (Lanes.zip (fun a b => (a, b)) clampMin clampMax) }

/-- Second part of `process`: the filter parameters `f` and `q`. -/
def setCoefficients (h : Host) (m : NonlinearIntegrator) (p : Ports) : NonlinearIntegrator :=
  { m with
    f := 2 * h.sin (M_PI * p.sampleTime * h.pow 2 m.inputSignals.l1),
    q := h.pow 10 (qMultiplier * m.inputSignals.l2) }

/-- Third part of `process`: the filter states are updated in the order notch,
high, band, low and limited to `vMin`..`vMax`. -/
def updateStates (m : NonlinearIntegrator) : NonlinearIntegrator :=
  let s3 := m.q * m.states.l1 - m.inputSignals.l0
  let s2 := -(s3 + m.states.l0)
  let s1 := m.states.l1 + m.f * s2
  let s0 := m.states.l0 + m.f * s1
  { m with states := ⟨clamp s0 vMin vMax, clamp s1 vMin vMax, clamp s2 vMin vMax,
      clamp s3 vMin vMax⟩ }

/-- Last part of `process`: `outputs[i] = states[i]` for the four outputs. -/
def writeOutputs (m : NonlinearIntegrator) : NonlinearIntegrator :=
  { m with outputs :=
      (List.range 4).foldl (fun o i => Function.update o i (m.states.get i)) m.outputs }

/-- The method `process(args)`; `uniform` is the value `random::uniform()`
returns on this sample. -/
def process (h : Host) (m : NonlinearIntegrator) (p : Ports) (uniform : ℚ) :
    NonlinearIntegrator :=
  writeOutputs (updateStates (setCoefficients h (readInputs h m p uniform) p))

/-- A run of `process` calls, one per sample with its random value. -/
def run (h : Host) (m : NonlinearIntegrator) (ps : List (Ports × ℚ)) : NonlinearIntegrator :=
  ps.foldl (fun s x => process h s x.1 x.2) m

end NonlinearIntegrator

/-! ## Further samples and predicates used by the properties -/

/-- The value lies in the global clamp range `vMin`..`vMax`. -/
def InClampRange (x : ℚ) : Prop := vMin ≤ x ∧ x ≤ vMax

/-- A Voltage Sequencer sample with the reset, direction and vertical clock
inputs at 5 V and the vertical clock enabled. -/
def VoltageSequencer.resetAndFlip : Ports :=
  ⟨fun i => if i = VoltageSequencer.RESET_INPUT then 5
      else if i = VoltageSequencer.DIRECTION_INPUT then 5
      else if i = VoltageSequencer.VCLOCK_IN_INPUT then 5 else 0,
   fun i => if i = VoltageSequencer.VCLOCK_EN_PARAM then 1 else 0, 1 / 48000⟩

/-! ## Indexed accesses of the oscillator output loop, clock edges with a
given data bit, and the hold scenario of the sequencer -/

/-- Lane access `v[i]` as a checked access: a 4-lane vector has the lanes 0..3
and no other. -/
def Lanes.read (v : float_4) : Nat → Option ℚ
  | 0 => some v.l0
  | 1 => some v.l1
  | 2 => some v.l2
  | 3 => some v.l3
  | _ => none

namespace DigitalChaoticSystem

/-- The two indices pass `i` of the oscillator output loop uses, each both as
output slot (`outputs[..]`) and as lane (`output[..]`): `twoI` and `twoI + 1`
with `twoI = i << 1`. -/
def vcoIndices (i : Nat) : List Nat := [(i <<< 1) % 256, (i <<< 1) % 256 + 1]

/-- Every index the oscillator output loop uses, over its passes `i = 0..3`. -/
def vcoLoopIndices : List Nat := (List.range 4).flatMap vcoIndices

/-- One pass of the oscillator output loop with every indexed access checked:
the result is `none` when a slot index is not below `OUTPUTS_LEN` or a lane
index is outside 0..3. -/
def writeVcoChecked (m : DigitalChaoticSystem) (o : Nat → ℚ) (i : Nat) : Option (Nat → ℚ) :=
  let twoI := (i <<< 1) % 256
  if twoI < OUTPUTS_LEN ∧ twoI + 1 < OUTPUTS_LEN then
    match m.output.read twoI, m.output.read (twoI + 1) with
    | some a, some b => some (Function.update (Function.update o twoI a) (twoI + 1) b)
    | _, _ => none
  else none

/-- The passes `is` of the checked loop, in order. -/
def vcoLoopChecked (m : DigitalChaoticSystem) : List Nat → (Nat → ℚ) → Option (Nat → ℚ)
  | [], o => some o
  | i :: is, o =>
    match writeVcoChecked m o i with
    | some o1 => vcoLoopChecked m is o1
    | none => none

/-- The register after a clock edge on which the data bit is `d`: the XOR of `d`
and the lowest register bit is shifted in at the top. -/
def clockEdgeStep (r : Nat) (d : Bool) : Nat :=
  shiftIn r (xor d (decide (r &&& 1 ≠ 0)))

/-- The data bits at the clock edges of a run, oldest first. -/
def dataAtEdges (h : Host) : DigitalChaoticSystem → List Sample → List Bool
  | _, [] => []
  | m, p :: ps =>
    (if clockFires h m p then [dataOf (oscillate h m p) p] else []) ++
      dataAtEdges h (process h m p) ps

end DigitalChaoticSystem

namespace VoltageSequencer

/-- The voltage of the enabled clock on this sample. -/
def enabledClock (p : Ports) : ℚ := p.params CLOCK_EN_PARAM * p.inputs CLOCK_IN_INPUT

/-- A sample on which the source does not call the clock detector: Hold is at
or above the threshold, or Reset fires, or a select level reaches the
threshold, or Preset fires. -/
def Stalled (m : VoltageSequencer) (p : Ports) : Prop :=
  triggerThresholdLevel ≤ p.inputs HOLD_INPUT ∨ resetFires m p = true ∨ ¬ noSelect p ∨
    presetFires m p = true

/-- Every sample of the run is a `Stalled` sample for the state it meets. -/
def StalledRun : VoltageSequencer → List Ports → Prop
  | _, [] => True
  | m, p :: ps => Stalled m p ∧ StalledRun (process m p) ps

/-- A sample with Hold at or above the threshold and no reset, select or preset
event. -/
def HeldQuiet (m : VoltageSequencer) (p : Ports) : Prop :=
  triggerThresholdLevel ≤ p.inputs HOLD_INPUT ∧ resetFires m p = false ∧ noSelect p ∧
    presetFires m p = false

/-- Every sample of the run is a `HeldQuiet` sample for the state it meets. -/
def HeldQuietRun : VoltageSequencer → List Ports → Prop
  | _, [] => True
  | m, p :: ps => HeldQuiet m p ∧ HeldQuietRun (process m p) ps

/-- A sample with the Hold and clock inputs at 5 V and the clock enabled. -/
def holdClock : Ports :=
  ⟨fun i => if i = HOLD_INPUT then 5 else if i = CLOCK_IN_INPUT then 5 else 0,
   fun i => if i = CLOCK_EN_PARAM then 1 else 0, 1 / 48000⟩

/-- A sample with the Hold, clock and reset inputs at 5 V and the clock
enabled. -/
def holdClockReset : Ports :=
  ⟨fun i => if i = HOLD_INPUT then 5 else if i = CLOCK_IN_INPUT then 5
      else if i = RESET_INPUT then 5 else 0,
   fun i => if i = CLOCK_EN_PARAM then 1 else 0, 1 / 48000⟩

end VoltageSequencer

/-! # Properties -/

namespace VoltageSequencer

theorem selectLoop_none (p : Ports) (m : VoltageSequencer) :
    ∀ k i, (∀ j, i ≤ j → j < i + k → selectLevel p j < triggerThresholdLevel) →
      selectLoop p m k i = m := by
  intro k
  induction k with
  | zero => intro i _; rfl
  | succ k ih =>
    intro i h
    have h0 : selectLevel p i < triggerThresholdLevel := h i (le_refl i) (by omega)
    simp only [selectLoop, h0, if_true]
    exact ih (i + 1) (fun j h1 h2 => h j (by omega) (by omega))

theorem selectLoop_some (p : Ports) (m : VoltageSequencer) :
    ∀ k i j0, i ≤ j0 → j0 < i + k → triggerThresholdLevel ≤ selectLevel p j0 →
      (∀ j, i ≤ j → j < j0 → selectLevel p j < triggerThresholdLevel) →
      selectLoop p m k i = { m with preset := j0, changeInfo := m.changeInfo ||| 1 } := by
  intro k
  induction k with
  | zero => intro i j0 h1 h2; omega
  | succ k ih =>
    intro i j0 h1 h2 h3 h4
    rcases Nat.eq_or_lt_of_le h1 with h5 | h5
    · subst h5
      simp only [selectLoop, not_lt.mpr h3, if_false]
    · have h0 : selectLevel p i < triggerThresholdLevel := h4 i (le_refl i) h5
      simp only [selectLoop, h0, if_true]
      exact ih (i + 1) j0 (by omega) (by omega) h3 (fun j h6 h7 => h4 j (by omega) h7)

theorem select_none (p : Ports) (m : VoltageSequencer) (h : noSelect p) :
    selectLoop p m 8 0 = m :=
  selectLoop_none p m 8 0 (fun j _ h2 => h j (by omega))

theorem select_some (p : Ports) (m : VoltageSequencer) (i : Nat) (h : lowestSelect p i) :
    selectLoop p m 8 0 = { m with preset := i, changeInfo := m.changeInfo ||| 1 } :=
  selectLoop_some p m 8 0 i (Nat.zero_le i) (by have := h.1; omega) h.2.1
    (fun j _ h2 => h.2.2 j h2)

theorem processPriority_signals (m : VoltageSequencer) (p : Ports) :
    (processPriority m p).signals = signalsOf m p := by
  simp only [processPriority, changeVState, signalsOf]
  split_ifs <;> rfl

theorem processPriority_frame (m : VoltageSequencer) (p : Ports) :
    (processPriority m p).stage = m.stage ∧ (processPriority m p).preset = m.preset ∧
    (processPriority m p).presetTrig = m.presetTrig ∧ (processPriority m p).clock = m.clock ∧
    (processPriority m p).outputs = m.outputs := by
  simp only [processPriority, changeVState]
  split_ifs <;> simp

theorem processPriority_direction (m : VoltageSequencer) (p : Ports) :
    (processPriority m p).direction =
      if directionFires m p then (m.direction + 1) &&& 1 else m.direction := by
  simp only [processPriority, changeVState, directionFires, signalsOf]
  split_ifs <;> rfl

theorem processPriority_vStage (m : VoltageSequencer) (p : Ports) :
    (processPriority m p).vStage =
      if vclockFires m p then (m.vStage + 1) &&& 1 else m.vStage := by
  simp only [processPriority, changeVState, vclockFires, signalsOf]
  split_ifs <;> rfl

theorem decideChange_reset (m : VoltageSequencer) (p : Ports) (h : m.signals.l2 = true) :
    decideChange m p = { m with newStage := 0, changeInfo := 8 } := by
  simp [decideChange, h, b2n]

theorem decideChange_select (m : VoltageSequencer) (p : Ports) (i : Nat)
    (h : m.signals.l2 = false) (hs : lowestSelect p i) :
    decideChange m p =
      { m with preset := i, newStage := toSignedChar i, changeInfo := 5 } := by
  simp [decideChange, h, b2n, select_some p _ i hs]

theorem decideChange_preset (m : VoltageSequencer) (p : Ports)
    (h : m.signals.l2 = false) (hn : noSelect p)
    (hp : (schmittLane m.presetTrig (p.inputs PRESET_INPUT)
      triggerThresholdLevel triggerThresholdLevel).1 = true) :
    decideChange m p =
      { m with
        presetTrig := (schmittLane m.presetTrig (p.inputs PRESET_INPUT)
          triggerThresholdLevel triggerThresholdLevel).2,
        newStage := toSignedChar m.preset, changeInfo := 4 } := by
  simp [decideChange, h, b2n, select_none p _ hn, hp]

theorem decideChange_clock (m : VoltageSequencer) (p : Ports)
    (h : m.signals.l2 = false) (hn : noSelect p)
    (hp : (schmittLane m.presetTrig (p.inputs PRESET_INPUT)
      triggerThresholdLevel triggerThresholdLevel).1 = false)
    (hh : p.inputs HOLD_INPUT < triggerThresholdLevel)
    (hc : (schmittLane m.clock (p.params CLOCK_EN_PARAM * p.inputs CLOCK_IN_INPUT)
      triggerThresholdLevel triggerThresholdLevel).1 = true) :
    decideChange m p =
      { m with
        presetTrig := (schmittLane m.presetTrig (p.inputs PRESET_INPUT)
          triggerThresholdLevel triggerThresholdLevel).2,
        clock := (schmittLane m.clock (p.params CLOCK_EN_PARAM * p.inputs CLOCK_IN_INPUT)
          triggerThresholdLevel triggerThresholdLevel).2,
        newStage := toSignedChar (m.stage + stepOf m.direction), changeInfo := 2 } := by
  simp [decideChange, h, b2n, select_none p _ hn, hp, hh, hc, stepOf]

theorem decideChange_noEdge (m : VoltageSequencer) (p : Ports)
    (h : m.signals.l2 = false) (hn : noSelect p)
    (hp : (schmittLane m.presetTrig (p.inputs PRESET_INPUT)
      triggerThresholdLevel triggerThresholdLevel).1 = false)
    (hh : p.inputs HOLD_INPUT < triggerThresholdLevel)
    (hc : (schmittLane m.clock (p.params CLOCK_EN_PARAM * p.inputs CLOCK_IN_INPUT)
      triggerThresholdLevel triggerThresholdLevel).1 = false) :
    decideChange m p =
      { m with
        presetTrig := (schmittLane m.presetTrig (p.inputs PRESET_INPUT)
          triggerThresholdLevel triggerThresholdLevel).2,
        clock := (schmittLane m.clock (p.params CLOCK_EN_PARAM * p.inputs CLOCK_IN_INPUT)
          triggerThresholdLevel triggerThresholdLevel).2,
        newStage := 0, changeInfo := 0 } := by
  simp [decideChange, h, b2n, select_none p _ hn, hp, hh, hc]

theorem decideChange_hold (m : VoltageSequencer) (p : Ports)
    (h : m.signals.l2 = false) (hn : noSelect p)
    (hp : (schmittLane m.presetTrig (p.inputs PRESET_INPUT)
      triggerThresholdLevel triggerThresholdLevel).1 = false)
    (hh : ¬ p.inputs HOLD_INPUT < triggerThresholdLevel) :
    decideChange m p =
      { m with
        presetTrig := (schmittLane m.presetTrig (p.inputs PRESET_INPUT)
          triggerThresholdLevel triggerThresholdLevel).2,
        newStage := 0, changeInfo := 0 } := by
  simp [decideChange, h, b2n, select_none p _ hn, hp, hh]

theorem writeOutputs_stage (m : VoltageSequencer) (p : Ports) :
    (writeOutputs m p).stage = if m.changeInfo ≠ 0 then m.newStage % 8 else m.stage := by
  simp only [writeOutputs, changeState]
  split_ifs <;> rfl

theorem writeOutputs_frame (m : VoltageSequencer) (p : Ports) :
    (writeOutputs m p).direction = m.direction ∧ (writeOutputs m p).vStage = m.vStage ∧
    (writeOutputs m p).preset = m.preset ∧ (writeOutputs m p).presetTrig = m.presetTrig ∧
    (writeOutputs m p).clock = m.clock ∧ (writeOutputs m p).sigTriggers = m.sigTriggers ∧
    (writeOutputs m p).changeInfo = m.changeInfo := by
  simp only [writeOutputs, changeState]
  split_ifs <;> simp

theorem writeOutputs_gate (m : VoltageSequencer) (p : Ports) (j : Nat) (hj : j < 8) :
    (writeOutputs m p).outputs j =
      if j = (writeOutputs m p).stage.toNat then gateOn
      else if m.changeInfo ≠ 0 ∧ j = m.stage.toNat then gateOff else m.outputs j := by
  have e8 : j ≠ ALLGATES_OUTPUT := by simp only [ALLGATES_OUTPUT]; omega
  have e9 : j ≠ A_OUT_OUTPUT := by simp only [A_OUT_OUTPUT]; omega
  have e10 : j ≠ B_OUT_OUTPUT := by simp only [B_OUT_OUTPUT]; omega
  have e11 : j ≠ A_B_OUTPUT := by simp only [A_B_OUTPUT]; omega
  have e12 : j ≠ MIN_OUTPUT := by simp only [MIN_OUTPUT]; omega
  have e13 : j ≠ MAX_OUTPUT := by simp only [MAX_OUTPUT]; omega
  have e14 : j ≠ STAGE_OUTPUT := by simp only [STAGE_OUTPUT]; omega
  have e15 : j ≠ AB_OUTPUT := by simp only [AB_OUTPUT]; omega
  rw [writeOutputs_stage]
  simp only [writeOutputs, changeState]
  by_cases hc : m.changeInfo = 0
  · simp [hc, Function.update_apply, e8, e9, e10, e11, e12, e13, e14, e15]
  · simp [hc, Function.update_apply, e8, e9, e10, e11, e12, e13, e14, e15]

theorem writeOutputs_allGates (m : VoltageSequencer) (p : Ports) :
    (writeOutputs m p).outputs ALLGATES_OUTPUT =
      gateOn * ((m.changeInfo &&& 1 : Nat) : ℚ) := by
  simp only [writeOutputs, changeState]
  split_ifs <;>
    simp [Function.update_apply, ALLGATES_OUTPUT, A_OUT_OUTPUT, B_OUT_OUTPUT, A_B_OUTPUT,
      MIN_OUTPUT, MAX_OUTPUT, STAGE_OUTPUT, AB_OUTPUT]

theorem selectLoop_frame (p : Ports) (m : VoltageSequencer) :
    ∀ k i, (selectLoop p m k i).stage = m.stage ∧ (selectLoop p m k i).outputs = m.outputs ∧
      (selectLoop p m k i).direction = m.direction ∧ (selectLoop p m k i).vStage = m.vStage := by
  intro k
  induction k with
  | zero => intro i; exact ⟨rfl, rfl, rfl, rfl⟩
  | succ k ih =>
    intro i
    simp only [selectLoop]
    split_ifs
    · exact ih (i + 1)
    · exact ⟨rfl, rfl, rfl, rfl⟩

theorem decideChange_frame (m : VoltageSequencer) (p : Ports) :
    (decideChange m p).stage = m.stage ∧ (decideChange m p).outputs = m.outputs ∧
      (decideChange m p).direction = m.direction ∧ (decideChange m p).vStage = m.vStage := by
  have h := selectLoop_frame p { m with newStage := 0, changeInfo := b2n m.signals.l2 <<< 3 } 8 0
  simp only [decideChange]
  split_ifs <;> first | exact h | exact ⟨rfl, rfl, rfl, rfl⟩

theorem process_stage (m : VoltageSequencer) (p : Ports) :
    (process m p).stage =
      if (decideChange (processPriority m p) p).changeInfo ≠ 0
      then (decideChange (processPriority m p) p).newStage % 8 else m.stage := by
  rw [process, writeOutputs_stage, (decideChange_frame _ p).1, (processPriority_frame m p).1]

theorem process_stageInRange (m : VoltageSequencer) (p : Ports) (h : StageInRange m) :
    StageInRange (process m p) := by
  unfold StageInRange at h ⊢
  rw [process_stage]
  split_ifs <;> omega

theorem run_stageInRange (ps : List Ports) :
    ∀ m : VoltageSequencer, StageInRange m → StageInRange (run m ps) := by
  induction ps with
  | nil => intro m h; exact h
  | cons p ps ih => intro m h; exact ih (process m p) (process_stageInRange m p h)

theorem init_stageInRange : StageInRange init := by
  simp [StageInRange, init, changeVState, changeState, fields]

theorem toSignedChar_emod (x : Int) : toSignedChar x % 8 = x % 8 := by
  unfold toSignedChar
  omega

theorem process_clockOnly (m : VoltageSequencer) (p : Ports) (h : ClockOnly m p) :
    (process m p).direction = m.direction ∧
      (process m p).stage =
        if clockEdge m p then (m.stage + stepOf m.direction) % 8 else m.stage := by
  obtain ⟨hr, hd, hp, hn, hh, _⟩ := h
  have hf := processPriority_frame m p
  have hl2 : (processPriority m p).signals.l2 = false := by
    rw [processPriority_signals]; exact hr
  have hdir : (processPriority m p).direction = m.direction := by
    rw [processPriority_direction, hd]; rfl
  have hp1 : (schmittLane (processPriority m p).presetTrig (p.inputs PRESET_INPUT)
      triggerThresholdLevel triggerThresholdLevel).1 = false := by
    rw [hf.2.2.1]; exact hp
  constructor
  · rw [process, (writeOutputs_frame _ p).1, (decideChange_frame _ p).2.2.1, hdir]
  · rw [process_stage]
    cases hc : clockEdge m p
    · have hc1 : (schmittLane (processPriority m p).clock
          (p.params CLOCK_EN_PARAM * p.inputs CLOCK_IN_INPUT)
          triggerThresholdLevel triggerThresholdLevel).1 = false := by
        rw [hf.2.2.2.1]; exact hc
      rw [decideChange_noEdge _ p hl2 hn hp1 hh hc1]
      simp
    · have hc1 : (schmittLane (processPriority m p).clock
          (p.params CLOCK_EN_PARAM * p.inputs CLOCK_IN_INPUT)
          triggerThresholdLevel triggerThresholdLevel).1 = true := by
        rw [hf.2.2.2.1]; exact hc
      rw [decideChange_clock _ p hl2 hn hp1 hh hc1]
      simp [toSignedChar_emod, hf.1, hdir]

theorem run_clockOnly (ps : List Ports) :
    ∀ m : VoltageSequencer, StageInRange m → ClockOnlyRun m ps →
      (run m ps).direction = m.direction ∧
      (run m ps).stage = (m.stage + stepOf m.direction * (clockEdges m ps : Int)) % 8 := by
  induction ps with
  | nil =>
    intro m h _
    unfold StageInRange at h
    simp only [run, List.foldl_nil, clockEdges, Nat.cast_zero, mul_zero, add_zero, true_and]
    omega
  | cons p ps ih =>
    intro m h hq
    obtain ⟨hq1, hq2⟩ := hq
    obtain ⟨hd, hs⟩ := process_clockOnly m p hq1
    obtain ⟨ihd, ihs⟩ := ih (process m p) (process_stageInRange m p h) hq2
    have e : run m (p :: ps) = run (process m p) ps := rfl
    rw [e, ihd, ihs, hd, hs]
    refine ⟨rfl, ?_⟩
    unfold StageInRange at h
    simp only [clockEdges, Nat.cast_add]
    generalize (clockEdges (process m p) ps : Int) = n
    have hstep : stepOf m.direction = 1 ∨ stepOf m.direction = -1 := by
      unfold stepOf; split_ifs <;> simp
    cases hc : clockEdge m p <;> rcases hstep with h1 | h1 <;>
      simp only [h1, b2n, if_true, if_false, Bool.false_eq_true, Nat.cast_zero, Nat.cast_one] <;>
      omega

theorem process_clockOnly_clock (m : VoltageSequencer) (p : Ports) (h : ClockOnly m p) :
    (process m p).clock =
      (schmittLane m.clock (p.params CLOCK_EN_PARAM * p.inputs CLOCK_IN_INPUT)
        triggerThresholdLevel triggerThresholdLevel).2 := by
  obtain ⟨hr, hd, hp, hn, hh, _⟩ := h
  have hf := processPriority_frame m p
  have hl2 : (processPriority m p).signals.l2 = false := by
    rw [processPriority_signals]; exact hr
  have hp1 : (schmittLane (processPriority m p).presetTrig (p.inputs PRESET_INPUT)
      triggerThresholdLevel triggerThresholdLevel).1 = false := by
    rw [hf.2.2.1]; exact hp
  rw [process, (writeOutputs_frame _ p).2.2.2.2.1]
  cases hc : (schmittLane (processPriority m p).clock
      (p.params CLOCK_EN_PARAM * p.inputs CLOCK_IN_INPUT)
      triggerThresholdLevel triggerThresholdLevel).1
  · rw [decideChange_noEdge _ p hl2 hn hp1 hh hc, hf.2.2.2.1]
  · rw [decideChange_clock _ p hl2 hn hp1 hh hc, hf.2.2.2.1]

theorem clockOnly_clockLow (m : VoltageSequencer) : ClockOnly m clockLow := by
  refine ⟨?_, ?_, ?_, ?_, ?_, ?_⟩
  · norm_num [resetFires, signalsOf, schmitt4, schmittLane, priorityInputs, clockLow,
      triggerThresholdLevel]
  · norm_num [directionFires, signalsOf, schmitt4, schmittLane, priorityInputs, clockLow,
      triggerThresholdLevel]
  · norm_num [presetFires, schmittLane, clockLow, triggerThresholdLevel]
  · intro i hi
    have h8 : i + 16 ≠ 24 := by omega
    norm_num [selectLevel, clockLow, triggerThresholdLevel, CLOCK_EN_PARAM, h8]
  · norm_num [clockLow, triggerThresholdLevel]
  · simp [clockLow]

theorem clockOnly_clockHigh (m : VoltageSequencer) : ClockOnly m clockHigh := by
  refine ⟨?_, ?_, ?_, ?_, ?_, ?_⟩
  · norm_num [resetFires, signalsOf, schmitt4, schmittLane, priorityInputs, clockHigh,
      triggerThresholdLevel, RESET_INPUT, CLOCK_IN_INPUT]
  · norm_num [directionFires, signalsOf, schmitt4, schmittLane, priorityInputs, clockHigh,
      triggerThresholdLevel, DIRECTION_INPUT, CLOCK_IN_INPUT]
  · norm_num [presetFires, schmittLane, clockHigh, triggerThresholdLevel, PRESET_INPUT,
      CLOCK_IN_INPUT]
  · intro i hi
    have h12 : i ≠ 12 := by omega
    have h8 : i + 16 ≠ 24 := by omega
    norm_num [selectLevel, clockHigh, triggerThresholdLevel, CLOCK_EN_PARAM, CLOCK_IN_INPUT,
      h12, h8]
  · norm_num [clockHigh, triggerThresholdLevel, HOLD_INPUT, CLOCK_IN_INPUT]
  · simp [clockHigh]

theorem pulse_clockOnlyRun (m : VoltageSequencer) (ps : List Ports) :
    ClockOnlyRun m (clockLow :: clockHigh :: ps) ↔
      ClockOnlyRun (process (process m clockLow) clockHigh) ps := by
  simp only [ClockOnlyRun, clockOnly_clockLow, clockOnly_clockHigh, true_and]

theorem pulse_clockEdges (m : VoltageSequencer) (ps : List Ports) :
    clockEdges m (clockLow :: clockHigh :: ps) =
      1 + clockEdges (process (process m clockLow) clockHigh) ps := by
  have h1 : clockEdge m clockLow = false := by
    norm_num [clockEdge, schmittLane, clockLow, triggerThresholdLevel]
  have h2 : (process m clockLow).clock = false := by
    rw [process_clockOnly_clock m clockLow (clockOnly_clockLow m)]
    norm_num [schmittLane, clockLow, triggerThresholdLevel]
  have h3 : clockEdge (process m clockLow) clockHigh = true := by
    norm_num [clockEdge, schmittLane, clockHigh, triggerThresholdLevel, h2]
  simp only [clockEdges, h1, h3, b2n]
  simp

theorem process_gates (m : VoltageSequencer) (p : Ports)
    (hr : StageInRange m) (hg : GatesOffElsewhere m) :
    (process m p).outputs (process m p).stage.toNat = gateOn ∧
      GatesOffElsewhere (process m p) := by
  have hr1 := process_stageInRange m p hr
  have hst := process_stage m p
  have hfd := decideChange_frame (processPriority m p) p
  have hfp := processPriority_frame m p
  have key : ∀ j, j < 8 → (process m p).outputs j =
      if j = (process m p).stage.toNat then gateOn
      else if (decideChange (processPriority m p) p).changeInfo ≠ 0 ∧ j = m.stage.toNat
        then gateOff else m.outputs j := by
    intro j hj
    have h := writeOutputs_gate (decideChange (processPriority m p) p) p j hj
    rw [hfd.1, hfd.2.1, hfp.1, hfp.2.2.2.2] at h
    exact h
  unfold StageInRange at hr hr1
  constructor
  · rw [key _ (by omega)]
    simp
  · intro j hj hne
    rw [key j hj, if_neg hne]
    split_ifs with hc
    · rfl
    · apply hg j hj
      intro hjs
      by_cases h0 : (decideChange (processPriority m p) p).changeInfo = 0
      · rw [if_neg (by simpa using h0)] at hst
        exact hne (by rw [hst]; exact hjs)
      · exact hc ⟨h0, hjs⟩

theorem init_gatesOff : GatesOffElsewhere init := by
  intro j _ _
  simp [init, changeVState, changeState, fields, Function.update_apply, gateOff]

theorem run_gates (ps : List Ports) :
    ∀ m : VoltageSequencer, StageInRange m → GatesOffElsewhere m →
      StageInRange (run m ps) ∧ GatesOffElsewhere (run m ps) := by
  induction ps with
  | nil => intro m h1 h2; exact ⟨h1, h2⟩
  | cons p ps ih =>
    intro m h1 h2
    exact ih (process m p) (process_stageInRange m p h1) (process_gates m p h1 h2).2

/-- C1 (full cycle): in a run of `process` calls on which Reset, Direction and
Preset never fire, no select level reaches the threshold, Hold stays below the
threshold and the clock is enabled, and in which 8 clock rising edges are
detected, the step after the run equals the step before it; in particular a
run that starts at step 0 with direction forward ends at step 0. -/
theorem full_cycle (m : VoltageSequencer) (ps : List Ports)
    (hm : StageInRange m) (hq : ClockOnlyRun m ps) (h8 : clockEdges m ps = 8) :
    (run m ps).stage = m.stage ∧
      (m.stage = 0 → m.direction = 0 → (run m ps).stage = 0) := by
  have h := (run_clockOnly ps m hm hq).2
  rw [h8] at h
  have hstep : stepOf m.direction = 1 ∨ stepOf m.direction = -1 := by
    unfold stepOf; split_ifs <;> simp
  unfold StageInRange at hm
  have h1 : (run m ps).stage = m.stage := by
    rcases hstep with h1 | h1 <;> rw [h1] at h <;> rw [h] <;> push_cast <;> omega
  exact ⟨h1, fun h0 _ => by rw [h1, h0]⟩

/-- Witness of C1: sixteen samples with the clock alternating low and high, on
the constructed module. -/
theorem full_cycle_witness :
    StageInRange init ∧ ClockOnlyRun init eightPulses ∧ clockEdges init eightPulses = 8 ∧
      (run init eightPulses).stage = init.stage :=
  have hq : ClockOnlyRun init eightPulses := by
    unfold eightPulses
    iterate 8 rw [pulse_clockOnlyRun]
    exact trivial
  have h8 : clockEdges init eightPulses = 8 := by
    unfold eightPulses
    iterate 8 rw [pulse_clockEdges]
    rfl
  ⟨init_stageInRange, hq, h8, (full_cycle init eightPulses init_stageInRange hq h8).1⟩

/-- C2 (reset): on a sample where the Reset trigger fires, the step after
`process` is 0 and step gate 0 is written high, whatever the previous state and
the other inputs of the sample are. -/
theorem reset_forces_step_zero (m : VoltageSequencer) (p : Ports)
    (h : resetFires m p = true) :
    (process m p).stage = 0 ∧ (process m p).outputs 0 = gateOn := by
  have hl2 : (processPriority m p).signals.l2 = true := by
    rw [processPriority_signals]; exact h
  have hs : (process m p).stage = 0 := by
    rw [process_stage, decideChange_reset _ p hl2]
    simp
  refine ⟨hs, ?_⟩
  have hg := writeOutputs_gate (decideChange (processPriority m p) p) p 0 (by omega)
  have hs1 : (writeOutputs (decideChange (processPriority m p) p) p).stage = 0 := hs
  rw [hs1] at hg
  simpa using hg

/-- Witness of C2: a reset pulse at step 5, with select input 3 high on the same
sample. -/
theorem reset_forces_step_zero_witness :
    resetFires (armedAt 5) resetHigh = true ∧
      (process (armedAt 5) resetHigh).stage = 0 ∧
      (process (armedAt 5) resetHigh).outputs 0 = gateOn :=
  have h : resetFires (armedAt 5) resetHigh = true := by
    norm_num [resetFires, signalsOf, schmitt4, schmittLane, priorityInputs, resetHigh,
      armedAt, triggerThresholdLevel]
  ⟨h, reset_forces_step_zero (armedAt 5) resetHigh h⟩

theorem process_allGates (m : VoltageSequencer) (p : Ports) :
    (process m p).outputs ALLGATES_OUTPUT =
      gateOn * (((decideChange (processPriority m p) p).changeInfo &&& 1 : Nat) : ℚ) :=
  writeOutputs_allGates _ p

theorem toSignedChar_small (i : Nat) (h : i < 8) : toSignedChar (i : Int) % 8 = (i : Int) := by
  unfold toSignedChar
  omega

/-- C3 (select): on a sample where Reset does not fire and `i` is the lowest
index whose select level reaches the threshold, after `process` the current
step is `i`, the recorded preset is `i`, step gate `i` is high and ALLGATES is
`gateOn`, whatever the Preset trigger, the clock, Hold and the direction are;
on a sample where no select level reaches the threshold ALLGATES is 0. -/
theorem select_step (m : VoltageSequencer) (p : Ports) :
    (resetFires m p = false → ∀ i, lowestSelect p i →
      (process m p).stage = (i : Int) ∧ (process m p).preset = i ∧
      (process m p).outputs i = gateOn ∧ (process m p).outputs ALLGATES_OUTPUT = gateOn) ∧
    (noSelect p → (process m p).outputs ALLGATES_OUTPUT = 0) := by
  constructor
  · intro hr i hs
    have hl2 : (processPriority m p).signals.l2 = false := by
      rw [processPriority_signals]; exact hr
    have hd := decideChange_select _ p i hl2 hs
    have hst : (process m p).stage = (i : Int) := by
      rw [process_stage, hd]
      simp [toSignedChar_small i hs.1]
    refine ⟨hst, ?_, ?_, ?_⟩
    · rw [process, (writeOutputs_frame _ p).2.2.1, hd]
    · have hg := writeOutputs_gate (decideChange (processPriority m p) p) p i hs.1
      have hs1 : (writeOutputs (decideChange (processPriority m p) p) p).stage = (i : Int) := hst
      rw [hs1] at hg
      simpa using hg
    · rw [process_allGates, hd]
      simp
  · intro hn
    rw [process_allGates]
    cases hl2 : (processPriority m p).signals.l2
    · have hbit : ((decideChange (processPriority m p) p).changeInfo &&& 1 : Nat) = 0 := by
        cases hp : (schmittLane (processPriority m p).presetTrig (p.inputs PRESET_INPUT)
            triggerThresholdLevel triggerThresholdLevel).1
        · by_cases hh : p.inputs HOLD_INPUT < triggerThresholdLevel
          · cases hc : (schmittLane (processPriority m p).clock
                (p.params CLOCK_EN_PARAM * p.inputs CLOCK_IN_INPUT)
                triggerThresholdLevel triggerThresholdLevel).1
            · rw [decideChange_noEdge _ p hl2 hn hp hh hc]; simp
            · rw [decideChange_clock _ p hl2 hn hp hh hc]; simp
          · rw [decideChange_hold _ p hl2 hn hp hh]; simp
        · rw [decideChange_preset _ p hl2 hn hp]; simp
      rw [hbit]
      simp
    · rw [decideChange_reset _ p hl2]
      simp

/-- Witness of C3: select inputs 5 and 6 fire together with the clock on the
constructed module; a sample with no select level leaves ALLGATES at 0. -/
theorem select_step_witness :
    (resetFires init selectFive = false ∧ lowestSelect selectFive 5 ∧
      (process init selectFive).stage = 5 ∧ (process init selectFive).preset = 5 ∧
      (process init selectFive).outputs 5 = gateOn ∧
      (process init selectFive).outputs ALLGATES_OUTPUT = gateOn) ∧
    (noSelect clockLow ∧ (process init clockLow).outputs ALLGATES_OUTPUT = 0) :=
  have hr : resetFires init selectFive = false := by
    norm_num [resetFires, signalsOf, schmitt4, schmittLane, priorityInputs, selectFive,
      triggerThresholdLevel, RESET_INPUT, CLOCK_IN_INPUT]
  have hs : lowestSelect selectFive 5 := by
    refine ⟨by omega, ?_, ?_⟩
    · norm_num [selectLevel, selectFive, triggerThresholdLevel, CLOCK_EN_PARAM]
    · intro j hj
      have h5 : j ≠ 5 := by omega
      have h6 : j ≠ 6 := by omega
      have h12 : j ≠ 12 := by omega
      have h24 : j + 16 ≠ 24 := by omega
      norm_num [selectLevel, selectFive, triggerThresholdLevel, CLOCK_EN_PARAM,
        CLOCK_IN_INPUT, h5, h6, h12, h24]
  have hn : noSelect clockLow := (clockOnly_clockLow init).2.2.2.1
  ⟨⟨hr, hs, (select_step init selectFive).1 hr 5 hs⟩,
    ⟨hn, (select_step init clockLow).2 hn⟩⟩

/-- C4 (clock step): on a sample where Reset does not fire, no select level
reaches the threshold, Preset does not fire, Hold is below the threshold and a
rising edge of the enabled clock is detected, the new step is (step + 1) mod 8
when the direction after the sample's Direction handling is forward and
(step + 7) mod 8 when it is backward, so forward from 7 gives 0 and backward
from 0 gives 7; a step in 0..7 stays in 0..7 over every `process` call, and it
is in 0..7 after every run from the constructed module. -/
theorem clock_step (m : VoltageSequencer) (p : Ports) :
    (resetFires m p = false → noSelect p → presetFires m p = false →
      p.inputs HOLD_INPUT < triggerThresholdLevel → clockEdge m p = true →
      ((process m p).direction = 0 → (process m p).stage = (m.stage + 1) % 8) ∧
      ((process m p).direction ≠ 0 → (process m p).stage = (m.stage + 7) % 8) ∧
      ((process m p).direction = 0 → m.stage = 7 → (process m p).stage = 0) ∧
      ((process m p).direction ≠ 0 → m.stage = 0 → (process m p).stage = 7)) ∧
    (StageInRange m → StageInRange (process m p)) ∧
    (∀ ps : List Ports, StageInRange (run init ps)) := by
  refine ⟨?_, process_stageInRange m p, fun ps => run_stageInRange ps init init_stageInRange⟩
  intro hr hn hp hh hc
  have hf := processPriority_frame m p
  have hl2 : (processPriority m p).signals.l2 = false := by
    rw [processPriority_signals]; exact hr
  have hp1 : (schmittLane (processPriority m p).presetTrig (p.inputs PRESET_INPUT)
      triggerThresholdLevel triggerThresholdLevel).1 = false := by
    rw [hf.2.2.1]; exact hp
  have hc1 : (schmittLane (processPriority m p).clock
      (p.params CLOCK_EN_PARAM * p.inputs CLOCK_IN_INPUT)
      triggerThresholdLevel triggerThresholdLevel).1 = true := by
    rw [hf.2.2.2.1]; exact hc
  have hdir : (process m p).direction = (processPriority m p).direction := by
    rw [process, (writeOutputs_frame _ p).1, (decideChange_frame _ p).2.2.1]
  have hst : (process m p).stage =
      (m.stage + stepOf (process m p).direction) % 8 := by
    rw [process_stage, decideChange_clock _ p hl2 hn hp1 hh hc1, hdir]
    simp [toSignedChar_emod, hf.1]
  have hfw : (process m p).direction = 0 → (process m p).stage = (m.stage + 1) % 8 := by
    intro h0
    rw [hst, h0]
    simp [stepOf]
  have hbw : (process m p).direction ≠ 0 → (process m p).stage = (m.stage + 7) % 8 := by
    intro h0
    rw [hst]
    simp only [stepOf, h0, ne_eq, not_false_eq_true, if_true]
    omega
  refine ⟨hfw, hbw, ?_, ?_⟩
  · intro h0 h7
    rw [hfw h0, h7]
    rfl
  · intro h0 h7
    rw [hbw h0, h7]
    rfl

/-- Witness of C4: a clock edge at step 7 with direction forward. -/
theorem clock_step_witness :
    resetFires (armedAt 7) clockHigh = false ∧ noSelect clockHigh ∧
      presetFires (armedAt 7) clockHigh = false ∧
      clockHigh.inputs HOLD_INPUT < triggerThresholdLevel ∧
      clockEdge (armedAt 7) clockHigh = true ∧
      StageInRange (armedAt 7) ∧
      (process (armedAt 7) clockHigh).stage = ((armedAt 7).stage + 1) % 8 ∧
      StageInRange (process (armedAt 7) clockHigh) :=
  have hq := clockOnly_clockHigh (armedAt 7)
  have hc : clockEdge (armedAt 7) clockHigh = true := by
    norm_num [clockEdge, schmittLane, clockHigh, armedAt, triggerThresholdLevel]
  have hd : (process (armedAt 7) clockHigh).direction = 0 := by
    rw [(process_clockOnly (armedAt 7) clockHigh hq).1]
    rfl
  have hr : StageInRange (armedAt 7) := by
    simp [StageInRange, armedAt]
  ⟨hq.1, hq.2.2.2.1, hq.2.2.1, hq.2.2.2.2.1, hc, hr,
    ((clock_step (armedAt 7) clockHigh).1 hq.1 hq.2.2.2.1 hq.2.2.1 hq.2.2.2.2.1 hc).1 hd,
    (clock_step (armedAt 7) clockHigh).2.1 hr⟩

/-- C5 (one-hot gates): after every `process` call of a run that starts from
the constructed module, the step gate of the current step is `gateOn`, each of
the other seven step gates is `gateOff`, and the current step is one of the
eight gates. -/
theorem one_hot_gates (ps : List Ports) (p : Ports) (j : Fin 8) :
    (process (run init ps) p).outputs j =
        (if (j : Nat) = (process (run init ps) p).stage.toNat then gateOn else gateOff) ∧
      (process (run init ps) p).stage.toNat < 8 ∧ gateOn ≠ gateOff := by
  have hi := run_gates ps init init_stageInRange init_gatesOff
  have hg := process_gates (run init ps) p hi.1 hi.2
  have hr := process_stageInRange (run init ps) p hi.1
  unfold StageInRange at hr
  refine ⟨?_, by omega, by norm_num [gateOn, gateOff]⟩
  split_ifs with h
  · rw [h]; exact hg.1
  · exact hg.2 j j.isLt h

end VoltageSequencer

namespace WindowGenerators

theorem process_stage_eq (pow2 : ℚ → ℚ) (m : WindowGenerators) (p : Ports) :
    (process pow2 m p).stage = updateStage (readControls m p) := rfl

theorem idleLane (s : Bool) :
    (schmittLane s 0 triggerThresholdLevel triggerThresholdLevel).1 = false := by
  norm_num [schmittLane, triggerThresholdLevel]

theorem movemask_edges (m : WindowGenerators) (p : Ports) :
    movemask (readControls m p).triggerGate ≠ 0 ↔
      (trigEdge m p = true ∨ gateEdge m p = true) := by
  simp only [readControls, trigEdge, gateEdge, schmitt4, movemask, tgInputs, idleLane]
  cases (schmittLane m.tg.l0 (p.inputs TRIG_INPUT) triggerThresholdLevel
      triggerThresholdLevel).1 <;>
    cases (schmittLane m.tg.l1 (p.inputs GATE_INPUT + gateOn * p.params BUT_PARAM)
      triggerThresholdLevel triggerThresholdLevel).1 <;>
    simp [b2n]

theorem readControls_frame (m : WindowGenerators) (p : Ports) :
    (readControls m p).stage = m.stage ∧ (readControls m p).envOuts = m.envOuts ∧
      (readControls m p).envTargets = m.envTargets := ⟨rfl, rfl, rfl⟩

theorem gateLatch (m : WindowGenerators) (p : Ports) :
    (readControls m p).tg.l1 =
      (decide (triggerThresholdLevel ≤ gateLevel p) ||
        (m.tg.l1 && !decide (gateLevel p ≤ triggerThresholdLevel))) := rfl

theorem updateStage_le (m : WindowGenerators) (h : m.stage ≤ 5) :
    updateStage m ≤ 5 ∧ updateStage m ≤ m.stage + 1 := by
  unfold updateStage
  split_ifs with h1 h2 h3
  · omega
  · cases m.tg.l1 <;> simp [b2n] <;> omega
  · omega
  · have h4 : m.stage ≤ 4 := by omega
    by_cases he : m.envOuts.l3 = m.envTargets.l3 <;> simp [b2n, he] <;> omega

theorem run_stage_le (pow2 : ℚ → ℚ) (ps : List Ports) :
    ∀ m : WindowGenerators, m.stage ≤ 5 → (run pow2 m ps).stage ≤ 5 := by
  induction ps with
  | nil => intro m h; exact h
  | cons p ps ih =>
    intro m h
    exact ih (process pow2 m p) (by
      rw [process_stage_eq]
      exact (updateStage_le (readControls m p) h).1)

theorem edge_restarts (pow2 : ℚ → ℚ) (m : WindowGenerators) (p : Ports)
    (hs : m.stage = 3 ∨ m.stage = 4 ∨ m.stage = 5)
    (he : trigEdge m p = true ∨ gateEdge m p = true) :
    (process pow2 m p).stage = 0 := by
  rw [process_stage_eq, updateStage]
  have h1 := (movemask_edges m p).mpr he
  have h2 : (readControls m p).stage > 2 := by
    rw [(readControls_frame m p).1]; omega
  rw [if_pos ⟨h1, h2⟩]

/-- C6 (retrigger): in stage 3, 4 or 5, on a sample where a rising edge is
detected on the trigger input or on the gate, the stage after `process` is 0,
whatever the envelope values and the time parameters are. -/
theorem retrigger_restarts (pow2 : ℚ → ℚ) (m : WindowGenerators) (p : Ports)
    (hs : m.stage = 3 ∨ m.stage = 4 ∨ m.stage = 5)
    (he : trigEdge m p = true ∨ gateEdge m p = true) :
    (process pow2 m p).stage = 0 :=
  edge_restarts pow2 m p hs he

/-- Witness of C6: a gate rising edge in SUSTAIN. -/
theorem retrigger_restarts_witness :
    (trigEdge (armedInStage 3) gateHigh = true ∨ gateEdge (armedInStage 3) gateHigh = true) ∧
      (process unitRate (armedInStage 3) gateHigh).stage = 0 :=
  have he : trigEdge (armedInStage 3) gateHigh = true ∨
      gateEdge (armedInStage 3) gateHigh = true := by
    right
    norm_num [gateEdge, schmitt4, schmittLane, tgInputs, gateHigh, armedInStage,
      triggerThresholdLevel, gateOn]
  ⟨he, retrigger_restarts unitRate (armedInStage 3) gateHigh (Or.inl rfl) he⟩

theorem no_edges (m : WindowGenerators) (p : Ports)
    (ht : trigEdge m p = false) (hg : gateEdge m p = false) :
    ¬ (movemask (readControls m p).triggerGate ≠ 0 ∧ (readControls m p).stage > 2) := by
  intro h
  rcases (movemask_edges m p).mp h.1 with h1 | h1
  · rw [ht] at h1; exact Bool.false_ne_true h1
  · rw [hg] at h1; exact Bool.false_ne_true h1

theorem sustainStep (pow2 : ℚ → ℚ) (m : WindowGenerators) (p : Ports)
    (h3 : m.stage = 3) (ht : trigEdge m p = false) (hg : gateEdge m p = false) :
    (gateLevel p < triggerThresholdLevel → (process pow2 m p).stage = 4) ∧
      (triggerThresholdLevel ≤ gateLevel p → (process pow2 m p).stage = 3) := by
  have hst : (process pow2 m p).stage = 3 + b2n (!(readControls m p).tg.l1) := by
    rw [process_stage_eq, updateStage, if_neg (no_edges m p ht hg),
      if_pos ((readControls_frame m p).1.trans h3)]
  rw [hst, gateLatch]
  constructor
  · intro hlow
    have h1 : ¬ triggerThresholdLevel ≤ gateLevel p := not_le.mpr hlow
    have h2 : gateLevel p ≤ triggerThresholdLevel := le_of_lt hlow
    simp [h1, h2, b2n]
  · intro hhigh
    simp [hhigh, b2n]

theorem sustainRun (pow2 : ℚ → ℚ) (ps : List Ports) :
    ∀ m : WindowGenerators, m.stage = 3 → GateHeld pow2 m ps → (run pow2 m ps).stage = 3 := by
  induction ps with
  | nil => intro m h _; exact h
  | cons p ps ih =>
    intro m h hh
    obtain ⟨⟨ht, hg, hl⟩, hrest⟩ := hh
    exact ih (process pow2 m p) ((sustainStep pow2 m p h ht hg).2 hl) hrest

/-- C7 (sustain_until_release): in stage 3, on a sample with no rising edge on trigger or
gate, the stage after `process` is 4 if the gate level (gate input + 5 V x
manual button) is below the threshold and 3 if it is at or above it; over a run
of any length on which the gate is held high with no rising edge the stage
stays 3, whatever the envelope values and times are, and it becomes 4 on the
first following sample on which the gate is low. -/
theorem sustain_until_release (pow2 : ℚ → ℚ) (m : WindowGenerators) (h3 : m.stage = 3) :
    (∀ p, trigEdge m p = false → gateEdge m p = false →
      (gateLevel p < triggerThresholdLevel → (process pow2 m p).stage = 4) ∧
      (triggerThresholdLevel ≤ gateLevel p → (process pow2 m p).stage = 3)) ∧
    (∀ ps, GateHeld pow2 m ps →
      (run pow2 m ps).stage = 3 ∧
      ∀ q, trigEdge (run pow2 m ps) q = false → gateEdge (run pow2 m ps) q = false →
        gateLevel q < triggerThresholdLevel → (process pow2 (run pow2 m ps) q).stage = 4) := by
  refine ⟨fun p ht hg => sustainStep pow2 m p h3 ht hg, fun ps hh => ?_⟩
  have hr := sustainRun pow2 ps m h3 hh
  exact ⟨hr, fun q ht hg hl => (sustainStep pow2 (run pow2 m ps) q hr ht hg).1 hl⟩

/-- Witness of C7: the gate held high for two samples in SUSTAIN, then
released. -/
theorem sustain_until_release_witness :
    (inStage 3).stage = 3 ∧ GateHeld unitRate (inStage 3) [gateHigh, gateHigh] ∧
      (run unitRate (inStage 3) [gateHigh, gateHigh]).stage = 3 ∧
      (process unitRate (run unitRate (inStage 3) [gateHigh, gateHigh]) allLow).stage = 4 :=
  have hedge : ∀ m : WindowGenerators, m.tg.l1 = true →
      trigEdge m gateHigh = false ∧ gateEdge m gateHigh = false ∧
        triggerThresholdLevel ≤ gateLevel gateHigh := by
    intro m h1
    norm_num [trigEdge, gateEdge, schmitt4, schmittLane, tgInputs, gateHigh, gateLevel,
      triggerThresholdLevel, gateOn, h1, GATE_INPUT, TRIG_INPUT]
  have hlatch : ∀ m : WindowGenerators, m.tg.l1 = true →
      (process unitRate m gateHigh).tg.l1 = true := by
    intro m h1
    have e1 : (process unitRate m gateHigh).tg.l1 =
        (schmittLane m.tg.l1 (gateLevel gateHigh) triggerThresholdLevel
          triggerThresholdLevel).2 := rfl
    rw [e1]
    norm_num [schmittLane, gateHigh, gateLevel, triggerThresholdLevel, gateOn, h1,
      GATE_INPUT]
  have hh : GateHeld unitRate (inStage 3) [gateHigh, gateHigh] :=
    ⟨hedge (inStage 3) rfl,
      hedge (process unitRate (inStage 3) gateHigh) (hlatch (inStage 3) rfl), trivial⟩
  have hq : trigEdge (run unitRate (inStage 3) [gateHigh, gateHigh]) allLow = false ∧
      gateEdge (run unitRate (inStage 3) [gateHigh, gateHigh]) allLow = false ∧
      gateLevel allLow < triggerThresholdLevel := by
    norm_num [trigEdge, gateEdge, schmitt4, schmittLane, tgInputs, allLow, gateLevel,
      triggerThresholdLevel, gateOn]
  ⟨rfl, hh, ((sustain_until_release unitRate (inStage 3) rfl).2 [gateHigh, gateHigh] hh).1,
    ((sustain_until_release unitRate (inStage 3) rfl).2 [gateHigh, gateHigh] hh).2 allLow hq.1 hq.2.1 hq.2.2⟩

theorem process_endGate (pow2 : ℚ → ℚ) (m : WindowGenerators) (p : Ports) :
    (process pow2 m p).outputs G0_OUTPUT =
      gateOn * (b2n (decide (5 = (process pow2 m p).stage)) : ℚ) := by
  simp [process, writeOutputs]

/-- C8 (END is terminal): stage 5 is the constructed initial stage; in stage 5,
on a sample with no rising edge on trigger or gate the stage after `process` is
5 and the END gate output is `gateOn`; if the stage after `process` is not 5
then a rising edge was detected and the stage is 0. -/
theorem end_terminal (pow2 : ℚ → ℚ) (m : WindowGenerators) (p : Ports) (h5 : m.stage = 5) :
    init.stage = 5 ∧
    (trigEdge m p = false → gateEdge m p = false →
      (process pow2 m p).stage = 5 ∧ (process pow2 m p).outputs G0_OUTPUT = gateOn) ∧
    ((process pow2 m p).stage ≠ 5 →
      (trigEdge m p = true ∨ gateEdge m p = true) ∧ (process pow2 m p).stage = 0) := by
  have hs : (readControls m p).stage = 5 := (readControls_frame m p).1.trans h5
  have hstay : trigEdge m p = false → gateEdge m p = false → (process pow2 m p).stage = 5 := by
    intro ht hg
    rw [process_stage_eq, updateStage, if_neg (no_edges m p ht hg), if_neg (by omega), if_pos hs]
  refine ⟨rfl, ?_, ?_⟩
  · intro ht hg
    refine ⟨hstay ht hg, ?_⟩
    rw [process_endGate, hstay ht hg]
    simp [b2n]
  · intro hne
    have he : trigEdge m p = true ∨ gateEdge m p = true := by
      by_contra hcon
      push_neg at hcon
      exact hne (hstay (by simpa using hcon.1) (by simpa using hcon.2))
    exact ⟨he, edge_restarts pow2 m p (Or.inr (Or.inr h5)) he⟩

/-- Witness of C8: the constructed module on a sample with every input low. -/
theorem end_terminal_witness :
    init.stage = 5 ∧ trigEdge init allLow = false ∧ gateEdge init allLow = false ∧
      (process unitRate init allLow).stage = 5 ∧
      (process unitRate init allLow).outputs G0_OUTPUT = gateOn :=
  have ht : trigEdge init allLow = false := by
    norm_num [trigEdge, schmitt4, schmittLane, tgInputs, allLow, triggerThresholdLevel]
  have hg : gateEdge init allLow = false := by
    norm_num [gateEdge, schmitt4, schmittLane, tgInputs, allLow, triggerThresholdLevel]
  ⟨rfl, ht, hg, (end_terminal unitRate init allLow rfl).2.1 ht hg⟩

/-- C9 (timed stages): in stages 0, 1 and 2, with or without a rising edge, and
in stage 4 when no rising edge occurs, the stage after `process` is stage + 1
if the ADASR envelope output left by the previous sample equals the ADASR
target left by the previous sample, and is unchanged otherwise; a stage in 0..5
stays in 0..5 and moves forward by at most one per sample, and the stage is in
0..5 after every run from the constructed module. -/
theorem timed_stages (pow2 : ℚ → ℚ) (m : WindowGenerators) (p : Ports) :
    ((m.stage ≤ 2 ∨ (m.stage = 4 ∧ trigEdge m p = false ∧ gateEdge m p = false)) →
      (process pow2 m p).stage =
        if m.envOuts.l3 = m.envTargets.l3 then m.stage + 1 else m.stage) ∧
    (m.stage ≤ 5 → (process pow2 m p).stage ≤ 5 ∧ (process pow2 m p).stage ≤ m.stage + 1) ∧
    (∀ ps : List Ports, (run pow2 init ps).stage ≤ 5) := by
  refine ⟨?_, ?_, fun ps => run_stage_le pow2 ps init (by simp [init])⟩
  · intro h
    have hf := readControls_frame m p
    have hno : ¬ (movemask (readControls m p).triggerGate ≠ 0 ∧ (readControls m p).stage > 2) := by
      rcases h with h | ⟨_, ht, hg⟩
      · intro hc
        rw [hf.1] at hc
        omega
      · exact no_edges m p ht hg
    have hle : m.stage ≤ 4 := by
      rcases h with h | ⟨h, _, _⟩ <;> omega
    have hn3 : ¬ (readControls m p).stage = 3 := by
      rw [hf.1]
      rcases h with h | ⟨h, _, _⟩ <;> omega
    have hn5 : ¬ (readControls m p).stage = 5 := by
      rw [hf.1]
      omega
    rw [process_stage_eq, updateStage, if_neg hno, if_neg hn3, if_neg hn5, hf.1, hf.2.1, hf.2.2]
    by_cases he : m.envOuts.l3 = m.envTargets.l3 <;> simp [he, b2n] <;> omega
  · intro h
    rw [process_stage_eq]
    exact updateStage_le (readControls m p) h

/-- Witness of C9: stage 4 with the ADASR output at its target 0 moves to 5. -/
theorem timed_stages_witness :
    ((inStage 4).stage = 4 ∧ trigEdge (inStage 4) allLow = false ∧
      gateEdge (inStage 4) allLow = false) ∧
    (process unitRate (inStage 4) allLow).stage = 5 ∧
    (process unitRate (inStage 4) allLow).stage ≤ (inStage 4).stage + 1 :=
  have ht : trigEdge (inStage 4) allLow = false := by
    norm_num [trigEdge, schmitt4, schmittLane, tgInputs, allLow, triggerThresholdLevel]
  have hg : gateEdge (inStage 4) allLow = false := by
    norm_num [gateEdge, schmitt4, schmittLane, tgInputs, allLow, triggerThresholdLevel]
  ⟨⟨rfl, ht, hg⟩,
    (timed_stages unitRate (inStage 4) allLow).1 (Or.inr ⟨rfl, ht, hg⟩),
    ((timed_stages unitRate (inStage 4) allLow).2.1 (by decide)).2⟩

end WindowGenerators

namespace ComparingCounter

theorem process_counter (m : ComparingCounter) (p : Ports) :
    (process m p).counter =
      if ceilingOf p ≤ m.counter + increment * (b2n (cmpEdge m p) : ℚ) then 0
      else m.counter + increment * (b2n (cmpEdge m p) : ℚ) := by
  simp only [process, cmpEdge, cmpOf, ceilingOf]
  split_ifs <;> rfl

theorem process_counterOutput (m : ComparingCounter) (p : Ports) :
    (process m p).outputs COUNTER_OUTPUT = (process m p).counter := by
  simp [process, Function.update_apply, COUNTER_OUTPUT, END_OUTPUT]

theorem ceiling_le_iff (C : ℚ) (n : ℕ) : C ≤ (n : ℚ) / 6 ↔ ⌈C / increment⌉₊ ≤ n := by
  rw [Nat.ceil_le, increment, div_le_iff₀ (by norm_num : (0 : ℚ) < 1 / 6),
    le_div_iff₀ (by norm_num : (0 : ℚ) < 6)]
  constructor <;> intro h <;> linarith

theorem process_counter_nat (C : ℚ) (m : ComparingCounter) (p : Ports) (c : ℕ)
    (hc : c < ⌈C / increment⌉₊) (hm : m.counter = (c : ℚ) / 6) (hp : ceilingOf p = C) :
    (process m p).counter =
      (((c + b2n (cmpEdge m p)) % ⌈C / increment⌉₊ : ℕ) : ℚ) / 6 := by
  have hsum : m.counter + increment * (b2n (cmpEdge m p) : ℚ) =
      ((c + b2n (cmpEdge m p) : ℕ) : ℚ) / 6 := by
    rw [hm, increment]
    push_cast
    ring
  rw [process_counter, hsum, hp]
  have hb : b2n (cmpEdge m p) ≤ 1 := by
    unfold b2n; split_ifs <;> omega
  split_ifs with h
  · have h1 := (ceiling_le_iff C _).mp h
    have e : c + b2n (cmpEdge m p) = ⌈C / increment⌉₊ := by omega
    rw [e, Nat.mod_self]
    simp
  · have h1 : ¬ ⌈C / increment⌉₊ ≤ c + b2n (cmpEdge m p) :=
      fun h2 => h ((ceiling_le_iff C _).mpr h2)
    rw [Nat.mod_eq_of_lt (not_le.mp h1)]

theorem run_counter (C : ℚ) (hC : 0 < C) (ps : List Ports) :
    ∀ (m : ComparingCounter) (c : ℕ), c < ⌈C / increment⌉₊ → m.counter = (c : ℚ) / 6 →
      (∀ p ∈ ps, ceilingOf p = C) →
      (run m ps).counter = (((c + cmpEdges m ps) % ⌈C / increment⌉₊ : ℕ) : ℚ) / 6 := by
  have hN : 0 < ⌈C / increment⌉₊ := Nat.ceil_pos.mpr (div_pos hC (by norm_num [increment]))
  induction ps with
  | nil =>
    intro m c hc hm _
    simp only [run, List.foldl_nil, cmpEdges, add_zero, Nat.mod_eq_of_lt hc]
    exact hm
  | cons p ps ih =>
    intro m c hc hm hps
    have hp : ceilingOf p = C := hps p (List.mem_cons_self p ps)
    have h1 := process_counter_nat C m p c hc hm hp
    have h2 := ih (process m p) ((c + b2n (cmpEdge m p)) % ⌈C / increment⌉₊)
      (Nat.mod_lt _ hN) h1 (fun q hq => hps q (List.mem_cons_of_mem p hq))
    have e : run m (p :: ps) = run (process m p) ps := rfl
    rw [e, h2, Nat.mod_add_mod]
    simp only [cmpEdges, Nat.add_assoc]

/-- C10 (wraparound): with the clamped ceiling fixed at `C > 0` volts on every
sample (the bound `C ≤ 31/6` is what the clamp guarantees and is not needed),
the counter starting at 0 and exact arithmetic, the counter equals `k/6` V
after a run with `k` detected comparator rising edges for every
`k < N = ⌈C / (1/6)⌉`, it is 0 after the run whose last edge is the `N`-th, it
is unchanged by a sample without a rising edge, and it is what the counter
output carries. -/
theorem counter_wraparound (C : ℚ) (hC : 0 < C) (m : ComparingCounter)
    (h0 : m.counter = 0) (ps : List Ports) (hps : ∀ p ∈ ps, ceilingOf p = C) :
    (∀ k : ℕ, k < ⌈C / increment⌉₊ → cmpEdges m ps = k →
      (run m ps).counter = (k : ℚ) / 6) ∧
    (cmpEdges m ps = ⌈C / increment⌉₊ → (run m ps).counter = 0) ∧
    (∀ p, ceilingOf p = C → cmpEdge (run m ps) p = false →
      (process (run m ps) p).counter = (run m ps).counter) ∧
    (∀ p, (process (run m ps) p).outputs COUNTER_OUTPUT = (process (run m ps) p).counter) := by
  have hN : 0 < ⌈C / increment⌉₊ := Nat.ceil_pos.mpr (div_pos hC (by norm_num [increment]))
  have hrun := run_counter C hC ps m 0 hN (by rw [h0]; simp) hps
  rw [Nat.zero_add] at hrun
  refine ⟨?_, ?_, ?_, fun p => process_counterOutput _ p⟩
  · intro k hk he
    rw [hrun, he, Nat.mod_eq_of_lt hk]
  · intro he
    rw [hrun, he, Nat.mod_self]
    simp
  · intro p hp he
    have h := process_counter_nat C (run m ps) p (cmpEdges m ps % ⌈C / increment⌉₊)
      (Nat.mod_lt _ hN) hrun hp
    rw [h, he, hrun]
    simp [b2n, Nat.mod_mod]

/-- Witness of C10: ceiling 1/2 V (so `N = 3`), one comparator edge. -/
theorem counter_wraparound_witness :
    (0 : ℚ) < 1 / 2 ∧ armed.counter = 0 ∧ (∀ p ∈ [aHigh], ceilingOf p = 1 / 2) ∧
      cmpEdges armed [aHigh] = 1 ∧ (run armed [aHigh]).counter = (1 : ℕ) / 6 :=
  have hps : ∀ p ∈ [aHigh], ceilingOf p = 1 / 2 := by
    intro p hp
    rw [List.mem_singleton.mp hp]
    norm_num [ceilingOf, inputOf, aHigh, clamp, topMax, increment, COUNT_CV_INPUT,
      COUNT_CV_ATTV_PARAM, COUNTER_LIMIT_PARAM, A_POT_PARAM, A_INPUT]
  have he : cmpEdges armed [aHigh] = 1 := by
    norm_num [cmpEdges, cmpEdge, cmpOf, inputOf, aHigh, armed, schmittLane, b2n, gateOn,
      triggerThresholdLevel, A_INPUT, B_INPUT, A_POT_PARAM, REFERENCE_PARAM,
      COUNTER_LIMIT_PARAM]
  have hk : 1 < ⌈(1 / 2 : ℚ) / increment⌉₊ := by
    rw [Nat.lt_ceil]
    norm_num [increment]
  ⟨by norm_num, rfl, hps, he,
    (counter_wraparound (1 / 2) (by norm_num) armed rfl [aHigh] hps).1 1 hk he⟩

theorem process_outputs_eq (m : ComparingCounter) (p : Ports) :
    (process m p).outputs COMPARE_OUTPUT = cmpOf p ∧
    (process m p).outputs COUNTER_OUTPUT = (process m p).counter ∧
    (process m p).outputs END_OUTPUT =
      gateOn * (b2n ((process m p).trigger && decide ((process m p).counter = 0)) : ℚ) := by
  simp only [process, cmpOf]
  split_ifs <;> simp [Function.update_apply, COMPARE_OUTPUT, COUNTER_OUTPUT, END_OUTPUT]

theorem process_trigger_eq (m : ComparingCounter) (p : Ports) :
    (process m p).trigger = decide ((inputOf p).l1 < (inputOf p).l0) := by
  have h : (process m p).trigger =
      (schmittLane m.trigger (cmpOf p) triggerThresholdLevel triggerThresholdLevel).2 := by
    simp only [process, cmpOf]
    split_ifs <;> rfl
  rw [h]
  by_cases hc : (inputOf p).l1 < (inputOf p).l0
  · norm_num [schmittLane, cmpOf, hc, b2n, gateOn, triggerThresholdLevel]
  · norm_num [schmittLane, cmpOf, hc, b2n, gateOn, triggerThresholdLevel]

/-- C11 (END gate): after every `process` call the END output is `gateOn` if
the counter output is exactly 0 and the compare output is high on that sample,
and 0 otherwise; the compare output is high (`gateOn`) exactly when
`k*A > B + threshold`. -/
theorem end_gate (m : ComparingCounter) (p : Ports) :
    ((process m p).outputs END_OUTPUT =
      if (process m p).outputs COUNTER_OUTPUT = 0 ∧ (process m p).outputs COMPARE_OUTPUT = gateOn
      then gateOn else 0) ∧
    ((process m p).outputs END_OUTPUT = gateOn ↔
      ((process m p).outputs COUNTER_OUTPUT = 0 ∧
        (process m p).outputs COMPARE_OUTPUT = gateOn)) ∧
    ((process m p).outputs COMPARE_OUTPUT = gateOn ↔
      p.inputs B_INPUT * 1 + p.params REFERENCE_PARAM <
        p.inputs A_INPUT * p.params A_POT_PARAM + 0) := by
  obtain ⟨h1, h2, h3⟩ := process_outputs_eq m p
  have hcmp : (process m p).outputs COMPARE_OUTPUT = gateOn ↔
      (inputOf p).l1 < (inputOf p).l0 := by
    rw [h1, cmpOf]
    by_cases hc : (inputOf p).l1 < (inputOf p).l0 <;> norm_num [hc, b2n, gateOn]
  have hend : (process m p).outputs END_OUTPUT =
      if (process m p).outputs COUNTER_OUTPUT = 0 ∧ (process m p).outputs COMPARE_OUTPUT = gateOn
      then gateOn else 0 := by
    rw [h3, process_trigger_eq, h2]
    by_cases hc : (inputOf p).l1 < (inputOf p).l0 <;>
      by_cases h0 : (process m p).counter = 0 <;>
      simp [hc, h0, hcmp, b2n]
  refine ⟨hend, ?_, hcmp⟩
  rw [hend]
  split_ifs with h
  · exact ⟨fun _ => h, fun _ => rfl⟩
  · exact ⟨fun h5 => absurd h5.symm (by norm_num [gateOn]), fun h5 => absurd h5 h⟩

end ComparingCounter

namespace DigitalChaoticSystem

theorem process_register (h : Host) (m : DigitalChaoticSystem) (p : Sample) :
    (process h m p).shiftRegister =
      if clockFires h m p then shiftIn m.shiftRegister (xorOf h m p) else m.shiftRegister := rfl

theorem process_clockLatch (h : Host) (m : DigitalChaoticSystem) (p : Sample) :
    (process h m p).clock =
      (schmittLane m.clock (clockOf (oscillate h m p) p)
        triggerThresholdLevel triggerThresholdLevel).2 := rfl

theorem process_settled (h : Host) (m : DigitalChaoticSystem) (p : Sample) :
    Settled (process h m p) := by
  refine ⟨rfl, ?_⟩
  simp [process, writeOutputs, Function.update_apply, STEPPED_OUTPUT, SMOOTHED_OUTPUT]

theorem run_settled (h : Host) (ps : List Sample) :
    ∀ m : DigitalChaoticSystem, Settled m → Settled (run h m ps) := by
  induction ps with
  | nil => intro m hm; exact hm
  | cons p ps ih => intro m _; exact ih (process h m p) (process_settled h m p)

theorem run_register (h : Host) (ps : List Sample) :
    ∀ m : DigitalChaoticSystem,
      (run h m ps).shiftRegister = (injected h m ps).foldl shiftIn m.shiftRegister := by
  induction ps with
  | nil => intro m; rfl
  | cons p ps ih =>
    intro m
    have e : run h m (p :: ps) = run h (process h m p) ps := rfl
    rw [e, ih, injected, List.foldl_append, process_register]
    cases clockFires h m p <;> rfl

theorem or_top_bit : ∀ a : Nat, a < 128 → a ||| 128 = a + 128 := by
  decide

theorem shiftIn_eq (r : Nat) (hr : r < 256) (x : Bool) :
    shiftIn r x = r / 2 + 128 * b2n x := by
  have hs : r >>> 1 = r / 2 := by rw [Nat.shiftRight_eq_div_pow, pow_one]
  have h1 : r / 2 < 128 := by omega
  have h2 : r / 2 % 256 = r / 2 := by omega
  unfold shiftIn
  rw [hs, h2]
  cases x
  · simp only [b2n, Bool.false_eq_true, if_false, Nat.zero_shiftLeft, Nat.or_zero]
    omega
  · simp only [b2n, if_true]
    rw [show (1 <<< 7 : Nat) = 128 from rfl, or_top_bit _ h1]
    omega

theorem shiftIn_lt (r : Nat) (x : Bool) : shiftIn r x < 256 :=
  Nat.mod_lt _ (by omega)

theorem foldl_shiftIn_lt (xs : List Bool) :
    ∀ r : Nat, r < 256 → xs.foldl shiftIn r < 256 := by
  induction xs with
  | nil => intro r hr; exact hr
  | cons x xs ih => intro r _; exact ih (shiftIn r x) (shiftIn_lt r x)

theorem b2n_le_one (x : Bool) : b2n x ≤ 1 := by
  cases x <;> simp [b2n]

theorem eight_shifts (r : Nat) (hr : r < 256) (x1 x2 x3 x4 x5 x6 x7 x8 : Bool) :
    [x1, x2, x3, x4, x5, x6, x7, x8].foldl shiftIn r =
      b2n x1 + 2 * b2n x2 + 4 * b2n x3 + 8 * b2n x4 + 16 * b2n x5 + 32 * b2n x6 +
        64 * b2n x7 + 128 * b2n x8 := by
  have l1 := shiftIn_lt r x1
  have l2 := shiftIn_lt (shiftIn r x1) x2
  have l3 := shiftIn_lt (shiftIn (shiftIn r x1) x2) x3
  have l4 := shiftIn_lt (shiftIn (shiftIn (shiftIn r x1) x2) x3) x4
  have l5 := shiftIn_lt (shiftIn (shiftIn (shiftIn (shiftIn r x1) x2) x3) x4) x5
  have l6 := shiftIn_lt (shiftIn (shiftIn (shiftIn (shiftIn (shiftIn r x1) x2) x3) x4) x5) x6
  have l7 := shiftIn_lt
    (shiftIn (shiftIn (shiftIn (shiftIn (shiftIn (shiftIn r x1) x2) x3) x4) x5) x6) x7
  simp only [List.foldl_cons, List.foldl_nil]
  rw [shiftIn_eq _ l7, shiftIn_eq _ l6, shiftIn_eq _ l5, shiftIn_eq _ l4, shiftIn_eq _ l3,
    shiftIn_eq _ l2, shiftIn_eq _ l1, shiftIn_eq _ hr]
  have b1 := b2n_le_one x1
  have b2 := b2n_le_one x2
  have b3 := b2n_le_one x3
  have b4 := b2n_le_one x4
  have b5 := b2n_le_one x5
  have b6 := b2n_le_one x6
  have b7 := b2n_le_one x7
  have b8 := b2n_le_one x8
  omega

/-- C12 (shift register history): for every initial register value (an
`unsigned char`) and every run, if the XOR bits injected at the clock rising
edges of the run end with `x1, ..., x8` (`x8` the latest), the register after
the run is `x1 + 2*x2 + ... + 128*x8` (`x8` at bit 7, `x1` at bit 0), whatever
was injected or held before, and the stepped value and its output are
0.625 V x (x1 + 2*x2 + 4*x3); a sample without a clock rising edge leaves the
register unchanged. -/
theorem register_history (h : Host) (m : DigitalChaoticSystem) (hm : m.shiftRegister < 256)
    (ps : List Sample) :
    (∀ (pre : List Bool) (x1 x2 x3 x4 x5 x6 x7 x8 : Bool),
      injected h m ps = pre ++ [x1, x2, x3, x4, x5, x6, x7, x8] →
      (run h m ps).shiftRegister =
        b2n x1 + 2 * b2n x2 + 4 * b2n x3 + 8 * b2n x4 + 16 * b2n x5 + 32 * b2n x6 +
          64 * b2n x7 + 128 * b2n x8 ∧
      (run h m ps).stepped = (5 / 8) * ((b2n x1 + 2 * b2n x2 + 4 * b2n x3 : Nat) : ℚ) ∧
      (run h m ps).outputs STEPPED_OUTPUT =
        (5 / 8) * ((b2n x1 + 2 * b2n x2 + 4 * b2n x3 : Nat) : ℚ)) ∧
    (∀ p, clockFires h (run h m ps) p = false →
      (process h (run h m ps) p).shiftRegister = (run h m ps).shiftRegister) := by
  constructor
  · intro pre x1 x2 x3 x4 x5 x6 x7 x8 hinj
    have hreg : (run h m ps).shiftRegister =
        b2n x1 + 2 * b2n x2 + 4 * b2n x3 + 8 * b2n x4 + 16 * b2n x5 + 32 * b2n x6 +
          64 * b2n x7 + 128 * b2n x8 := by
      rw [run_register, hinj, List.foldl_append]
      exact eight_shifts _ (foldl_shiftIn_lt pre _ hm) x1 x2 x3 x4 x5 x6 x7 x8
    have hset : Settled (run h m ps) := by
      cases ps with
      | nil => exact absurd hinj (by simp [injected])
      | cons p ps => exact run_settled h ps (process h m p) (process_settled h m p)
    have hlow : ((run h m ps).shiftRegister &&& 7 : Nat) =
        b2n x1 + 2 * b2n x2 + 4 * b2n x3 := by
      rw [show (7 : Nat) = 2 ^ 3 - 1 from rfl, Nat.and_pow_two_sub_one_eq_mod, hreg]
      have b1 := b2n_le_one x1
      have b2 := b2n_le_one x2
      have b3 := b2n_le_one x3
      omega
    have hstep : (run h m ps).stepped =
        (5 / 8) * ((b2n x1 + 2 * b2n x2 + 4 * b2n x3 : Nat) : ℚ) := by
      rw [hset.1, hlow, gateOn]
      norm_num
    exact ⟨hreg, hstep, hset.2.trans hstep⟩
  · intro p hp
    rw [process_register, hp]
    rfl

theorem clockOf_patched (m : DigitalChaoticSystem) (c d : ℚ) :
    clockOf m (patched c d) = c := by
  simp [clockOf, patched]

theorem dataOf_patched (m : DigitalChaoticSystem) (c d : ℚ) :
    dataOf m (patched c d) = decide (triggerThresholdLevel < d) := by
  simp [dataOf, patched, CLOCK_INPUT, DATA_INPUT]

theorem pulses_injected (h : Host) (n : Nat) :
    ∀ m : DigitalChaoticSystem, m.clock = false →
      injected h m (pulses n) = bitsFrom m.shiftRegister n := by
  induction n with
  | zero => intro m _; rfl
  | succ n ih =>
    intro m hc
    have f1 : clockFires h m (patched 5 5) = true := by
      rw [clockFires, clockOf_patched, hc]
      norm_num [schmittLane, triggerThresholdLevel]
    have x1 : xorOf h m (patched 5 5) = xor true (decide (m.shiftRegister &&& 1 ≠ 0)) := by
      rw [xorOf, dataOf_patched]
      norm_num [triggerThresholdLevel]
    have f2 : clockFires h (process h m (patched 5 5)) (patched 0 0) = false := by
      rw [clockFires, clockOf_patched]
      norm_num [schmittLane, triggerThresholdLevel]
    have c2 : (process h (process h m (patched 5 5)) (patched 0 0)).clock = false := by
      rw [process_clockLatch, clockOf_patched]
      norm_num [schmittLane, triggerThresholdLevel]
    have r2 : (process h (process h m (patched 5 5)) (patched 0 0)).shiftRegister =
        shiftIn m.shiftRegister (xor true (decide (m.shiftRegister &&& 1 ≠ 0))) := by
      rw [process_register, f2, process_register, f1, x1]
      rfl
    have e := ih _ c2
    rw [r2] at e
    simp only [pulses, injected, f1, f2, x1, e, bitsFrom, if_true]
    rfl

/-- Witness of C12: eight clock pulses with the data input high, from register
0: every injected bit is 1, the register ends at 255 and the stepped value at
0.625 V x 7. -/
theorem register_history_witness :
    armed.shiftRegister < 256 ∧
      injected plainHost armed (pulses 8) =
        [] ++ [true, true, true, true, true, true, true, true] ∧
      (run plainHost armed (pulses 8)).shiftRegister = 255 ∧
      (run plainHost armed (pulses 8)).stepped = (5 / 8) * ((7 : Nat) : ℚ) :=
  have hm : armed.shiftRegister < 256 := by decide
  have hinj : injected plainHost armed (pulses 8) =
      [] ++ [true, true, true, true, true, true, true, true] := by
    rw [pulses_injected plainHost 8 armed rfl]
    decide
  have hw := (register_history plainHost armed hm (pulses 8)).1 [] true true true true true
    true true true hinj
  ⟨hm, hinj, hw.1, hw.2.1⟩

end DigitalChaoticSystem

theorem complement8_testBit (x c : Nat) (hc : c < 8) :
    (complement8 x).testBit c = !x.testBit c := by
  have e : (256 : Nat) = 2 ^ 8 := rfl
  have h255 : Nat.testBit 255 c = true := by
    interval_cases c <;> rfl
  rw [complement8, e, Nat.testBit_mod_two_pow, Nat.testBit_xor, h255]
  simp [hc]

namespace BitMaskSchmittTrigger

theorem onMask_testBit (in1 in2 high : ℚ) :
    (onMask in1 in2 high).testBit 0 = decide (high ≤ in1) ∧
      (onMask in1 in2 high).testBit 1 = decide (high ≤ in2) := by
  unfold onMask
  cases decide (high ≤ in1) <;> cases decide (high ≤ in2) <;> exact ⟨rfl, rfl⟩

theorem offMask_testBit (in1 in2 high : ℚ) :
    (offMask in1 in2 high).testBit 0 = decide (in1 ≤ high) ∧
      (offMask in1 in2 high).testBit 1 = decide (in2 ≤ high) := by
  unfold offMask
  cases decide (in1 ≤ high) <;> cases decide (in2 ≤ high) <;> exact ⟨rfl, rfl⟩

theorem mask_testBit : Nat.testBit mask 0 = true ∧ Nat.testBit mask 1 = true := ⟨rfl, rfl⟩

theorem triggered_testBit (t : BitMaskSchmittTrigger) (in1 in2 low high : ℚ) :
    (t.process in1 in2 low high).1.testBit 0 = (!t.state.testBit 0 && decide (high ≤ in1)) ∧
      (t.process in1 in2 low high).1.testBit 1 =
        (!t.state.testBit 1 && decide (high ≤ in2)) := by
  simp only [process, Nat.testBit_and, complement8_testBit _ 0 (by omega),
    complement8_testBit _ 1 (by omega), (onMask_testBit in1 in2 high).1,
    (onMask_testBit in1 in2 high).2, mask_testBit.1, mask_testBit.2, Bool.and_true, and_self]

theorem latched_testBit (t : BitMaskSchmittTrigger) (in1 in2 low high : ℚ) :
    (t.process in1 in2 low high).2.state.testBit 0 =
        (decide (high ≤ in1) || (t.state.testBit 0 && !decide (in1 ≤ high))) ∧
      (t.process in1 in2 low high).2.state.testBit 1 =
        (decide (high ≤ in2) || (t.state.testBit 1 && !decide (in2 ≤ high))) := by
  simp only [process, Nat.testBit_and, Nat.testBit_or, complement8_testBit _ 0 (by omega),
    complement8_testBit _ 1 (by omega), (onMask_testBit in1 in2 high).1,
    (onMask_testBit in1 in2 high).2, (offMask_testBit in1 in2 high).1,
    (offMask_testBit in1 in2 high).2, mask_testBit.1, mask_testBit.2, Bool.and_true, and_self]

/-- C13 (one-shot): `process` returns trigger bit `c` (`c` = 0, 1) exactly when
channel `c` was not latched high before the call and its input is at or above
`highThreshold`, and no other bit is ever set; a call whose input `c` is at or
above `highThreshold` latches channel `c` high, so the call that follows it
returns no bit `c` whatever its input is, and an input that stays at or above
`highThreshold` is reported on the first call only; the first call after
construction or `reset` (state 0xff) returns no trigger for any input. -/
theorem one_shot (t : BitMaskSchmittTrigger) (in1 in2 low high : ℚ) :
    ((t.process in1 in2 low high).1.testBit 0 = (!t.state.testBit 0 && decide (high ≤ in1)) ∧
      (t.process in1 in2 low high).1.testBit 1 =
        (!t.state.testBit 1 && decide (high ≤ in2)) ∧
      (t.process in1 in2 low high).1 < 4) ∧
    (high ≤ in1 → (t.process in1 in2 low high).2.isHigh.testBit 0 = true ∧
      ∀ x y : ℚ, ((t.process in1 in2 low high).2.process x y low high).1.testBit 0 = false) ∧
    (high ≤ in2 → (t.process in1 in2 low high).2.isHigh.testBit 1 = true ∧
      ∀ x y : ℚ, ((t.process in1 in2 low high).2.process x y low high).1.testBit 1 = false) ∧
    (reset.process in1 in2 low high).1 = 0 := by
  have ht := triggered_testBit t in1 in2 low high
  have hl := latched_testBit t in1 in2 low high
  refine ⟨⟨ht.1, ht.2, ?_⟩, ?_, ?_, ?_⟩
  · exact Nat.lt_succ_of_le Nat.and_le_right
  · intro h1
    have hs : (t.process in1 in2 low high).2.state.testBit 0 = true := by
      rw [hl.1]; simp [h1]
    refine ⟨hs, fun x y => ?_⟩
    rw [(triggered_testBit _ x y low high).1, hs]
    rfl
  · intro h2
    have hs : (t.process in1 in2 low high).2.state.testBit 1 = true := by
      rw [hl.2]; simp [h2]
    refine ⟨hs, fun x y => ?_⟩
    rw [(triggered_testBit _ x y low high).2, hs]
    rfl
  · simp [process, reset, complement8]

/-- Witness of C13: from a low detector, input 1 at 2 V with thresholds 0 and 1:
the first call reports channel 0, the second call with the same input does
not. -/
theorem one_shot_witness :
    ((1 : ℚ) ≤ 2) ∧
      ((⟨0⟩ : BitMaskSchmittTrigger).process 2 0 0 1).1.testBit 0 = true ∧
      ((⟨0⟩ : BitMaskSchmittTrigger).process 2 0 0 1).2.isHigh.testBit 0 = true ∧
      ((((⟨0⟩ : BitMaskSchmittTrigger).process 2 0 0 1).2.process 2 0 0 1).1.testBit 0 = false) :=
  have h : (1 : ℚ) ≤ 2 := by norm_num
  have hw := one_shot ⟨0⟩ 2 0 0 1
  ⟨h, by rw [hw.1.1]; simp, (hw.2.1 h).1, (hw.2.1 h).2 2 0⟩

/-- C14 at a failing input: with thresholds 0 and 1, channel 0 is latched high
by an input of 2 V; the next call, with an input of 1/2 V strictly between the
thresholds, turns it low instead of keeping it high. -/
theorem dead_zone_drops :
    ((⟨0⟩ : BitMaskSchmittTrigger).process 2 0 0 1).2.isHigh.testBit 0 = true ∧
      ((0 : ℚ) < 1 / 2 ∧ (1 / 2 : ℚ) < 1) ∧
      ((((⟨0⟩ : BitMaskSchmittTrigger).process 2 0 0 1).2.process (1 / 2) 0 0 1).2.isHigh.testBit
        0 = false) := by
  refine ⟨?_, by norm_num, ?_⟩
  · rw [isHigh, (latched_testBit _ 2 0 0 1).1]
    norm_num
  · rw [isHigh, (latched_testBit _ (1 / 2) 0 0 1).1]
    norm_num

end BitMaskSchmittTrigger

theorem and_one_eq_b2n (n : Nat) : n &&& 1 = b2n (n.testBit 0) := by
  rw [Nat.and_one_is_mod, Nat.testBit_zero]
  rcases Nat.mod_two_eq_zero_or_one n with h | h <;> simp [h, b2n]

theorem shift_and_one_eq_b2n (n : Nat) : (n >>> 1) &&& 1 = b2n (n.testBit 1) := by
  rw [and_one_eq_b2n, Nat.testBit_shiftRight]

theorem slewLane_zero_rate (out sampleTime target : ℚ) :
    slewLane out 0 0 sampleTime target = out := by
  unfold slewLane
  split_ifs with h1 h2
  · rw [zero_mul, min_eq_right (le_of_lt (sub_pos.mpr h1)), add_zero]
  · rw [zero_mul, min_eq_right (le_of_lt (sub_pos.mpr h2)), sub_zero]
  · rfl

namespace DualIntegrator

/-- The hold truth table of channel `c`: the rates are active when the toggle
selects Sample & Hold and a fresh trigger fired, or the toggle selects Track &
Hold and the hold input is not latched high. -/
theorem infSlew_testBit (pow2 : ℚ → ℚ) (m : DualIntegrator) (p : Ports) :
    (process pow2 m p).infSlew.testBit 0 =
        ((sampleMode p 0 && freshTrigger m p 0) || (!sampleMode p 0 && !holdHigh m p 0)) ∧
      (process pow2 m p).infSlew.testBit 1 =
        ((sampleMode p 1 && freshTrigger m p 1) || (!sampleMode p 1 && !holdHigh m p 1)) := by
  have e : (process pow2 m p).infSlew =
      (((b2n (decide (p.params 0 ≠ 0)) ||| (b2n (decide (p.params 1 ≠ 0)) <<< 1)) &&&
          (m.sh.process (p.inputs 4) (p.inputs 5) triggerThresholdLevel
            triggerThresholdLevel).1) |||
        complement8 ((b2n (decide (p.params 0 ≠ 0)) ||| (b2n (decide (p.params 1 ≠ 0)) <<< 1)) |||
          (m.sh.process (p.inputs 4) (p.inputs 5) triggerThresholdLevel
            triggerThresholdLevel).2.isHigh)) % 2 ^ 8 := rfl
  have t0 : (b2n (decide (p.params 0 ≠ 0)) ||| (b2n (decide (p.params 1 ≠ 0)) <<< 1)).testBit 0 =
      sampleMode p 0 := by
    unfold sampleMode
    cases decide (p.params 0 ≠ 0) <;> cases decide (p.params 1 ≠ 0) <;> rfl
  have t1 : (b2n (decide (p.params 0 ≠ 0)) ||| (b2n (decide (p.params 1 ≠ 0)) <<< 1)).testBit 1 =
      sampleMode p 1 := by
    unfold sampleMode
    cases decide (p.params 0 ≠ 0) <;> cases decide (p.params 1 ≠ 0) <;> rfl
  rw [e]
  simp only [Nat.testBit_mod_two_pow, Nat.testBit_or, Nat.testBit_and,
    complement8_testBit _ 0 (by omega), complement8_testBit _ 1 (by omega), t0, t1,
    freshTrigger, holdHigh]
  constructor
  · cases sampleMode p 0 <;> simp
  · cases sampleMode p 1 <;> simp

theorem process_rates (pow2 : ℚ → ℚ) (m : DualIntegrator) (p : Ports) :
    (process pow2 m p).slew.rise = (process pow2 m p).cv ∧
    (process pow2 m p).slew.fall = (process pow2 m p).cv ∧
    (process pow2 m p).cv.l0 =
      pow2 (cvOf p).l0 * (20 * (b2n ((process pow2 m p).infSlew.testBit 0) : ℚ)) ∧
    (process pow2 m p).cv.l1 =
      pow2 (cvOf p).l1 * (20 * (b2n ((process pow2 m p).infSlew.testBit 1) : ℚ)) := by
  refine ⟨rfl, rfl, ?_, ?_⟩
  · rw [← and_one_eq_b2n]; rfl
  · rw [← shift_and_one_eq_b2n]; rfl

theorem process_slewOut (pow2 : ℚ → ℚ) (m : DualIntegrator) (p : Ports) :
    (process pow2 m p).slew.out.l0 =
        slewLane m.slew.out.l0 (process pow2 m p).cv.l0 (process pow2 m p).cv.l0
          p.sampleTime (process pow2 m p).input.l0 ∧
      (process pow2 m p).slew.out.l1 =
        slewLane m.slew.out.l1 (process pow2 m p).cv.l1 (process pow2 m p).cv.l1
          p.sampleTime (process pow2 m p).input.l1 := ⟨rfl, rfl⟩

theorem process_slewOutputs (pow2 : ℚ → ℚ) (m : DualIntegrator) (p : Ports) :
    (process pow2 m p).outputs SLEW_OUTPUT = (process pow2 m p).slew.out.l0 ∧
      (process pow2 m p).outputs (SLEW_OUTPUT + 1) = (process pow2 m p).slew.out.l1 := by
  simp [process, writeOutputs, writeChannel, slewStep, List.range_succ, Function.update_apply,
    SLEW_OUTPUT, END_OUTPUT, CMP_OUTPUT, Lanes.get]

/-- C15 (hold truth table): for both channels and every combination of the
mode toggle and the hold-trigger state, the factor the rates are multiplied
with is 20 (rise = fall = 20 * 2^cv) exactly when the toggle selects Sample &
Hold and the hold input fired a fresh trigger on this sample, or the toggle
selects Track & Hold and the hold input is not latched high, and 0 otherwise;
on a sample where it is 0 the slewed output of the channel after `process`
equals its value before, whatever the signal and gate inputs are. -/
theorem hold_truth_table (pow2 : ℚ → ℚ) (m : DualIntegrator) (p : Ports) :
    ((holdFactor (process pow2 m p).infSlew).l0 =
        (if (sampleMode p 0 && freshTrigger m p 0) || (!sampleMode p 0 && !holdHigh m p 0)
          then 20 else 0) ∧
      (process pow2 m p).slew.rise.l0 =
        pow2 (cvOf p).l0 * (holdFactor (process pow2 m p).infSlew).l0 ∧
      (process pow2 m p).slew.fall.l0 =
        pow2 (cvOf p).l0 * (holdFactor (process pow2 m p).infSlew).l0 ∧
      ((holdFactor (process pow2 m p).infSlew).l0 = 0 →
        (process pow2 m p).slew.out.l0 = m.slew.out.l0 ∧
        (process pow2 m p).outputs SLEW_OUTPUT = m.slew.out.l0)) ∧
    ((holdFactor (process pow2 m p).infSlew).l1 =
        (if (sampleMode p 1 && freshTrigger m p 1) || (!sampleMode p 1 && !holdHigh m p 1)
          then 20 else 0) ∧
      (process pow2 m p).slew.rise.l1 =
        pow2 (cvOf p).l1 * (holdFactor (process pow2 m p).infSlew).l1 ∧
      (process pow2 m p).slew.fall.l1 =
        pow2 (cvOf p).l1 * (holdFactor (process pow2 m p).infSlew).l1 ∧
      ((holdFactor (process pow2 m p).infSlew).l1 = 0 →
        (process pow2 m p).slew.out.l1 = m.slew.out.l1 ∧
        (process pow2 m p).outputs (SLEW_OUTPUT + 1) = m.slew.out.l1)) := by
  have hb := infSlew_testBit pow2 m p
  have hr := process_rates pow2 m p
  have ho := process_slewOut pow2 m p
  have hw := process_slewOutputs pow2 m p
  have f0 : (holdFactor (process pow2 m p).infSlew).l0 =
      20 * (b2n ((process pow2 m p).infSlew.testBit 0) : ℚ) := by
    rw [← and_one_eq_b2n]; rfl
  have f1 : (holdFactor (process pow2 m p).infSlew).l1 =
      20 * (b2n ((process pow2 m p).infSlew.testBit 1) : ℚ) := by
    rw [← shift_and_one_eq_b2n]; rfl
  constructor
  · refine ⟨?_, ?_, ?_, ?_⟩
    · rw [f0, hb.1]
      cases ((sampleMode p 0 && freshTrigger m p 0) || (!sampleMode p 0 && !holdHigh m p 0)) <;>
        simp [b2n]
    · rw [hr.1, hr.2.2.1, f0]
    · rw [hr.2.1, hr.2.2.1, f0]
    · intro hz
      have hc : (process pow2 m p).cv.l0 = 0 := by
        rw [hr.2.2.1, ← f0, hz, mul_zero]
      have hout : (process pow2 m p).slew.out.l0 = m.slew.out.l0 := by
        rw [ho.1, hc, slewLane_zero_rate]
      exact ⟨hout, hw.1.trans hout⟩
  · refine ⟨?_, ?_, ?_, ?_⟩
    · rw [f1, hb.2]
      cases ((sampleMode p 1 && freshTrigger m p 1) || (!sampleMode p 1 && !holdHigh m p 1)) <;>
        simp [b2n]
    · rw [hr.1, hr.2.2.2, f1]
    · rw [hr.2.1, hr.2.2.2, f1]
    · intro hz
      have hc : (process pow2 m p).cv.l1 = 0 := by
        rw [hr.2.2.2, ← f1, hz, mul_zero]
      have hout : (process pow2 m p).slew.out.l1 = m.slew.out.l1 := by
        rw [ho.2, hc, slewLane_zero_rate]
      exact ⟨hout, hw.2.trans hout⟩

theorem sampleIdle_facts :
    sampleMode sampleIdle 0 = true ∧ freshTrigger armed sampleIdle 0 = false := by
  constructor
  · norm_num [sampleMode, sampleIdle]
  · rw [freshTrigger, (BitMaskSchmittTrigger.triggered_testBit _ _ _ _ _).1]
    norm_num [sampleIdle, triggerThresholdLevel]

theorem sampleFire_facts :
    sampleMode sampleFire 0 = true ∧ freshTrigger armed sampleFire 0 = true ∧
      DigitalChaoticSystem.pow2Floor (cvOf sampleFire).l0 = 1 := by
  refine ⟨?_, ?_, ?_⟩
  · norm_num [sampleMode, sampleFire]
  · rw [freshTrigger, (BitMaskSchmittTrigger.triggered_testBit _ _ _ _ _).1]
    norm_num [sampleFire, triggerThresholdLevel, armed]
  · norm_num [DigitalChaoticSystem.pow2Floor, cvOf, sampleFire]

/-- Witness of C15: channel 0 in Sample & Hold mode without a trigger: the
factor is 0 and the slewed output keeps its value although the signal input is
at 3 V. -/
theorem hold_truth_table_witness :
    (holdFactor (process DigitalChaoticSystem.pow2Floor armed sampleIdle).infSlew).l0 = 0 ∧
      (process DigitalChaoticSystem.pow2Floor armed sampleIdle).slew.out.l0 = armed.slew.out.l0 ∧
      (process DigitalChaoticSystem.pow2Floor armed sampleIdle).outputs SLEW_OUTPUT =
        armed.slew.out.l0 :=
  have hw := hold_truth_table DigitalChaoticSystem.pow2Floor armed sampleIdle
  have hz : (holdFactor (process DigitalChaoticSystem.pow2Floor armed sampleIdle).infSlew).l0 =
      0 := by
    rw [hw.1.1, sampleIdle_facts.1, sampleIdle_facts.2]
    rfl
  ⟨hz, hw.1.2.2.2 hz⟩

/-- C16 refuted as stated: channel 0 is in Sample & Hold mode and its hold input
fires a fresh trigger, yet its rise and fall rates on that sample are
20 * 2^cv = 20 and not 0, and the slewed output moves from 0 toward the 3 V
signal. -/
theorem hold_entry_counterexample :
    sampleMode sampleFire 0 = true ∧ freshTrigger armed sampleFire 0 = true ∧
      (process DigitalChaoticSystem.pow2Floor armed sampleFire).slew.rise.l0 = 20 ∧
      (process DigitalChaoticSystem.pow2Floor armed sampleFire).slew.fall.l0 = 20 ∧
      (process DigitalChaoticSystem.pow2Floor armed sampleFire).slew.rise.l0 ≠ 0 ∧
      (process DigitalChaoticSystem.pow2Floor armed sampleFire).slew.out.l0 ≠
        armed.slew.out.l0 := by
  have hr := process_rates DigitalChaoticSystem.pow2Floor armed sampleFire
  have hb := infSlew_testBit DigitalChaoticSystem.pow2Floor armed sampleFire
  have hf := sampleFire_facts
  have hcv : (process DigitalChaoticSystem.pow2Floor armed sampleFire).cv.l0 = 20 := by
    rw [hr.2.2.1, hb.1, hf.1, hf.2.1, hf.2.2]
    norm_num [b2n]
  have hin : (process DigitalChaoticSystem.pow2Floor armed sampleFire).input.l0 = 3 := by
    have e : (process DigitalChaoticSystem.pow2Floor armed sampleFire).input.l0 =
        if sampleFire.inputs 2 < triggerThresholdLevel
        then clamp (sampleFire.inputs 0) vMin vMax else 0 := rfl
    rw [e]
    norm_num [sampleFire, triggerThresholdLevel, clamp, vMin, vMax]
  have hout : (process DigitalChaoticSystem.pow2Floor armed sampleFire).slew.out.l0 =
      1 / 2400 := by
    rw [(process_slewOut _ _ _).1, hcv, hin]
    norm_num [slewLane, armed, init, float_4.zero, sampleFire]
  refine ⟨hf.1, hf.2.1, ?_, ?_, ?_, ?_⟩
  · rw [hr.1, hcv]
  · rw [hr.2.1, hcv]
  · rw [hr.1, hcv]; norm_num
  · rw [hout]
    norm_num [armed, init, float_4.zero]

/-- C16 as amended: a channel whose toggle selects Sample & Hold mode is not in
the hold state on a sample where its hold input fires a fresh trigger: on that
sample its rise and fall rates are 20 * 2^cv; on a Sample & Hold sample without
a fresh trigger they are forced to 0. -/
theorem sample_mode_rates (pow2 : ℚ → ℚ) (m : DualIntegrator) (p : Ports) :
    (sampleMode p 0 = true →
      (freshTrigger m p 0 = true →
        (process pow2 m p).slew.rise.l0 = 20 * pow2 (cvOf p).l0 ∧
        (process pow2 m p).slew.fall.l0 = 20 * pow2 (cvOf p).l0) ∧
      (freshTrigger m p 0 = false →
        (process pow2 m p).slew.rise.l0 = 0 ∧ (process pow2 m p).slew.fall.l0 = 0)) ∧
    (sampleMode p 1 = true →
      (freshTrigger m p 1 = true →
        (process pow2 m p).slew.rise.l1 = 20 * pow2 (cvOf p).l1 ∧
        (process pow2 m p).slew.fall.l1 = 20 * pow2 (cvOf p).l1) ∧
      (freshTrigger m p 1 = false →
        (process pow2 m p).slew.rise.l1 = 0 ∧ (process pow2 m p).slew.fall.l1 = 0)) := by
  have hr := process_rates pow2 m p
  have hb := infSlew_testBit pow2 m p
  constructor
  · intro hs
    constructor
    · intro hf
      have hc : (process pow2 m p).cv.l0 = 20 * pow2 (cvOf p).l0 := by
        rw [hr.2.2.1, hb.1, hs, hf]
        simp [b2n, mul_comm]
      exact ⟨by rw [hr.1, hc], by rw [hr.2.1, hc]⟩
    · intro hf
      have hc : (process pow2 m p).cv.l0 = 0 := by
        rw [hr.2.2.1, hb.1, hs, hf]
        simp [b2n]
      exact ⟨by rw [hr.1, hc], by rw [hr.2.1, hc]⟩
  · intro hs
    constructor
    · intro hf
      have hc : (process pow2 m p).cv.l1 = 20 * pow2 (cvOf p).l1 := by
        rw [hr.2.2.2, hb.2, hs, hf]
        simp [b2n, mul_comm]
      exact ⟨by rw [hr.1, hc], by rw [hr.2.1, hc]⟩
    · intro hf
      have hc : (process pow2 m p).cv.l1 = 0 := by
        rw [hr.2.2.2, hb.2, hs, hf]
        simp [b2n]
      exact ⟨by rw [hr.1, hc], by rw [hr.2.1, hc]⟩

/-- Witness of the amended C16: channel 0 in Sample & Hold mode, with a fresh
trigger (rates 20 * 2^0) and without one (rates 0). -/
theorem sample_mode_rates_witness :
    (sampleMode sampleFire 0 = true ∧ freshTrigger armed sampleFire 0 = true ∧
      (process DigitalChaoticSystem.pow2Floor armed sampleFire).slew.rise.l0 =
        20 * DigitalChaoticSystem.pow2Floor (cvOf sampleFire).l0) ∧
    (sampleMode sampleIdle 0 = true ∧ freshTrigger armed sampleIdle 0 = false ∧
      (process DigitalChaoticSystem.pow2Floor armed sampleIdle).slew.rise.l0 = 0) :=
  ⟨⟨sampleFire_facts.1, sampleFire_facts.2.1,
      (((sample_mode_rates DigitalChaoticSystem.pow2Floor armed sampleFire).1
        sampleFire_facts.1).1 sampleFire_facts.2.1).1⟩,
    ⟨sampleIdle_facts.1, sampleIdle_facts.2,
      (((sample_mode_rates DigitalChaoticSystem.pow2Floor armed sampleIdle).1
        sampleIdle_facts.1).2 sampleIdle_facts.2).1⟩⟩

end DualIntegrator

theorem slewLane_between (out rise fall sampleTime target : ℚ)
    (hdt : 0 ≤ sampleTime) (hr : 0 ≤ rise) (hf : 0 ≤ fall) :
    min out target ≤ slewLane out rise fall sampleTime target ∧
      slewLane out rise fall sampleTime target ≤ max out target ∧
      |slewLane out rise fall sampleTime target - target| ≤ |out - target| := by
  have h1 : 0 ≤ rise * sampleTime := mul_nonneg hr hdt
  have h2 : 0 ≤ fall * sampleTime := mul_nonneg hf hdt
  unfold slewLane
  split_ifs with ha hb
  · have h3 : 0 ≤ min (target - out) (rise * sampleTime) := le_min (by linarith) h1
    have h4 : min (target - out) (rise * sampleTime) ≤ target - out := min_le_left _ _
    refine ⟨?_, ?_, ?_⟩
    · rw [min_eq_left (le_of_lt ha)]; linarith
    · rw [max_eq_right (le_of_lt ha)]; linarith
    · rw [abs_of_nonpos (by linarith), abs_of_nonpos (by linarith)]; linarith
  · have h3 : 0 ≤ min (out - target) (fall * sampleTime) := le_min (by linarith) h2
    have h4 : min (out - target) (fall * sampleTime) ≤ out - target := min_le_left _ _
    refine ⟨?_, ?_, ?_⟩
    · rw [min_eq_right (le_of_lt hb)]; linarith
    · rw [max_eq_left (le_of_lt hb)]; linarith
    · rw [abs_of_nonneg (by linarith), abs_of_nonneg (by linarith)]; linarith
  · have e : out = target := le_antisymm (not_lt.mp hb) (not_lt.mp ha)
    refine ⟨min_le_left _ _, le_max_left _ _, le_refl _⟩

theorem slewLane_fixed (rise fall sampleTime target : ℚ) :
    slewLane target rise fall sampleTime target = target := by
  unfold slewLane
  rw [if_neg (lt_irrefl target), if_neg (lt_irrefl target)]

/-- C17 (slew limiter): for a sample time >= 0 and rise and fall rates >= 0,
one slew step moves the output toward the target by
`min(|target - current|, rate * sampleTime)`, with the rise rate when the
target is above and the fall rate when it is below; the new output lies between
the old output and the target, `|output - target|` does not increase, and once
the output equals the target any number of further steps with the same target
leave it unchanged, on one lane and on the 4-lane limiter. -/
theorem slew_never_overshoots (out rise fall sampleTime target : ℚ)
    (hdt : 0 ≤ sampleTime) (hr : 0 ≤ rise) (hf : 0 ≤ fall) :
    (out < target → slewLane out rise fall sampleTime target =
      out + min |target - out| (rise * sampleTime)) ∧
    (target < out → slewLane out rise fall sampleTime target =
      out - min |target - out| (fall * sampleTime)) ∧
    (min out target ≤ slewLane out rise fall sampleTime target ∧
      slewLane out rise fall sampleTime target ≤ max out target) ∧
    |slewLane out rise fall sampleTime target - target| ≤ |out - target| ∧
    (∀ n : Nat, (fun x => slewLane x rise fall sampleTime target)^[n] target = target) ∧
    (∀ (s : TSlewLimiter) (t : float_4), s.out = t →
      (s.process sampleTime t).out = s.out) := by
  have hb := slewLane_between out rise fall sampleTime target hdt hr hf
  refine ⟨?_, ?_, ⟨hb.1, hb.2.1⟩, hb.2.2, ?_, ?_⟩
  · intro h
    rw [abs_of_pos (sub_pos.mpr h), slewLane, if_pos h]
  · intro h
    rw [abs_of_neg (sub_neg.mpr h), neg_sub, slewLane, if_neg (not_lt.mpr (le_of_lt h)),
      if_pos h]
  · intro n
    induction n with
    | zero => rfl
    | succ n ih =>
      rw [Function.iterate_succ_apply, slewLane_fixed]
      exact ih
  · intro s t hs
    simp only [TSlewLimiter.process, hs, slewLane_fixed]

/-- Witness of C17: output 0, target 3 V, rates 20 V/s at 48 kHz: the step is
1/2400 V upward. -/
theorem slew_never_overshoots_witness :
    ((0 : ℚ) ≤ 1 / 48000 ∧ (0 : ℚ) ≤ 20) ∧
      slewLane 0 20 20 (1 / 48000) 3 = 0 + min |(3 : ℚ) - 0| (20 * (1 / 48000)) ∧
      |slewLane 0 20 20 (1 / 48000) 3 - 3| ≤ |(0 : ℚ) - 3| :=
  have h1 : (0 : ℚ) ≤ 1 / 48000 := by norm_num
  have h2 : (0 : ℚ) ≤ 20 := by norm_num
  have hw := slew_never_overshoots 0 20 20 (1 / 48000) 3 h1 h2 h2
  ⟨⟨h1, h2⟩, hw.1 (by norm_num), hw.2.2.2.1⟩

theorem clamp_inRange (x : ℚ) : InClampRange (clamp x vMin vMax) := by
  unfold InClampRange clamp
  have h : vMin ≤ vMax := by norm_num [vMin, vMax]
  exact ⟨le_max_left _ _, max_le h (min_le_right _ _)⟩

namespace NonlinearIntegrator

theorem process_states (h : Host) (m : NonlinearIntegrator) (p : Ports) (u : ℚ) :
    ∃ a b c d : ℚ, (process h m p u).states =
      ⟨clamp a vMin vMax, clamp b vMin vMax, clamp c vMin vMax, clamp d vMin vMax⟩ :=
  ⟨_, _, _, _, rfl⟩

theorem process_filterOutputs (h : Host) (m : NonlinearIntegrator) (p : Ports) (u : ℚ) :
    (process h m p u).outputs 0 = (process h m p u).states.l0 ∧
    (process h m p u).outputs 1 = (process h m p u).states.l1 ∧
    (process h m p u).outputs 2 = (process h m p u).states.l2 ∧
    (process h m p u).outputs 3 = (process h m p u).states.l3 := by
  simp [process, writeOutputs, List.range_succ, Function.update_apply, Lanes.get]

/-- C18 (stability): after every `process` call of a run of any length, from
every prior state and for every input, frequency, resonance and random value,
each of the four filter states (low, band, high, notch) and each of the four
outputs written from them lies within the global clamp range -12 V..12 V. -/
theorem filter_states_bounded (h : Host) (m : NonlinearIntegrator) (ps : List (Ports × ℚ))
    (p : Ports) (u : ℚ) :
    (InClampRange (process h (run h m ps) p u).states.l0 ∧
      InClampRange (process h (run h m ps) p u).states.l1 ∧
      InClampRange (process h (run h m ps) p u).states.l2 ∧
      InClampRange (process h (run h m ps) p u).states.l3) ∧
    (InClampRange ((process h (run h m ps) p u).outputs 0) ∧
      InClampRange ((process h (run h m ps) p u).outputs 1) ∧
      InClampRange ((process h (run h m ps) p u).outputs 2) ∧
      InClampRange ((process h (run h m ps) p u).outputs 3)) ∧
    (vMin = -12 ∧ vMax = 12) := by
  obtain ⟨a, b, c, d, hs⟩ := process_states h (run h m ps) p u
  obtain ⟨o0, o1, o2, o3⟩ := process_filterOutputs h (run h m ps) p u
  have r0 : InClampRange (process h (run h m ps) p u).states.l0 := by
    rw [hs]; exact clamp_inRange a
  have r1 : InClampRange (process h (run h m ps) p u).states.l1 := by
    rw [hs]; exact clamp_inRange b
  have r2 : InClampRange (process h (run h m ps) p u).states.l2 := by
    rw [hs]; exact clamp_inRange c
  have r3 : InClampRange (process h (run h m ps) p u).states.l3 := by
    rw [hs]; exact clamp_inRange d
  refine ⟨⟨r0, r1, r2, r3⟩, ⟨?_, ?_, ?_, ?_⟩, rfl, rfl⟩
  · rw [o0]; exact r0
  · rw [o1]; exact r1
  · rw [o2]; exact r2
  · rw [o3]; exact r3

end NonlinearIntegrator

namespace VoltageSequencer

theorem process_direction (m : VoltageSequencer) (p : Ports) :
    (process m p).direction =
      if directionFires m p then (m.direction + 1) &&& 1 else m.direction := by
  rw [process, (writeOutputs_frame _ p).1, (decideChange_frame _ p).2.2.1,
    processPriority_direction]

theorem process_vStage (m : VoltageSequencer) (p : Ports) :
    (process m p).vStage =
      if vclockFires m p then (m.vStage + 1) &&& 1 else m.vStage := by
  rw [process, (writeOutputs_frame _ p).2.1, (decideChange_frame _ p).2.2.2,
    processPriority_vStage]

theorem resetAndFlip_fires :
    resetFires (armedAt 3) resetAndFlip = true ∧ directionFires (armedAt 3) resetAndFlip = true ∧
      vclockFires (armedAt 3) resetAndFlip = true := by
  refine ⟨?_, ?_, ?_⟩
  · norm_num [resetFires, signalsOf, schmitt4, schmittLane, priorityInputs, resetAndFlip,
      armedAt, triggerThresholdLevel]
  · norm_num [directionFires, signalsOf, schmitt4, schmittLane, priorityInputs, resetAndFlip,
      armedAt, triggerThresholdLevel, RESET_INPUT, DIRECTION_INPUT]
  · norm_num [vclockFires, signalsOf, schmitt4, schmittLane, priorityInputs, resetAndFlip,
      armedAt, triggerThresholdLevel, RESET_INPUT, DIRECTION_INPUT, VCLOCK_IN_INPUT,
      VCLOCK_EN_PARAM]

/-- C19 refuted as stated: Reset, Direction and the enabled Vertical clock fire
on the same sample; the step is reset, and yet the direction flips from 0 to 1
and the active row from 0 (A) to 1 (B). -/
theorem reset_short_circuit_counterexample :
    resetFires (armedAt 3) resetAndFlip = true ∧
      (armedAt 3).direction = 0 ∧ (process (armedAt 3) resetAndFlip).direction = 1 ∧
      (armedAt 3).vStage = 0 ∧ (process (armedAt 3) resetAndFlip).vStage = 1 ∧
      (process (armedAt 3) resetAndFlip).direction ≠ (armedAt 3).direction ∧
      (process (armedAt 3) resetAndFlip).vStage ≠ (armedAt 3).vStage := by
  have hf := resetAndFlip_fires
  have hd0 : (armedAt 3).direction = 0 := rfl
  have hv0 : (armedAt 3).vStage = 0 := rfl
  have hd : (process (armedAt 3) resetAndFlip).direction = 1 := by
    rw [process_direction, hf.2.1, hd0]; rfl
  have hv : (process (armedAt 3) resetAndFlip).vStage = 1 := by
    rw [process_vStage, hf.2.2, hv0]; rfl
  refine ⟨hf.1, hd0, hd, hv0, hv, ?_, ?_⟩
  · rw [hd, hd0]; decide
  · rw [hv, hv0]; decide

/-- C19 as amended: on a sample where the Reset trigger fires, the select,
preset and clock logic of that sample is skipped (the recorded preset and the
Preset and clock detectors keep their values); the direction and the active
row after `process` equal their values before it when the Direction trigger,
respectively the enabled Vertical-clock trigger, does not fire on that sample,
while a Direction trigger on the same sample still flips the direction and a
Vertical-clock trigger still toggles the row. -/
theorem reset_skips_step_logic (m : VoltageSequencer) (p : Ports)
    (h : resetFires m p = true) :
    ((process m p).preset = m.preset ∧ (process m p).presetTrig = m.presetTrig ∧
      (process m p).clock = m.clock) ∧
    (directionFires m p = false → (process m p).direction = m.direction) ∧
    (vclockFires m p = false → (process m p).vStage = m.vStage) ∧
    (directionFires m p = true → (process m p).direction = (m.direction + 1) &&& 1) ∧
    (vclockFires m p = true → (process m p).vStage = (m.vStage + 1) &&& 1) := by
  have hl2 : (processPriority m p).signals.l2 = true := by
    rw [processPriority_signals]; exact h
  have hf := processPriority_frame m p
  have hw := writeOutputs_frame (decideChange (processPriority m p) p) p
  have hd := decideChange_reset (processPriority m p) p hl2
  refine ⟨⟨?_, ?_, ?_⟩, ?_, ?_, ?_, ?_⟩
  · rw [process, hw.2.2.1, hd]; exact hf.2.1
  · rw [process, hw.2.2.2.1, hd]; exact hf.2.2.1
  · rw [process, hw.2.2.2.2.1, hd]; exact hf.2.2.2.1
  · intro hn; rw [process_direction, hn]; rfl
  · intro hn; rw [process_vStage, hn]; rfl
  · intro hn; rw [process_direction, hn]; rfl
  · intro hn; rw [process_vStage, hn]; rfl

/-- Witness of the amended C19: a reset pulse at step 5 with the direction and
vertical clock inputs low. -/
theorem reset_skips_step_logic_witness :
    resetFires (armedAt 5) resetHigh = true ∧
      directionFires (armedAt 5) resetHigh = false ∧
      vclockFires (armedAt 5) resetHigh = false ∧
      (process (armedAt 5) resetHigh).preset = (armedAt 5).preset ∧
      (process (armedAt 5) resetHigh).direction = (armedAt 5).direction ∧
      (process (armedAt 5) resetHigh).vStage = (armedAt 5).vStage :=
  have h : resetFires (armedAt 5) resetHigh = true := by
    norm_num [resetFires, signalsOf, schmitt4, schmittLane, priorityInputs, resetHigh,
      armedAt, triggerThresholdLevel]
  have hd : directionFires (armedAt 5) resetHigh = false := by
    norm_num [directionFires, signalsOf, schmitt4, schmittLane, priorityInputs, resetHigh,
      armedAt, triggerThresholdLevel, RESET_INPUT, DIRECTION_INPUT]
  have hv : vclockFires (armedAt 5) resetHigh = false := by
    norm_num [vclockFires, signalsOf, schmitt4, schmittLane, priorityInputs, resetHigh,
      armedAt, triggerThresholdLevel]
  have hw := reset_skips_step_logic (armedAt 5) resetHigh h
  ⟨h, hd, hv, hw.1.1, hw.2.1 hd, hw.2.2.1 hv⟩

end VoltageSequencer

namespace DigitalChaoticSystem

theorem phaseStep_range (phase frequency sampleTime : ℚ)
    (hp : -(1 / 2) ≤ phase ∧ phase < 1 / 2)
    (h0 : 0 ≤ frequency * sampleTime) (h1 : frequency * sampleTime ≤ 1) :
    -(1 / 2) ≤ phaseStep phase frequency sampleTime ∧
      phaseStep phase frequency sampleTime < 1 / 2 := by
  unfold phaseStep
  simp only []
  split_ifs with h
  · constructor <;> linarith [hp.1, hp.2]
  · constructor <;> linarith [hp.1, hp.2, not_le.mp h]

theorem process_phases (h : Host) (m : DigitalChaoticSystem) (p : Sample) :
    (process h m p).phases.l0 =
        phaseStep m.phases.l0 (frequenciesOf h m p).l0 p.sampleTime ∧
      (process h m p).phases.l1 =
        phaseStep m.phases.l1 (frequenciesOf h m p).l1 p.sampleTime := ⟨rfl, rfl⟩

theorem run_phases (h : Host) (ps : List Sample) :
    ∀ m : DigitalChaoticSystem,
      (-(1 / 2) ≤ m.phases.l0 ∧ m.phases.l0 < 1 / 2) →
      (-(1 / 2) ≤ m.phases.l1 ∧ m.phases.l1 < 1 / 2) → SlowRun h m ps →
      (-(1 / 2) ≤ (run h m ps).phases.l0 ∧ (run h m ps).phases.l0 < 1 / 2) ∧
        (-(1 / 2) ≤ (run h m ps).phases.l1 ∧ (run h m ps).phases.l1 < 1 / 2) := by
  induction ps with
  | nil => intro m h0 h1 _; exact ⟨h0, h1⟩
  | cons p ps ih =>
    intro m h0 h1 hs
    obtain ⟨⟨a0, a1, b0, b1⟩, hrest⟩ := hs
    have e := process_phases h m p
    exact ih (process h m p) (by rw [e.1]; exact phaseStep_range _ _ _ h0 a0 a1)
      (by rw [e.2]; exact phaseStep_range _ _ _ h1 b0 b1) hrest

theorem fastSample_frequency (m : DigitalChaoticSystem) :
    (frequenciesOf plainHost m fastSample).l0 = 32768 := by
  norm_num [frequenciesOf, pitchesOf, Lanes.map, plainHost, pow2Floor, clamp, fastSample]

/-- C20 refuted as stated: at a sample time of 1/22050 s with the frequency knob
at 15 (2^15 Hz, the upper clamp), the phase of the first oscillator of the
constructed module is 5359/11025, inside [-0.5, 0.5), after one sample and
10718/11025, outside it, after the next one. -/
theorem phase_escapes :
    init.phases.l0 = 0 ∧
      (-(1 / 2) ≤ (process plainHost init fastSample).phases.l0 ∧
        (process plainHost init fastSample).phases.l0 < 1 / 2) ∧
      (process plainHost (process plainHost init fastSample) fastSample).phases.l0 =
        10718 / 11025 ∧
      ¬ (process plainHost (process plainHost init fastSample) fastSample).phases.l0 < 1 / 2 := by
  have h1 : (process plainHost init fastSample).phases.l0 = 5359 / 11025 := by
    rw [(process_phases _ _ _).1, fastSample_frequency]
    norm_num [phaseStep, init, float_4.zero, fastSample]
  have h2 : (process plainHost (process plainHost init fastSample) fastSample).phases.l0 =
      10718 / 11025 := by
    rw [(process_phases _ _ _).1, fastSample_frequency, h1]
    norm_num [phaseStep, fastSample]
  refine ⟨rfl, ?_, h2, ?_⟩
  · rw [h1]; norm_num
  · rw [h2]; norm_num

/-- C20 as amended: for each of the two oscillators, if the phase is in
[-0.5, 0.5) before a `process` call and the phase increment
frequency * sampleTime of that call is between 0 and 1, then the phase is in
[-0.5, 0.5) after it; since the phase starts at 0 it stays in that interval
along every run whose increments are between 0 and 1. -/
theorem phase_in_range (h : Host) (m : DigitalChaoticSystem) (p : Sample) :
    ((-(1 / 2) ≤ m.phases.l0 ∧ m.phases.l0 < 1 / 2) →
      0 ≤ (frequenciesOf h m p).l0 * p.sampleTime →
      (frequenciesOf h m p).l0 * p.sampleTime ≤ 1 →
      -(1 / 2) ≤ (process h m p).phases.l0 ∧ (process h m p).phases.l0 < 1 / 2) ∧
    ((-(1 / 2) ≤ m.phases.l1 ∧ m.phases.l1 < 1 / 2) →
      0 ≤ (frequenciesOf h m p).l1 * p.sampleTime →
      (frequenciesOf h m p).l1 * p.sampleTime ≤ 1 →
      -(1 / 2) ≤ (process h m p).phases.l1 ∧ (process h m p).phases.l1 < 1 / 2) ∧
    (∀ ps : List Sample, SlowRun h init ps →
      (-(1 / 2) ≤ (run h init ps).phases.l0 ∧ (run h init ps).phases.l0 < 1 / 2) ∧
        (-(1 / 2) ≤ (run h init ps).phases.l1 ∧ (run h init ps).phases.l1 < 1 / 2)) := by
  have e := process_phases h m p
  refine ⟨?_, ?_, ?_⟩
  · intro hp a0 a1
    rw [e.1]; exact phaseStep_range _ _ _ hp a0 a1
  · intro hp a0 a1
    rw [e.2]; exact phaseStep_range _ _ _ hp a0 a1
  · intro ps hs
    have z : (-(1 / 2) ≤ (0 : ℚ) ∧ (0 : ℚ) < 1 / 2) := by norm_num
    exact run_phases h ps init z z hs

/-- Witness of the amended C20: the constructed module at 48 kHz with the
frequency knob at 5 (32 Hz): the increment is 1/1500 and the phase stays in
range. -/
theorem phase_in_range_witness :
    (-(1 / 2) ≤ init.phases.l0 ∧ init.phases.l0 < 1 / 2) ∧
      0 ≤ (frequenciesOf plainHost init (patched 0 0)).l0 * (patched 0 0).sampleTime ∧
      (frequenciesOf plainHost init (patched 0 0)).l0 * (patched 0 0).sampleTime ≤ 1 ∧
      (-(1 / 2) ≤ (process plainHost init (patched 0 0)).phases.l0 ∧
        (process plainHost init (patched 0 0)).phases.l0 < 1 / 2) :=
  have hf : (frequenciesOf plainHost init (patched 0 0)).l0 = 32 := by
    norm_num [frequenciesOf, pitchesOf, Lanes.map, plainHost, pow2Floor, clamp, patched,
      CLOCK_INPUT, DATA_INPUT, VOCT1_INPUT]
  have hp : (-(1 / 2) ≤ init.phases.l0 ∧ init.phases.l0 < 1 / 2) := by
    norm_num [init, float_4.zero]
  have a0 : 0 ≤ (frequenciesOf plainHost init (patched 0 0)).l0 * (patched 0 0).sampleTime := by
    rw [hf]; norm_num [patched]
  have a1 : (frequenciesOf plainHost init (patched 0 0)).l0 * (patched 0 0).sampleTime ≤ 1 := by
    rw [hf]; norm_num [patched]
  ⟨hp, a0, a1, (phase_in_range plainHost init (patched 0 0)).1 hp a0 a1⟩

end DigitalChaoticSystem

namespace DigitalChaoticSystem

/-- C21 at the code: the oscillator output loop uses the indices 0..7, both as
output slots and as lanes; `OUTPUTS_LEN` is 7, so slot 7 is not a declared
output, and the lanes 4..7 do not exist in the 4-lane vector: the lane reads of
pass 2 and the accesses of pass 3 fail, and the checked loop fails for every
state, while the passes 0 and 1 succeed and write what the loop writes. -/
theorem vco_loop_out_of_bounds (m : DigitalChaoticSystem) (o : Nat → ℚ) :
    vcoLoopIndices = [0, 1, 2, 3, 4, 5, 6, 7] ∧
    (OUTPUTS_LEN = 7 ∧ 7 ∈ vcoLoopIndices ∧ ¬ 7 < OUTPUTS_LEN) ∧
    (4 ∈ vcoLoopIndices ∧ m.output.read 4 = none ∧ m.output.read 5 = none ∧
      m.output.read 6 = none ∧ m.output.read 7 = none) ∧
    (writeVcoChecked m o 0 = some (writeVco m o 0) ∧
      writeVcoChecked m o 1 = some (writeVco m o 1) ∧
      writeVcoChecked m o 2 = none ∧ writeVcoChecked m o 3 = none) ∧
    vcoLoopChecked m (List.range 4) o = none := by
  refine ⟨by decide, ⟨rfl, by decide, by decide⟩, ⟨by decide, rfl, rfl, rfl, rfl⟩,
    ⟨rfl, rfl, rfl, rfl⟩, rfl⟩

theorem run_register_data (h : Host) (ps : List Sample) :
    ∀ m : DigitalChaoticSystem,
      (run h m ps).shiftRegister = (dataAtEdges h m ps).foldl clockEdgeStep m.shiftRegister := by
  induction ps with
  | nil => intro m; rfl
  | cons p ps ih =>
    intro m
    have e : run h m (p :: ps) = run h (process h m p) ps := rfl
    rw [e, ih, dataAtEdges, List.foldl_append, process_register]
    cases clockFires h m p <;> rfl

theorem injected_append (h : Host) (ps qs : List Sample) :
    ∀ m : DigitalChaoticSystem,
      injected h m (ps ++ qs) = injected h m ps ++ injected h (run h m ps) qs := by
  induction ps with
  | nil => intro m; rfl
  | cons p ps ih =>
    intro m
    have e : run h m (p :: ps) = run h (process h m p) ps := rfl
    rw [List.cons_append, injected, injected, ih, e, List.append_assoc]

set_option maxRecDepth 100000 in
theorem eight_low_edges : ∀ r : Nat, r < 256 →
    [false, false, false, false, false, false, false, false].foldl clockEdgeStep r = r := by
  decide

set_option maxRecDepth 100000 in
theorem eight_high_edges : ∀ r : Nat, r < 256 →
    [true, true, true, true, true, true, true, true].foldl clockEdgeStep r = 255 - r := by
  decide

set_option maxRecDepth 100000 in
theorem xor_all_ones : ∀ r : Nat, r < 256 → r ^^^ 255 = 255 - r := by
  decide

theorem rotate_right (r : Nat) (hr : r < 256) :
    clockEdgeStep r false = r / 2 + 128 * (r % 2) := by
  unfold clockEdgeStep
  rw [shiftIn_eq r hr, Nat.and_one_is_mod]
  rcases Nat.mod_two_eq_zero_or_one r with h | h <;> simp [h, b2n]

/-- C22 (XOR feedback, period 8): for every 8-bit register value, a run with 8
clock rising edges at each of which the data input is low returns the register
to its value (each such edge is a rotate-right by one: the lowest bit moves to
the top), and a run with 8 clock edges at each of which the data input is high
leaves the bitwise complement of the register; in general, once 8 bits have
been injected, the bit injected at a clock edge is the data bit at that edge
XOR the bit injected 8 clock edges earlier. -/
theorem xor_feedback_period (h : Host) (m : DigitalChaoticSystem)
    (hm : m.shiftRegister < 256) (ps : List Sample) :
    (dataAtEdges h m ps = [false, false, false, false, false, false, false, false] →
      (run h m ps).shiftRegister = m.shiftRegister) ∧
    (∀ p, clockFires h m p = true → dataOf (oscillate h m p) p = false →
      (process h m p).shiftRegister = m.shiftRegister / 2 + 128 * (m.shiftRegister % 2)) ∧
    (dataAtEdges h m ps = [true, true, true, true, true, true, true, true] →
      (run h m ps).shiftRegister = m.shiftRegister ^^^ 255 ∧
      (run h m ps).shiftRegister = 255 - m.shiftRegister) ∧
    (∀ (pre : List Bool) (x1 x2 x3 x4 x5 x6 x7 x8 : Bool) (p : Sample),
      injected h m ps = pre ++ [x1, x2, x3, x4, x5, x6, x7, x8] →
      clockFires h (run h m ps) p = true →
      injected h m (ps ++ [p]) =
        injected h m ps ++ [xor (dataOf (oscillate h (run h m ps) p) p) x1]) := by
  refine ⟨?_, ?_, ?_, ?_⟩
  · intro hd
    rw [run_register_data, hd]
    exact eight_low_edges _ hm
  · intro p hc hd
    have e : xorOf h m p = xor false (decide (m.shiftRegister &&& 1 ≠ 0)) := by
      rw [xorOf, hd]
    rw [process_register, hc, if_pos rfl, e]
    exact rotate_right _ hm
  · intro hd
    have e : (run h m ps).shiftRegister = 255 - m.shiftRegister := by
      rw [run_register_data, hd]
      exact eight_high_edges _ hm
    exact ⟨by rw [e, xor_all_ones _ hm], e⟩
  · intro pre x1 x2 x3 x4 x5 x6 x7 x8 p hinj hc
    have hreg : (run h m ps).shiftRegister =
        b2n x1 + 2 * b2n x2 + 4 * b2n x3 + 8 * b2n x4 + 16 * b2n x5 + 32 * b2n x6 +
          64 * b2n x7 + 128 * b2n x8 := by
      rw [run_register, hinj, List.foldl_append]
      exact eight_shifts _ (foldl_shiftIn_lt pre _ hm) x1 x2 x3 x4 x5 x6 x7 x8
    have hbit : decide ((run h m ps).shiftRegister &&& 1 ≠ 0) = x1 := by
      rw [Nat.and_one_is_mod, hreg]
      have e : (b2n x1 + 2 * b2n x2 + 4 * b2n x3 + 8 * b2n x4 + 16 * b2n x5 + 32 * b2n x6 +
          64 * b2n x7 + 128 * b2n x8) % 2 = b2n x1 := by
        have b1 := b2n_le_one x1
        omega
      rw [e]
      cases x1 <;> simp [b2n]
    rw [injected_append, injected, hc, if_pos rfl, xorOf, hbit]
    rfl

theorem pulses_dataAtEdges (h : Host) (n : Nat) :
    ∀ m : DigitalChaoticSystem, m.clock = false →
      dataAtEdges h m (pulses n) = List.replicate n true := by
  induction n with
  | zero => intro m _; rfl
  | succ n ih =>
    intro m hc
    have f1 : clockFires h m (patched 5 5) = true := by
      rw [clockFires, clockOf_patched, hc]
      norm_num [schmittLane, triggerThresholdLevel]
    have d1 : dataOf (oscillate h m (patched 5 5)) (patched 5 5) = true := by
      rw [dataOf_patched]
      norm_num [triggerThresholdLevel]
    have f2 : clockFires h (process h m (patched 5 5)) (patched 0 0) = false := by
      rw [clockFires, clockOf_patched]
      norm_num [schmittLane, triggerThresholdLevel]
    have c2 : (process h (process h m (patched 5 5)) (patched 0 0)).clock = false := by
      rw [process_clockLatch, clockOf_patched]
      norm_num [schmittLane, triggerThresholdLevel]
    have e := ih _ c2
    simp only [pulses, dataAtEdges, f1, f2, d1, e, if_true]
    rfl

/-- Witness of C22: eight clock pulses with the data input high, from register
0: the register ends at the complement 255. -/
theorem xor_feedback_period_witness :
    armed.shiftRegister < 256 ∧
      dataAtEdges plainHost armed (pulses 8) =
        [true, true, true, true, true, true, true, true] ∧
      (run plainHost armed (pulses 8)).shiftRegister = 255 - armed.shiftRegister :=
  have hm : armed.shiftRegister < 256 := by decide
  have hd : dataAtEdges plainHost armed (pulses 8) =
      [true, true, true, true, true, true, true, true] :=
    pulses_dataAtEdges plainHost 8 armed rfl
  ⟨hm, hd, ((xor_feedback_period plainHost armed hm (pulses 8)).2.2.1 hd).2⟩

end DigitalChaoticSystem

namespace VoltageSequencer

theorem lowest_exists (p : Ports) (h : ¬ noSelect p) : ∃ i, lowestSelect p i := by
  classical
  have hex : ∃ i, i < 8 ∧ triggerThresholdLevel ≤ selectLevel p i := by
    by_contra hcon
    apply h
    intro i hi
    by_contra hlt
    exact hcon ⟨i, hi, not_lt.mp hlt⟩
  refine ⟨Nat.find hex, (Nat.find_spec hex).1, (Nat.find_spec hex).2, ?_⟩
  intro j hj
  by_contra hlt
  exact Nat.find_min hex hj ⟨lt_trans hj (Nat.find_spec hex).1, not_lt.mp hlt⟩

theorem stalled_keeps_clock (m : VoltageSequencer) (p : Ports) (h : Stalled m p) :
    (process m p).clock = m.clock := by
  have hf := processPriority_frame m p
  rw [process, (writeOutputs_frame _ p).2.2.2.2.1]
  cases hr : resetFires m p
  · have hl2 : (processPriority m p).signals.l2 = false := by
      rw [processPriority_signals]; exact hr
    by_cases hn : noSelect p
    · cases hp : presetFires m p
      · have hp1 : (schmittLane (processPriority m p).presetTrig (p.inputs PRESET_INPUT)
            triggerThresholdLevel triggerThresholdLevel).1 = false := by
          rw [hf.2.2.1]; exact hp
        have hh : ¬ p.inputs HOLD_INPUT < triggerThresholdLevel := by
          rcases h with h1 | h1 | h1 | h1
          · exact not_lt.mpr h1
          · rw [hr] at h1; exact absurd h1 Bool.false_ne_true
          · exact absurd hn h1
          · rw [hp] at h1; exact absurd h1 Bool.false_ne_true
        rw [decideChange_hold _ p hl2 hn hp1 hh]
        exact hf.2.2.2.1
      · have hp1 : (schmittLane (processPriority m p).presetTrig (p.inputs PRESET_INPUT)
            triggerThresholdLevel triggerThresholdLevel).1 = true := by
          rw [hf.2.2.1]; exact hp
        rw [decideChange_preset _ p hl2 hn hp1]
        exact hf.2.2.2.1
    · obtain ⟨i, hi⟩ := lowest_exists p hn
      rw [decideChange_select _ p i hl2 hi]
      exact hf.2.2.2.1
  · have hl2 : (processPriority m p).signals.l2 = true := by
      rw [processPriority_signals]; exact hr
    rw [decideChange_reset _ p hl2]
    exact hf.2.2.2.1

theorem stalledRun_keeps_clock (ps : List Ports) :
    ∀ m : VoltageSequencer, StalledRun m ps → (run m ps).clock = m.clock := by
  induction ps with
  | nil => intro m _; rfl
  | cons p ps ih =>
    intro m h
    have e : run m (p :: ps) = run (process m p) ps := rfl
    rw [e, ih (process m p) h.2, stalled_keeps_clock m p h.1]

theorem heldQuiet_keeps_stage (m : VoltageSequencer) (p : Ports) (h : HeldQuiet m p) :
    (process m p).stage = m.stage := by
  obtain ⟨hh, hr, hn, hp⟩ := h
  have hf := processPriority_frame m p
  have hl2 : (processPriority m p).signals.l2 = false := by
    rw [processPriority_signals]; exact hr
  have hp1 : (schmittLane (processPriority m p).presetTrig (p.inputs PRESET_INPUT)
      triggerThresholdLevel triggerThresholdLevel).1 = false := by
    rw [hf.2.2.1]; exact hp
  rw [process_stage, decideChange_hold _ p hl2 hn hp1 (not_lt.mpr hh)]
  simp

theorem heldQuietRun_keeps (ps : List Ports) :
    ∀ m : VoltageSequencer, HeldQuietRun m ps →
      (run m ps).stage = m.stage ∧ (run m ps).clock = m.clock := by
  induction ps with
  | nil => intro m _; exact ⟨rfl, rfl⟩
  | cons p ps ih =>
    intro m h
    have e : run m (p :: ps) = run (process m p) ps := rfl
    obtain ⟨i1, i2⟩ := ih (process m p) h.2
    rw [e, i1, i2]
    exact ⟨heldQuiet_keeps_stage m p h.1, stalled_keeps_clock m p (Or.inl h.1.1)⟩

theorem edge_advances (m : VoltageSequencer) (p : Ports)
    (hr : resetFires m p = false) (hn : noSelect p) (hp : presetFires m p = false)
    (hh : p.inputs HOLD_INPUT < triggerThresholdLevel) (hc : clockEdge m p = true) :
    (process m p).stage = (m.stage + stepOf (process m p).direction) % 8 := by
  have hf := processPriority_frame m p
  have hl2 : (processPriority m p).signals.l2 = false := by
    rw [processPriority_signals]; exact hr
  have hp1 : (schmittLane (processPriority m p).presetTrig (p.inputs PRESET_INPUT)
      triggerThresholdLevel triggerThresholdLevel).1 = false := by
    rw [hf.2.2.1]; exact hp
  have hc1 : (schmittLane (processPriority m p).clock
      (p.params CLOCK_EN_PARAM * p.inputs CLOCK_IN_INPUT)
      triggerThresholdLevel triggerThresholdLevel).1 = true := by
    rw [hf.2.2.2.1]; exact hc
  have hdir : (process m p).direction = (processPriority m p).direction := by
    rw [process, (writeOutputs_frame _ p).1, (decideChange_frame _ p).2.2.1]
  rw [process_stage, decideChange_clock _ p hl2 hn hp1 hh hc1, hdir]
  simp [toSignedChar_emod, hf.1]

theorem holdClockReset_facts :
    (armedAt 5).clock = false ∧
      triggerThresholdLevel ≤ enabledClock holdClockReset ∧
      triggerThresholdLevel ≤ holdClockReset.inputs HOLD_INPUT ∧
      resetFires (armedAt 5) holdClockReset = true := by
  refine ⟨rfl, ?_, ?_, ?_⟩
  · norm_num [enabledClock, holdClockReset, triggerThresholdLevel, CLOCK_IN_INPUT, HOLD_INPUT]
  · norm_num [holdClockReset, triggerThresholdLevel]
  · norm_num [resetFires, signalsOf, schmitt4, schmittLane, priorityInputs, holdClockReset,
      armedAt, triggerThresholdLevel, RESET_INPUT, HOLD_INPUT, CLOCK_IN_INPUT]

/-- C23 refuted as stated: the clock detector is low, the enabled clock input
and Hold are both at or above the threshold, and the step changes from 5 to 0
while Hold is high, because Reset fires on that sample. -/
theorem deferred_edge_counterexample :
    (armedAt 5).clock = false ∧
      triggerThresholdLevel ≤ enabledClock holdClockReset ∧
      triggerThresholdLevel ≤ holdClockReset.inputs HOLD_INPUT ∧
      (armedAt 5).stage = 5 ∧ (process (armedAt 5) holdClockReset).stage = 0 ∧
      (process (armedAt 5) holdClockReset).stage ≠ (armedAt 5).stage := by
  have hf := holdClockReset_facts
  have hl2 : (processPriority (armedAt 5) holdClockReset).signals.l2 = true := by
    rw [processPriority_signals]; exact hf.2.2.2
  have hs : (process (armedAt 5) holdClockReset).stage = 0 := by
    rw [process_stage, decideChange_reset _ _ hl2]
    simp
  have h5 : (armedAt 5).stage = 5 := rfl
  refine ⟨hf.1, hf.2.1, hf.2.2.1, h5, hs, ?_⟩
  rw [hs, h5]
  decide

/-- C23 as amended: the clock edge detector is not updated on a sample where
Hold is at or above the threshold, nor where Reset fires, a select level is
active or Preset fires; so if the detector is low, it stays low over every run
of such samples, the step does not change over a run on which Hold is high and
no reset, select or preset event occurs, and on the first later sample with
Hold below the threshold, no reset, select or preset event and the enabled
clock input at or above the threshold the step advances by one in the current
direction, whether or not the clock input rose on that sample. -/
theorem deferred_clock_edge (m : VoltageSequencer) (ps : List Ports) :
    (∀ p, Stalled m p → (process m p).clock = m.clock) ∧
    (HeldQuietRun m ps → (run m ps).stage = m.stage ∧ (run m ps).clock = m.clock) ∧
    (m.clock = false → StalledRun m ps →
      (run m ps).clock = false ∧
      ∀ q, q.inputs HOLD_INPUT < triggerThresholdLevel →
        resetFires (run m ps) q = false → noSelect q → presetFires (run m ps) q = false →
        triggerThresholdLevel ≤ enabledClock q →
        (process (run m ps) q).stage =
          ((run m ps).stage + stepOf (process (run m ps) q).direction) % 8) := by
  refine ⟨fun p hp => stalled_keeps_clock m p hp, fun hq => heldQuietRun_keeps ps m hq, ?_⟩
  intro hlow hst
  have hc : (run m ps).clock = false := by
    rw [stalledRun_keeps_clock ps m hst, hlow]
  refine ⟨hc, fun q hh hr hn hp hck => ?_⟩
  have he : clockEdge (run m ps) q = true := by
    have hck1 : triggerThresholdLevel ≤ q.params CLOCK_EN_PARAM * q.inputs CLOCK_IN_INPUT := hck
    simp [clockEdge, schmittLane, hc, hck1]
  exact edge_advances (run m ps) q hr hn hp hh he

theorem heldQuiet_holdClock (m : VoltageSequencer) : HeldQuiet m holdClock := by
  refine ⟨?_, ?_, ?_, ?_⟩
  · norm_num [holdClock, triggerThresholdLevel]
  · norm_num [resetFires, signalsOf, schmitt4, schmittLane, priorityInputs, holdClock,
      triggerThresholdLevel, RESET_INPUT, HOLD_INPUT, CLOCK_IN_INPUT]
  · intro i hi
    have h10 : i ≠ 10 := by omega
    have h12 : i ≠ 12 := by omega
    have h24 : i + 16 ≠ 24 := by omega
    norm_num [selectLevel, holdClock, triggerThresholdLevel, CLOCK_EN_PARAM, CLOCK_IN_INPUT,
      HOLD_INPUT, h10, h12, h24]
  · norm_num [presetFires, schmittLane, holdClock, triggerThresholdLevel, PRESET_INPUT,
      HOLD_INPUT, CLOCK_IN_INPUT]

theorem holdClock_direction (m : VoltageSequencer) :
    (process m holdClock).direction = m.direction := by
  have h : directionFires m holdClock = false := by
    norm_num [directionFires, signalsOf, schmitt4, schmittLane, priorityInputs, holdClock,
      triggerThresholdLevel, DIRECTION_INPUT, HOLD_INPUT, CLOCK_IN_INPUT]
  rw [process_direction, h]
  rfl

/-- Witness of the amended C23: at step 3 with the detector low, the clock
input goes to 5 V while Hold is at 5 V for two samples, then Hold drops with
the clock still at 5 V: the step stays 3 during the hold and becomes 4 on the
release sample. -/
theorem deferred_clock_edge_witness :
    (armedAt 3).clock = false ∧ HeldQuietRun (armedAt 3) [holdClock, holdClock] ∧
      StalledRun (armedAt 3) [holdClock, holdClock] ∧
      (run (armedAt 3) [holdClock, holdClock]).stage = 3 ∧
      (run (armedAt 3) [holdClock, holdClock]).clock = false ∧
      triggerThresholdLevel ≤ enabledClock clockHigh ∧
      (process (run (armedAt 3) [holdClock, holdClock]) clockHigh).stage = 4 :=
  have hq : HeldQuietRun (armedAt 3) [holdClock, holdClock] :=
    ⟨heldQuiet_holdClock _, heldQuiet_holdClock _, trivial⟩
  have hs : StalledRun (armedAt 3) [holdClock, holdClock] :=
    ⟨Or.inl (heldQuiet_holdClock (armedAt 3)).1,
      Or.inl (heldQuiet_holdClock (process (armedAt 3) holdClock)).1, trivial⟩
  have hw := deferred_clock_edge (armedAt 3) [holdClock, holdClock]
  have hck : triggerThresholdLevel ≤ enabledClock clockHigh := by
    norm_num [enabledClock, clockHigh, triggerThresholdLevel]
  have hco := clockOnly_clockHigh (run (armedAt 3) [holdClock, holdClock])
  have hstep := (hw.2.2 rfl hs).2 clockHigh hco.2.2.2.2.1 hco.1 hco.2.2.2.1 hco.2.2.1 hck
  have hd0 : (run (armedAt 3) [holdClock, holdClock]).direction = 0 := by
    show (process (process (armedAt 3) holdClock) holdClock).direction = 0
    rw [holdClock_direction, holdClock_direction]
    rfl
  have hdir : (process (run (armedAt 3) [holdClock, holdClock]) clockHigh).direction = 0 := by
    rw [(process_clockOnly _ clockHigh hco).1, hd0]
  ⟨rfl, hq, hs, (hw.2.1 hq).1, (hw.2.2 rfl hs).1, hck, by
    rw [hstep, (hw.2.1 hq).1, hdir]; rfl⟩

end VoltageSequencer

end PatchableDevices
